import Mathlib

/-!
# Parameter codec of `ipc/ipc_message_utils.h`

A shallow embedding of the `ParamTraits` bindings (vector, set, map, pair,
Tuple0..Tuple5) together with the wire buffer they write to and read from.
Stateful C++ code is rendered by explicit state passing: `Write` takes the
message and returns the grown message, `Read` takes the (constant) message,
the cursor and the destination object and returns the success flag, the new
cursor and the new content of the destination.
-/

set_option autoImplicit false

namespace IPC

/-! ## Wire buffer -/

/-- One octet of wire data. -/
abbrev Byte := Fin 256

/-- The C constant `INT_MAX` of a 32-bit `int`. -/
def INT_MAX : Nat := 2147483647

/-- Modelled from the spec: the `Message` envelope of `ipc/ipc_message.h`
(routing id, type, priority) owning one wire buffer, the byte sequence
`payload`. The sync-reply and error discriminants, bits whose position the
spec leaves open, are kept as the two flags `reply` and `reply_error`. -/
structure Message where
  routing_id : Int
  type : Nat
  priority : Nat
  payload : List Byte
  reply : Bool := false
  reply_error : Bool := false
deriving DecidableEq, Repr

/-- Modelled from the spec: the cursor of the wire buffer's reader, kept as the
offset of the next unread byte of the payload (`PickleIterator` of
`base/pickle.h`). -/
abbrev PickleIterator := Nat

/-- Outcome of a `Read`: the returned flag, the cursor after the call and the
content of the destination object after the call. -/
structure ReadResult (P : Type) where
  ok : Bool
  iter : PickleIterator
  value : P
deriving DecidableEq, Repr

/-- Modelled from the spec: `Pickle::WriteBytes`, the only way the buffer
grows: the bytes are appended at the end. -/
def Message.WriteBytes (m : Message) (bs : List Byte) : Message :=
  { m with payload := m.payload ++ bs }

/-- Modelled from the spec: the bounds check of the buffer reader,
`Pickle::IteratorHasRoomFor`: `n` more bytes are available at the cursor. -/
def Message.IteratorHasRoomFor (m : Message) (iter : PickleIterator) (n : Nat) : Bool :=
  decide (iter + n ≤ m.payload.length)

/-- The `n` bytes found at the cursor. -/
def Message.bytesAt (m : Message) (iter : PickleIterator) (n : Nat) : List Byte :=
  (m.payload.drop iter).take n

/-- Little-endian image, four bytes wide, of an unsigned 32-bit quantity. -/
def le32 (n : Nat) : List Byte :=
  [⟨n % 256, Nat.mod_lt _ (by decide)⟩, ⟨n / 256 % 256, Nat.mod_lt _ (by decide)⟩,
   ⟨n / 65536 % 256, Nat.mod_lt _ (by decide)⟩, ⟨n / 16777216 % 256, Nat.mod_lt _ (by decide)⟩]

/-- Value of a little-endian byte run. -/
def leValue : List Byte → Nat
  | [] => 0
  | b :: bs => b.val + 256 * leValue bs

/-- Bit pattern of a signed 32-bit `int` (two's complement);
also the conversion `static_cast<unsigned>(v)`. -/
def ofInt32 (v : Int) : Nat := (v % 4294967296).toNat

/-- Signed reading of a 32-bit pattern; also the conversion
`static_cast<int>(n)` of an unsigned quantity, which keeps the low 32 bits. -/
def toInt32 (n : Nat) : Int :=
  if n % 4294967296 < 2147483648 then ((n % 4294967296 : Nat) : Int)
  else ((n % 4294967296 : Nat) : Int) - 4294967296

/-- Modelled from the spec: `Pickle::WriteInt`, a 32-bit integer written as a
fixed-width field of four bytes in native (little-endian) form. -/
def Message.WriteInt (m : Message) (value : Int) : Message :=
  m.WriteBytes (le32 (ofInt32 value))

/-- Modelled from the spec: `Pickle::ReadInt`. Fails, leaving cursor and
`result` alone, when fewer than four bytes remain; otherwise stores the
field in `result` and advances the cursor by four. -/
def Message.ReadInt (m : Message) (iter : PickleIterator) (result : Int) : ReadResult Int :=
  if m.IteratorHasRoomFor iter 4 then ⟨true, iter + 4, toInt32 (leValue (m.bytesAt iter 4))⟩
  else ⟨false, iter, result⟩

/-- Modelled from the spec: `Pickle::ReadLength`, which is `ReadInt` followed
by the test that the value read is not negative (the source's comment at its
call site: "ReadLength() checks for < 0 itself"). -/
def Message.ReadLength (m : Message) (iter : PickleIterator) (result : Int) : ReadResult Int :=
  let r := m.ReadInt iter result
  ⟨r.ok && decide (0 ≤ r.value), r.iter, r.value⟩

/-- Modelled from the spec: `Pickle::WriteBool`, a boolean written as the
32-bit integer 1 or 0. -/
def Message.WriteBool (m : Message) (value : Bool) : Message :=
  m.WriteInt (if value then 1 else 0)

/-- Modelled from the spec: `Pickle::ReadBool`, a 32-bit field read back as
"is not zero". -/
def Message.ReadBool (m : Message) (iter : PickleIterator) (result : Bool) : ReadResult Bool :=
  let r := m.ReadInt iter 0
  if r.ok then ⟨true, r.iter, decide (r.value ≠ 0)⟩ else ⟨false, r.iter, result⟩

/-! ## ParamTraits -/

/-- A `ParamTraits<P>` binding: the `Write` and `Read` members of the
specialisation for `P`. -/
structure ParamTraits (P : Type) where
  Write : Message → P → Message
  Read : Message → PickleIterator → P → ReadResult P

/-- `WriteParam(m, p)`: forwards to the binding of the type. -/
def WriteParam {P : Type} (T : ParamTraits P) (m : Message) (p : P) : Message :=
  T.Write m p

/-- `ReadParam(m, iter, p)`: forwards to the binding of the type. -/
def ReadParam {P : Type} (T : ParamTraits P) (m : Message) (iter : PickleIterator) (p : P) :
    ReadResult P :=
  T.Read m iter p

/-- `ParamTraits<bool>`. -/
def ParamTraits_bool : ParamTraits Bool where
  Write m p := m.WriteBool p
  Read m iter r := m.ReadBool iter r

/-- `ParamTraits<int>`. -/
def ParamTraits_int : ParamTraits Int where
  Write m p := m.WriteInt p
  Read m iter r := m.ReadInt iter r

/-- `std::vector<P>::resize(n)`: keeps the first `n` elements and pads with
value-initialised elements. -/
def vector_resize {P : Type} [Inhabited P] (r : List P) (n : Nat) : List P :=
  r.take n ++ List.replicate (n - r.length) default

/-- `ParamTraits<std::vector<P>>::Write`, the loop
`for (i = 0; i < p.size(); i++) WriteParam(m, p[i])`. -/
def ParamTraits_vector.Write_loop {P : Type} (T : ParamTraits P) : Message → List P → Message
  | m, [] => m
  | m, x :: xs => ParamTraits_vector.Write_loop T (WriteParam T m x) xs

/-- `ParamTraits<std::vector<P>>::Write`: the size cast to `int`, then the
elements in order. -/
def ParamTraits_vector.Write {P : Type} (T : ParamTraits P) (m : Message) (p : List P) : Message :=
  ParamTraits_vector.Write_loop T (WriteParam ParamTraits_int m (toInt32 p.length)) p

/-- `ParamTraits<std::vector<P>>::Read`, the loop
`for (int i = 0; i < size; i++) if (!ReadParam(m, iter, &(*r)[i])) return false;`
The first argument counts the iterations still to run (`size - i`). -/
def ParamTraits_vector.Read_loop {P : Type} [Inhabited P] (T : ParamTraits P) (m : Message) :
    Nat → Nat → PickleIterator → List P → ReadResult (List P)
  | 0, _, iter, r => ⟨true, iter, r⟩
  | n + 1, i, iter, r =>
    let e := ReadParam T m iter (r.getD i default)
    if e.ok then ParamTraits_vector.Read_loop T m n (i + 1) e.iter (r.set i e.value)
    else ⟨false, e.iter, r.set i e.value⟩

/-- `ParamTraits<std::vector<P>>::Read`; `sizeof_P` is `sizeof(P)`, which is at least 1
for every C++ type. -/
def ParamTraits_vector.Read {P : Type} [Inhabited P] (sizeof_P : Nat) (T : ParamTraits P)
    (m : Message) (iter : PickleIterator) (r : List P) : ReadResult (List P) :=
  let size := m.ReadLength iter 0
  if !size.ok then ⟨false, size.iter, r⟩
  else if INT_MAX / sizeof_P ≤ size.value.toNat then ⟨false, size.iter, r⟩
  else ParamTraits_vector.Read_loop T m size.value.toNat 0 size.iter
    (vector_resize r size.value.toNat)

/-- `ParamTraits<std::vector<P>>`. -/
def ParamTraits_vector {P : Type} [Inhabited P] (sizeof_P : Nat) (T : ParamTraits P) :
    ParamTraits (List P) where
  Write := ParamTraits_vector.Write T
  Read := ParamTraits_vector.Read sizeof_P T

/-! ### std::set -/

/-- Insertion into the ascending member list of a `std::set`; a member that is
already present is kept and nothing is added. -/
def set_insert {P : Type} [LinearOrder P] (x : P) : List P → List P
  | [] => [x]
  | y :: ys =>
    if x < y then x :: y :: ys
    else if y < x then y :: set_insert x ys
    else y :: ys

theorem mem_set_insert {P : Type} [LinearOrder P] (x a : P) (l : List P) :
    a ∈ set_insert x l ↔ a = x ∨ a ∈ l := by
  induction l with
  | nil => simp [set_insert]
  | cons y ys ih =>
    unfold set_insert
    split_ifs with h1 h2
    · simp
    · simp only [List.mem_cons, ih]; tauto
    · have hxy : x = y := le_antisymm (not_lt.mp h2) (not_lt.mp h1)
      subst hxy; simp

theorem sorted_set_insert {P : Type} [LinearOrder P] (x : P) (l : List P)
    (h : l.Sorted (· < ·)) : (set_insert x l).Sorted (· < ·) := by
  induction l with
  | nil => simp [set_insert]
  | cons y ys ih =>
    have hy := List.sorted_cons.mp h
    unfold set_insert
    split_ifs with h1 h2
    · exact List.sorted_cons.mpr ⟨fun b hb => by
        rcases List.mem_cons.mp hb with rfl | hb
        · exact h1
        · exact lt_trans h1 (hy.1 b hb), h⟩
    · refine List.sorted_cons.mpr ⟨fun b hb => ?_, ih hy.2⟩
      rcases (mem_set_insert x b ys).mp hb with rfl | hb
      · exact h2
      · exact hy.1 b hb
    · exact h

/-- `std::set<P>`: the members in the ascending order in which the container
iterates them, without repetition. -/
def std_set (P : Type) [LinearOrder P] : Type := { l : List P // l.Sorted (· < ·) }

instance {P : Type} [LinearOrder P] : DecidableEq (std_set P) :=
  inferInstanceAs (DecidableEq { l : List P // l.Sorted (· < ·) })

/-- The members of the set, from `begin()` to `end()`. -/
def std_set.elems {P : Type} [LinearOrder P] (s : std_set P) : List P := s.val

/-- The empty set, the value of a default-constructed `std::set`. -/
def std_set.empty {P : Type} [LinearOrder P] : std_set P := ⟨[], List.sorted_nil⟩

instance {P : Type} [LinearOrder P] : Inhabited (std_set P) := ⟨std_set.empty⟩

/-- `std::set<P>::size()`. -/
def std_set.size {P : Type} [LinearOrder P] (s : std_set P) : Nat := s.val.length

/-- `std::set<P>::insert(item)`. -/
def std_set.insert {P : Type} [LinearOrder P] (s : std_set P) (item : P) : std_set P :=
  ⟨set_insert item s.val, sorted_set_insert item s.val s.property⟩

/-- `ParamTraits<std::set<P>>::Write`, the loop over `p.begin() .. p.end()`. -/
def ParamTraits_set.Write_loop {P : Type} (T : ParamTraits P) : Message → List P → Message
  | m, [] => m
  | m, x :: xs => ParamTraits_set.Write_loop T (WriteParam T m x) xs

/-- `ParamTraits<std::set<P>>::Write`. -/
def ParamTraits_set.Write {P : Type} [LinearOrder P] (T : ParamTraits P) (m : Message)
    (p : std_set P) : Message :=
  ParamTraits_set.Write_loop T (WriteParam ParamTraits_int m (toInt32 p.size)) p.elems

/-- `ParamTraits<std::set<P>>::Read`, the loop
`for (i = 0; i < size; ++i) { P item; if (!ReadParam(m, iter, &item)) return false; r->insert(item); }`
The first argument counts the iterations still to run. -/
def ParamTraits_set.Read_loop {P : Type} [LinearOrder P] [Inhabited P] (T : ParamTraits P)
    (m : Message) : Nat → PickleIterator → std_set P → ReadResult (std_set P)
  | 0, iter, r => ⟨true, iter, r⟩
  | n + 1, iter, r =>
    let item := ReadParam T m iter default
    if !item.ok then ⟨false, item.iter, r⟩
    else ParamTraits_set.Read_loop T m n item.iter (r.insert item.value)

/-- `ParamTraits<std::set<P>>::Read`. -/
def ParamTraits_set.Read {P : Type} [LinearOrder P] [Inhabited P] (T : ParamTraits P)
    (m : Message) (iter : PickleIterator) (r : std_set P) : ReadResult (std_set P) :=
  let size := m.ReadLength iter 0
  if !size.ok then ⟨false, size.iter, r⟩
  else ParamTraits_set.Read_loop T m size.value.toNat size.iter r

/-- `ParamTraits<std::set<P>>`. -/
def ParamTraits_set {P : Type} [LinearOrder P] [Inhabited P] (T : ParamTraits P) :
    ParamTraits (std_set P) where
  Write := ParamTraits_set.Write T
  Read := ParamTraits_set.Read T

/-! ### std::map -/

/-- Assignment `m[k] = v` on the key-ascending entry list of a `std::map`:
the entry of `k` is replaced when there is one and inserted in key order
otherwise. -/
def map_assign {K V : Type} [LinearOrder K] (k : K) (v : V) : List (K × V) → List (K × V)
  | [] => [(k, v)]
  | e :: es =>
    if k < e.1 then (k, v) :: e :: es
    else if e.1 < k then e :: map_assign k v es
    else (k, v) :: es

/-- Lookup of a key in the entry list of a `std::map` (`find`). -/
def map_find {K V : Type} [LinearOrder K] (k : K) : List (K × V) → Option V
  | [] => none
  | e :: es => if e.1 = k then some e.2 else map_find k es

theorem mem_keys_map_assign {K V : Type} [LinearOrder K] (k a : K) (v : V) (l : List (K × V)) :
    a ∈ (map_assign k v l).map Prod.fst ↔ a = k ∨ a ∈ l.map Prod.fst := by
  induction l with
  | nil => simp [map_assign]
  | cons e es ih =>
    unfold map_assign
    split_ifs with h1 h2
    · simp
    · simp only [List.map_cons, List.mem_cons, ih]; tauto
    · have hk : k = e.1 := le_antisymm (not_lt.mp h2) (not_lt.mp h1)
      simp only [List.map_cons, List.mem_cons, hk]; tauto

theorem sorted_map_assign {K V : Type} [LinearOrder K] (k : K) (v : V) (l : List (K × V))
    (h : (l.map Prod.fst).Sorted (· < ·)) : ((map_assign k v l).map Prod.fst).Sorted (· < ·) := by
  induction l with
  | nil => simp [map_assign]
  | cons e es ih =>
    have he : (∀ b ∈ es.map Prod.fst, e.1 < b) ∧ (es.map Prod.fst).Sorted (· < ·) :=
      List.sorted_cons.mp h
    unfold map_assign
    split_ifs with h1 h2
    · refine List.sorted_cons.mpr ⟨fun b hb => ?_, h⟩
      rcases List.mem_cons.mp hb with rfl | hb
      · exact h1
      · exact lt_trans h1 (he.1 b hb)
    · refine List.sorted_cons.mpr ⟨fun b hb => ?_, ih he.2⟩
      rcases (mem_keys_map_assign k b v es).mp hb with rfl | hb
      · exact h2
      · exact he.1 b hb
    · have hk : k = e.1 := le_antisymm (not_lt.mp h2) (not_lt.mp h1)
      simpa [hk] using h

/-- `std::map<K, V>`: the entries in the ascending key order in which the
container iterates them, one entry per key. -/
def std_map (K V : Type) [LinearOrder K] : Type :=
  { l : List (K × V) // (l.map Prod.fst).Sorted (· < ·) }

instance {K V : Type} [LinearOrder K] [DecidableEq V] : DecidableEq (std_map K V) :=
  inferInstanceAs (DecidableEq { l : List (K × V) // (l.map Prod.fst).Sorted (· < ·) })

/-- The entries of the map, from `begin()` to `end()`. -/
def std_map.entries {K V : Type} [LinearOrder K] (s : std_map K V) : List (K × V) := s.val

/-- The empty map, the value of a default-constructed `std::map`. -/
def std_map.empty {K V : Type} [LinearOrder K] : std_map K V := ⟨[], List.sorted_nil⟩

instance {K V : Type} [LinearOrder K] : Inhabited (std_map K V) := ⟨std_map.empty⟩

/-- `std::map<K, V>::size()`. -/
def std_map.size {K V : Type} [LinearOrder K] (s : std_map K V) : Nat := s.val.length

/-- `std::map<K, V>::find(k)`, as the mapped value when the key is present. -/
def std_map.find {K V : Type} [LinearOrder K] (s : std_map K V) (k : K) : Option V :=
  map_find k s.val

/-- The object `(*r)[k]` refers to: the mapped value of `k`, value-initialised
when `operator[]` has to insert the key. -/
def std_map.at {K V : Type} [LinearOrder K] [Inhabited V] (s : std_map K V) (k : K) : V :=
  (s.find k).getD default

/-- The map after a store through the reference `(*r)[k]`. -/
def std_map.assign {K V : Type} [LinearOrder K] (s : std_map K V) (k : K) (v : V) : std_map K V :=
  ⟨map_assign k v s.val, sorted_map_assign k v s.val s.property⟩

/-- `ParamTraits<std::map<K, V>>::Write`, the loop over `p.begin() .. p.end()`
writing `iter->first` then `iter->second`. -/
def ParamTraits_map.Write_loop {K V : Type} (TK : ParamTraits K) (TV : ParamTraits V) :
    Message → List (K × V) → Message
  | m, [] => m
  | m, e :: es => ParamTraits_map.Write_loop TK TV (WriteParam TV (WriteParam TK m e.1) e.2) es

/-- `ParamTraits<std::map<K, V>>::Write`. -/
def ParamTraits_map.Write {K V : Type} [LinearOrder K] (TK : ParamTraits K) (TV : ParamTraits V)
    (m : Message) (p : std_map K V) : Message :=
  ParamTraits_map.Write_loop TK TV (WriteParam ParamTraits_int m (toInt32 p.size)) p.entries

/-- `ParamTraits<std::map<K, V>>::Read`, the loop
`for (i = 0; i < size; ++i) { K k; if (!ReadParam(m, iter, &k)) return false;
V& value = (*r)[k]; if (!ReadParam(m, iter, &value)) return false; }`.
The first argument counts the iterations still to run. -/
def ParamTraits_map.Read_loop {K V : Type} [LinearOrder K] [Inhabited K] [Inhabited V]
    (TK : ParamTraits K) (TV : ParamTraits V) (m : Message) :
    Nat → PickleIterator → std_map K V → ReadResult (std_map K V)
  | 0, iter, r => ⟨true, iter, r⟩
  | n + 1, iter, r =>
    let k := ReadParam TK m iter default
    if !k.ok then ⟨false, k.iter, r⟩
    else
      let value := ReadParam TV m k.iter (r.at k.value)
      if !value.ok then ⟨false, value.iter, r.assign k.value value.value⟩
      else ParamTraits_map.Read_loop TK TV m n value.iter (r.assign k.value value.value)

/-- `ParamTraits<std::map<K, V>>::Read`. -/
def ParamTraits_map.Read {K V : Type} [LinearOrder K] [Inhabited K] [Inhabited V]
    (TK : ParamTraits K) (TV : ParamTraits V) (m : Message) (iter : PickleIterator)
    (r : std_map K V) : ReadResult (std_map K V) :=
  let size := ReadParam ParamTraits_int m iter 0
  if !size.ok || decide (size.value < 0) then ⟨false, size.iter, r⟩
  else ParamTraits_map.Read_loop TK TV m size.value.toNat size.iter r

/-- `ParamTraits<std::map<K, V>>`. -/
def ParamTraits_map {K V : Type} [LinearOrder K] [Inhabited K] [Inhabited V]
    (TK : ParamTraits K) (TV : ParamTraits V) : ParamTraits (std_map K V) where
  Write := ParamTraits_map.Write TK TV
  Read := ParamTraits_map.Read TK TV

/-! ### std::pair and Tuple0..Tuple5 -/

/-- `ParamTraits<std::pair<A, B>>::Write`. -/
def ParamTraits_pair.Write {A B : Type} (TA : ParamTraits A) (TB : ParamTraits B)
    (m : Message) (p : A × B) : Message :=
  WriteParam TB (WriteParam TA m p.1) p.2

/-- `ParamTraits<std::pair<A, B>>::Read`:
`ReadParam(m, iter, &r->first) && ReadParam(m, iter, &r->second)`. -/
def ParamTraits_pair.Read {A B : Type} (TA : ParamTraits A) (TB : ParamTraits B)
    (m : Message) (iter : PickleIterator) (r : A × B) : ReadResult (A × B) :=
  let first := ReadParam TA m iter r.1
  if !first.ok then ⟨false, first.iter, (first.value, r.2)⟩
  else
    let second := ReadParam TB m first.iter r.2
    ⟨second.ok, second.iter, (first.value, second.value)⟩

/-- `ParamTraits<std::pair<A, B>>`. -/
def ParamTraits_pair {A B : Type} (TA : ParamTraits A) (TB : ParamTraits B) :
    ParamTraits (A × B) where
  Write := ParamTraits_pair.Write TA TB
  Read := ParamTraits_pair.Read TA TB

/-- Modelled from the spec: `Tuple0` of `base/tuple.h`, the tuple pack with
no field. -/
structure Tuple0 where
deriving DecidableEq, Repr

/-- Modelled from the spec: `Tuple1<A>` of `base/tuple.h`, the tuple pack with
the field `a`. -/
structure Tuple1 (A : Type) where
  a : A
deriving DecidableEq, Repr

/-- Modelled from the spec: `Tuple2<A, B>` of `base/tuple.h`, the tuple pack with
the fields `a`, `b`. -/
structure Tuple2 (A B : Type) where
  a : A
  b : B
deriving DecidableEq, Repr

/-- Modelled from the spec: `Tuple3<A, B, C>` of `base/tuple.h`, the tuple pack with
the fields `a`, `b`, `c`. -/
structure Tuple3 (A B C : Type) where
  a : A
  b : B
  c : C
deriving DecidableEq, Repr

/-- Modelled from the spec: `Tuple4<A, B, C, D>` of `base/tuple.h`, the tuple pack with
the fields `a`, `b`, `c`, `d`. -/
structure Tuple4 (A B C D : Type) where
  a : A
  b : B
  c : C
  d : D
deriving DecidableEq, Repr

/-- Modelled from the spec: `Tuple5<A, B, C, D, E>` of `base/tuple.h`, the tuple pack with
the fields `a`, `b`, `c`, `d`, `e`. -/
structure Tuple5 (A B C D E : Type) where
  a : A
  b : B
  c : C
  d : D
  e : E
deriving DecidableEq, Repr

/-- `ParamTraits<Tuple0>`: `Write` is empty and `Read` returns true. -/
def ParamTraits_Tuple0 : ParamTraits Tuple0 where
  Write m _ := m
  Read _ iter r := ⟨true, iter, r⟩

/-- `ParamTraits<Tuple1<A>>`. -/
def ParamTraits_Tuple1 {A : Type} (TA : ParamTraits A) : ParamTraits (Tuple1 A) where
  Write m p := WriteParam TA m p.a
  Read m iter r :=
    let a := ReadParam TA m iter r.a
    ⟨a.ok, a.iter, { r with a := a.value }⟩

/-- `ParamTraits<Tuple2<A, B>>`. -/
def ParamTraits_Tuple2 {A B : Type} (TA : ParamTraits A) (TB : ParamTraits B) :
    ParamTraits (Tuple2 A B) where
  Write m p := WriteParam TB (WriteParam TA m p.a) p.b
  Read m iter r :=
    let a := ReadParam TA m iter r.a
    if !a.ok then ⟨false, a.iter, { r with a := a.value }⟩
    else
      let b := ReadParam TB m a.iter r.b
      ⟨b.ok, b.iter, { r with a := a.value, b := b.value }⟩

/-- `ParamTraits<Tuple3<A, B, C>>`. -/
def ParamTraits_Tuple3 {A B C : Type} (TA : ParamTraits A) (TB : ParamTraits B)
    (TC : ParamTraits C) : ParamTraits (Tuple3 A B C) where
  Write m p := WriteParam TC (WriteParam TB (WriteParam TA m p.a) p.b) p.c
  Read m iter r :=
    let a := ReadParam TA m iter r.a
    if !a.ok then ⟨false, a.iter, { r with a := a.value }⟩
    else
      let b := ReadParam TB m a.iter r.b
      if !b.ok then ⟨false, b.iter, { r with a := a.value, b := b.value }⟩
      else
        let c := ReadParam TC m b.iter r.c
        ⟨c.ok, c.iter, { r with a := a.value, b := b.value, c := c.value }⟩

/-- `ParamTraits<Tuple4<A, B, C, D>>`. -/
def ParamTraits_Tuple4 {A B C D : Type} (TA : ParamTraits A) (TB : ParamTraits B)
    (TC : ParamTraits C) (TD : ParamTraits D) : ParamTraits (Tuple4 A B C D) where
  Write m p := WriteParam TD (WriteParam TC (WriteParam TB (WriteParam TA m p.a) p.b) p.c) p.d
  Read m iter r :=
    let a := ReadParam TA m iter r.a
    if !a.ok then ⟨false, a.iter, { r with a := a.value }⟩
    else
      let b := ReadParam TB m a.iter r.b
      if !b.ok then ⟨false, b.iter, { r with a := a.value, b := b.value }⟩
      else
        let c := ReadParam TC m b.iter r.c
        if !c.ok then ⟨false, c.iter, { r with a := a.value, b := b.value, c := c.value }⟩
        else
          let d := ReadParam TD m c.iter r.d
          ⟨d.ok, d.iter, { r with a := a.value, b := b.value, c := c.value, d := d.value }⟩

/-- `ParamTraits<Tuple5<A, B, C, D, E>>`. -/
def ParamTraits_Tuple5 {A B C D E : Type} (TA : ParamTraits A) (TB : ParamTraits B)
    (TC : ParamTraits C) (TD : ParamTraits D) (TE : ParamTraits E) :
    ParamTraits (Tuple5 A B C D E) where
  Write m p :=
    WriteParam TE (WriteParam TD (WriteParam TC (WriteParam TB (WriteParam TA m p.a) p.b) p.c)
      p.d) p.e
  Read m iter r :=
    let a := ReadParam TA m iter r.a
    if !a.ok then ⟨false, a.iter, { r with a := a.value }⟩
    else
      let b := ReadParam TB m a.iter r.b
      if !b.ok then ⟨false, b.iter, { r with a := a.value, b := b.value }⟩
      else
        let c := ReadParam TC m b.iter r.c
        if !c.ok then ⟨false, c.iter, { r with a := a.value, b := b.value, c := c.value }⟩
        else
          let d := ReadParam TD m c.iter r.d
          if !d.ok then
            ⟨false, d.iter, { r with a := a.value, b := b.value, c := c.value, d := d.value }⟩
          else
            let e := ReadParam TE m d.iter r.e
            ⟨e.ok, e.iter,
              { r with a := a.value, b := b.value, c := c.value, d := d.value, e := e.value }⟩

/-! ## Properties of bindings -/

/-- The binding writes by appending: `Write` adds the bytes `enc p`, which
depend on the value only, at the end of the payload and changes nothing else
of the message. -/
def Appends {P : Type} (T : ParamTraits P) (enc : P → List Byte) : Prop :=
  ∀ (m : Message) (p : P), T.Write m p = m.WriteBytes (enc p)

/-- The binding reads back what it wrote: wherever the bytes `enc v` stand in
a payload, followed by whatever bytes `rest`, a `Read` started at their first
byte into a destination allowed by `D` returns true, stores `v` and leaves the
cursor on the first byte of `rest`. `V` delimits the values concerned. -/
def ReadsBack {P : Type} (T : ParamTraits P) (enc : P → List Byte) (D V : P → Prop) : Prop :=
  ∀ (m : Message) (pre rest : List Byte) (d v : P), D d → V v →
    m.payload = pre ++ enc v ++ rest →
    T.Read m pre.length d = ⟨true, pre.length + (enc v).length, v⟩

/-- The codec round-trips: it appends `enc` and reads it back. -/
def RoundTrips {P : Type} (T : ParamTraits P) (enc : P → List Byte) (D V : P → Prop) : Prop :=
  Appends T enc ∧ ReadsBack T enc D V

/-- The range of a 32-bit `int`. -/
def IsInt32 (v : Int) : Prop := -2147483648 ≤ v ∧ v < 2147483648

instance (v : Int) : Decidable (IsInt32 v) := inferInstanceAs (Decidable (_ ∧ _))

/-- The bytes `ParamTraits<int>::Write` appends. -/
def enc_int (v : Int) : List Byte := le32 (ofInt32 v)

/-- The bytes `ParamTraits<bool>::Write` appends. -/
def enc_bool (v : Bool) : List Byte := le32 (ofInt32 (if v then 1 else 0))

/-- The bytes `ParamTraits<std::vector<P>>::Write` appends when the element
binding appends `enc`. -/
def enc_vector {P : Type} (enc : P → List Byte) (v : List P) : List Byte :=
  enc_int (toInt32 v.length) ++ v.flatMap enc

/-! ## Wire buffer lemmas -/

theorem leValue_le32 (n : Nat) : leValue (le32 n) = n % 4294967296 := by
  simp only [le32, leValue]
  omega

theorem length_le32 (n : Nat) : (le32 n).length = 4 := rfl

theorem toInt32_ofInt32 (v : Int) (h : IsInt32 v) : toInt32 (ofInt32 v) = v := by
  obtain ⟨h1, h2⟩ := h
  unfold toInt32 ofInt32
  split_ifs with hlt <;> omega

theorem toInt32_of_lt (n : Nat) (h : n < 2147483648) : toInt32 n = (n : Int) := by
  unfold toInt32
  split_ifs with hlt <;> omega

theorem isInt32_toInt32 (n : Nat) : IsInt32 (toInt32 n) := by
  unfold toInt32 IsInt32
  split_ifs with hlt <;> omega

theorem WriteBytes_payload (m : Message) (bs : List Byte) :
    (m.WriteBytes bs).payload = m.payload ++ bs := rfl

theorem WriteBytes_WriteBytes (m : Message) (bs cs : List Byte) :
    (m.WriteBytes bs).WriteBytes cs = m.WriteBytes (bs ++ cs) := by
  simp [Message.WriteBytes]

theorem WriteBytes_nil (m : Message) : m.WriteBytes [] = m := by
  simp [Message.WriteBytes]

/-- What `ReadInt` returns where a four-byte field stands in the payload. -/
theorem ReadInt_field (m : Message) (pre rest : List Byte) (u : Nat) (result : Int)
    (h : m.payload = pre ++ le32 u ++ rest) :
    m.ReadInt pre.length result = ⟨true, pre.length + 4, toInt32 u⟩ := by
  have hroom : m.IteratorHasRoomFor pre.length 4 = true := by
    simp [Message.IteratorHasRoomFor, h, length_le32]
  have hbytes : m.bytesAt pre.length 4 = le32 u := by
    simp only [Message.bytesAt, h, List.append_assoc, List.drop_left]
    exact List.take_left (le32 u) rest
  have hval : toInt32 (u % 4294967296) = toInt32 u := by
    simp [toInt32]
  simp [Message.ReadInt, hroom, hbytes, leValue_le32, hval]

theorem appends_int : Appends ParamTraits_int enc_int := fun _ _ => rfl

theorem readsBack_int : ReadsBack ParamTraits_int enc_int (fun _ => True) IsInt32 := by
  intro m pre rest d v _ hv h
  have := ReadInt_field m pre rest (ofInt32 v) d h
  simpa [ParamTraits_int, enc_int, length_le32, toInt32_ofInt32 v hv] using this

theorem roundTrips_int : RoundTrips ParamTraits_int enc_int (fun _ => True) IsInt32 :=
  ⟨appends_int, readsBack_int⟩

/-! ## Sequences -/

theorem vector_Write_loop_appends {P : Type} (T : ParamTraits P) (enc : P → List Byte)
    (hT : Appends T enc) (m : Message) (xs : List P) :
    ParamTraits_vector.Write_loop T m xs = m.WriteBytes (xs.flatMap enc) := by
  induction xs generalizing m with
  | nil => simp [ParamTraits_vector.Write_loop, WriteBytes_nil]
  | cons x xs ih =>
    simp [ParamTraits_vector.Write_loop, WriteParam, hT m x, ih, WriteBytes_WriteBytes]

theorem appends_vector {P : Type} [Inhabited P] (sizeof_P : Nat) (T : ParamTraits P)
    (enc : P → List Byte) (hT : Appends T enc) :
    Appends (ParamTraits_vector sizeof_P T) (enc_vector enc) := by
  intro m p
  simp [ParamTraits_vector, ParamTraits_vector.Write, WriteParam, appends_int m,
    vector_Write_loop_appends T enc hT, WriteBytes_WriteBytes, enc_vector]

/-- The element loop of the sequence `Read` on a run of element encodings:
every element is read into its slot, in order. -/
theorem vector_Read_loop_readsBack {P : Type} [Inhabited P] (T : ParamTraits P)
    (enc : P → List Byte) (D V : P → Prop) (hT : ReadsBack T enc D V) (m : Message)
    (rest : List Byte) (todo : List P) :
    ∀ (done dests : List P) (pre : List Byte), dests.length = todo.length →
      (∀ d ∈ dests, D d) → (∀ x ∈ todo, V x) →
      m.payload = pre ++ todo.flatMap enc ++ rest →
      ParamTraits_vector.Read_loop T m todo.length done.length pre.length (done ++ dests) =
        ⟨true, pre.length + (todo.flatMap enc).length, done ++ todo⟩ := by
  induction todo with
  | nil =>
    intro done dests pre hlen _ _ _
    have : dests = [] := List.length_eq_zero.mp hlen
    simp [ParamTraits_vector.Read_loop, this]
  | cons x xs ih =>
    intro done dests pre hlen hD hV hpay
    obtain _ | ⟨d, ds⟩ := dests
    · simp at hlen
    have hget : (done ++ d :: ds).getD done.length default = d := by
      rw [List.getD_append_right _ _ _ _ (le_refl _)]; simp
    have hset : ∀ y : P, (done ++ d :: ds).set done.length y = (done ++ [y]) ++ ds := by
      intro y; simp [List.set_append_right]
    have hread := hT m pre (xs.flatMap enc ++ rest) d x (hD d (by simp)) (hV x (by simp))
      (by simpa [List.flatMap_cons, List.append_assoc] using hpay)
    have hnext := ih (done ++ [x]) ds (pre ++ enc x) (by simpa using hlen)
      (fun d' hd' => hD d' (by simp [hd'])) (fun y hy => hV y (by simp [hy]))
      (by simpa [List.flatMap_cons, List.append_assoc] using hpay)
    have hlen1 : (done ++ [x]).length = done.length + 1 := by simp
    rw [hlen1, List.length_append] at hnext
    simp only [List.length_cons, ParamTraits_vector.Read_loop, ReadParam, hget, hread, hset,
      if_true, hnext]
    simp [List.flatMap_cons, Nat.add_assoc]

theorem vector_resize_length {P : Type} [Inhabited P] (r : List P) (n : Nat) :
    (vector_resize r n).length = n := by
  simp [vector_resize]; omega

theorem vector_resize_mem {P : Type} [Inhabited P] (r : List P) (n : Nat) (d : P)
    (h : d ∈ vector_resize r n) : d ∈ r ∨ d = default := by
  simp only [vector_resize, List.mem_append, List.mem_replicate] at h
  rcases h with h | h
  · exact Or.inl (List.mem_of_mem_take h)
  · exact Or.inr h.2

/-- Sequences round-trip when their elements do: into every destination whose
elements are destinations the element binding round-trips into (the slots kept
by `resize`), the padding being value-initialised, and for every sequence of
fewer than `INT_MAX / sizeof(P)` elements. -/
theorem readsBack_vector {P : Type} [Inhabited P] (sizeof_P : Nat) (T : ParamTraits P)
    (enc : P → List Byte) (D V : P → Prop) (hT : ReadsBack T enc D V) (hdef : D default) :
    ReadsBack (ParamTraits_vector sizeof_P T) (enc_vector enc) (fun r => ∀ d ∈ r, D d)
      (fun v => v.length < INT_MAX / sizeof_P ∧ ∀ x ∈ v, V x) := by
  intro m pre rest r v hr hv hpay
  obtain ⟨hsize, hV⟩ := hv
  have hmax : INT_MAX / sizeof_P ≤ INT_MAX := Nat.div_le_self _ _
  have hlt : v.length < 2147483648 := by unfold INT_MAX at hmax hsize; omega
  have hcount : m.ReadInt pre.length 0 = ⟨true, pre.length + 4, (v.length : Int)⟩ := by
    have := ReadInt_field m pre (v.flatMap enc ++ rest) (ofInt32 (toInt32 v.length)) 0
      (by simpa [enc_vector, enc_int, List.append_assoc] using hpay)
    rw [this, toInt32_ofInt32 _ (isInt32_toInt32 _), toInt32_of_lt _ hlt]
  have hloop := vector_Read_loop_readsBack T enc D V hT m rest v [] (vector_resize r v.length)
    (pre ++ enc_int (toInt32 v.length)) (vector_resize_length r v.length)
    (fun d hd => (vector_resize_mem r v.length d hd).elim (hr d) (fun h => h ▸ hdef)) hV
    (by simpa [enc_vector, List.append_assoc] using hpay)
  simp only [List.length_nil, List.nil_append, List.length_append, enc_int, length_le32] at hloop
  simp only [ParamTraits_vector, ParamTraits_vector.Read, Message.ReadLength, hcount,
    Int.toNat_ofNat, Nat.not_le.mpr hsize, enc_vector, enc_int, List.length_append, length_le32]
  simp [hloop, Nat.add_assoc]

/-- An empty message, used to exhibit concrete runs. -/
def emptyMessage : Message := { routing_id := 0, type := 0, priority := 0, payload := [] }

/-- The bytes `ParamTraits<std::set<P>>::Write` appends when the element
binding appends `enc`. -/
def enc_set {P : Type} [LinearOrder P] (enc : P → List Byte) (s : std_set P) : List Byte :=
  enc_int (toInt32 s.size) ++ s.elems.flatMap enc

theorem set_Write_loop_appends {P : Type} (T : ParamTraits P) (enc : P → List Byte)
    (hT : Appends T enc) (m : Message) (xs : List P) :
    ParamTraits_set.Write_loop T m xs = m.WriteBytes (xs.flatMap enc) := by
  induction xs generalizing m with
  | nil => simp [ParamTraits_set.Write_loop, WriteBytes_nil]
  | cons x xs ih =>
    simp [ParamTraits_set.Write_loop, WriteParam, hT m x, ih, WriteBytes_WriteBytes]

theorem appends_set {P : Type} [LinearOrder P] [Inhabited P] (T : ParamTraits P)
    (enc : P → List Byte) (hT : Appends T enc) : Appends (ParamTraits_set T) (enc_set enc) := by
  intro m p
  simp [ParamTraits_set, ParamTraits_set.Write, WriteParam, appends_int m,
    set_Write_loop_appends T enc hT, WriteBytes_WriteBytes, enc_set]

/-- The element loop of the set `Read` on a run of element encodings: every
element is decoded into a fresh `item` and inserted into the destination. -/
theorem set_Read_loop_run {P : Type} [LinearOrder P] [Inhabited P] (T : ParamTraits P)
    (enc : P → List Byte) (D V : P → Prop) (hT : ReadsBack T enc D V) (hdef : D default)
    (m : Message) (rest : List Byte) (xs : List P) :
    ∀ (r : std_set P) (pre : List Byte), (∀ x ∈ xs, V x) →
      m.payload = pre ++ xs.flatMap enc ++ rest →
      ParamTraits_set.Read_loop T m xs.length pre.length r =
        ⟨true, pre.length + (xs.flatMap enc).length, xs.foldl std_set.insert r⟩ := by
  induction xs with
  | nil => intro r pre _ _; simp [ParamTraits_set.Read_loop]
  | cons x xs ih =>
    intro r pre hV hpay
    have hread := hT m pre (xs.flatMap enc ++ rest) default x hdef (hV x (by simp))
      (by simpa [List.flatMap_cons, List.append_assoc] using hpay)
    have hnext := ih (r.insert x) (pre ++ enc x) (fun y hy => hV y (by simp [hy]))
      (by simpa [List.flatMap_cons, List.append_assoc] using hpay)
    rw [List.length_append] at hnext
    simp only [List.length_cons, ParamTraits_set.Read_loop, ReadParam, hread, hnext]
    simp [List.flatMap_cons, Nat.add_assoc]

/-- The set `Read` on a well-formed set payload: a count `xs.length` followed
by the encodings of `xs` (in any order, repetitions allowed). -/
theorem set_Read_run {P : Type} [LinearOrder P] [Inhabited P] (T : ParamTraits P)
    (enc : P → List Byte) (D V : P → Prop) (hT : ReadsBack T enc D V) (hdef : D default)
    (m : Message) (pre rest : List Byte) (xs : List P) (r : std_set P)
    (hV : ∀ x ∈ xs, V x) (hlen : xs.length < 2147483648)
    (hpay : m.payload = pre ++ (enc_int (xs.length : Int) ++ xs.flatMap enc) ++ rest) :
    (ParamTraits_set T).Read m pre.length r =
      ⟨true, pre.length + (enc_int (xs.length : Int) ++ xs.flatMap enc).length,
        xs.foldl std_set.insert r⟩ := by
  have hcount : m.ReadInt pre.length 0 = ⟨true, pre.length + 4, (xs.length : Int)⟩ := by
    have := ReadInt_field m pre (xs.flatMap enc ++ rest) (ofInt32 (xs.length : Int)) 0
      (by simpa [enc_int, List.append_assoc] using hpay)
    rw [this, toInt32_ofInt32 _ (by unfold IsInt32; omega)]
  have hloop := set_Read_loop_run T enc D V hT hdef m rest xs r
    (pre ++ enc_int (xs.length : Int)) hV (by simpa [List.append_assoc] using hpay)
  simp only [List.length_append, enc_int, length_le32] at hloop
  simp only [ParamTraits_set, ParamTraits_set.Read, Message.ReadLength, hcount,
    Int.toNat_ofNat, enc_int, List.length_append, length_le32]
  simp [hloop, Nat.add_assoc]

theorem set_insert_append {P : Type} [LinearOrder P] (x : P) (acc : List P)
    (h : ∀ a ∈ acc, a < x) : set_insert x acc = acc ++ [x] := by
  induction acc with
  | nil => rfl
  | cons y ys ih =>
    have hy : y < x := h y (by simp)
    simp [set_insert, not_lt.mpr (le_of_lt hy), hy, ih (fun a ha => h a (by simp [ha]))]

theorem foldl_insert_val {P : Type} [LinearOrder P] (xs : List P) (r : std_set P) :
    (xs.foldl std_set.insert r).val = xs.foldl (fun acc x => set_insert x acc) r.val := by
  induction xs generalizing r with
  | nil => rfl
  | cons x xs ih => simp [List.foldl_cons, ih, std_set.insert]

theorem foldl_set_insert_sorted {P : Type} [LinearOrder P] (l : List P) :
    ∀ acc : List P, (acc ++ l).Sorted (· < ·) →
      l.foldl (fun acc x => set_insert x acc) acc = acc ++ l := by
  induction l with
  | nil => intro acc _; simp
  | cons x xs ih =>
    intro acc h
    have hlt : ∀ a ∈ acc, a < x := fun a ha =>
      (List.pairwise_append.mp h).2.2 a ha x (by simp)
    rw [List.foldl_cons, set_insert_append x acc hlt, ih (acc ++ [x]) (by simpa using h)]
    simp

/-- Inserting the members of a set, in iteration order, into the empty set
gives the set back. -/
theorem foldl_insert_elems {P : Type} [LinearOrder P] (s : std_set P) :
    s.elems.foldl std_set.insert std_set.empty = s := by
  apply Subtype.ext
  rw [foldl_insert_val]
  have := foldl_set_insert_sorted s.val [] (by simpa using s.property)
  simpa [std_set.elems, std_set.empty] using this

/-- The set `Read` where the count field holds a negative value: `ReadLength`
fails, the cursor stands right after the count, nothing was inserted. -/
theorem set_Read_negative {P : Type} [LinearOrder P] [Inhabited P] (T : ParamTraits P)
    (m : Message) (pre rest : List Byte) (c : Int) (hc : IsInt32 c) (hneg : c < 0)
    (hpay : m.payload = pre ++ enc_int c ++ rest) (r : std_set P) :
    (ParamTraits_set T).Read m pre.length r = ⟨false, pre.length + 4, r⟩ := by
  have hcount : m.ReadInt pre.length 0 = ⟨true, pre.length + 4, c⟩ := by
    rw [ReadInt_field m pre rest (ofInt32 c) 0 hpay, toInt32_ofInt32 c hc]
  simp [ParamTraits_set, ParamTraits_set.Read, Message.ReadLength, hcount, not_le.mpr hneg]

/-- The `int` values `0, 1, ..., INT_MAX` in ascending order. -/
@[irreducible] def bigList : List Int := (List.range 2147483648).map Int.ofNat

theorem bigList_length : bigList.length = 2147483648 := by
  rw [bigList, List.length_map, List.length_range]

theorem bigList_sorted : bigList.Sorted (· < ·) := by
  rw [bigList]
  exact (List.pairwise_lt_range 2147483648).map Int.ofNat (fun _ _ h => Int.ofNat_lt.mpr h)

theorem bigList_isInt32 (x : Int) (hx : x ∈ bigList) : IsInt32 x := by
  rw [bigList] at hx
  obtain ⟨n, hn, hnx⟩ := List.mem_map.mp hx
  have hn' : n < 2147483648 := List.mem_range.mp hn
  have h0 : (0 : Int) ≤ Int.ofNat n := Int.ofNat_nonneg n
  have h1 : Int.ofNat n < Int.ofNat 2147483648 := Int.ofNat_lt.mpr hn'
  rw [hnx] at h0 h1
  exact ⟨le_trans (by decide) h0, h1⟩

/-- The set `{0, 1, ..., INT_MAX}` of `int`, which has `INT_MAX + 1` members. -/
def bigSet : std_set Int := ⟨bigList, bigList_sorted⟩

theorem bigSet_size : bigSet.size = 2147483648 := bigList_length

theorem bigSet_isInt32 : ∀ x ∈ bigSet.elems, IsInt32 x := bigList_isInt32

/-- C2, as amended: set round trip. When the element binding round-trips,
every `std::set<P>` of at most `INT_MAX` members, written by
`ParamTraits<std::set<P>>::Write` onto any message and read by `Read` from the
cursor where the write began into an empty destination, makes `Read` return
true with the cursor at the end of what was written and the destination equal
to the set written. -/
theorem C2_set_round_trip {P : Type} [LinearOrder P] [Inhabited P] (T : ParamTraits P)
    (enc : P → List Byte) (D V : P → Prop) (hT : RoundTrips T enc D V) (hdef : D default)
    (s : std_set P) (hV : ∀ x ∈ s.elems, V x) (hsize : s.size ≤ INT_MAX) (m0 : Message) :
    (ParamTraits_set T).Read ((ParamTraits_set T).Write m0 s) m0.payload.length std_set.empty =
      ⟨true, ((ParamTraits_set T).Write m0 s).payload.length, s⟩ := by
  have hlt : s.elems.length < 2147483648 := by
    unfold INT_MAX std_set.size at hsize; unfold std_set.elems; omega
  have happ := appends_set T enc hT.1 m0 s
  have hcnt : toInt32 s.size = (s.elems.length : Int) := toInt32_of_lt _ hlt
  have h := set_Read_run T enc D V hT.2 hdef ((ParamTraits_set T).Write m0 s) m0.payload []
    s.elems std_set.empty hV hlt
    (by rw [happ]; simp [WriteBytes_payload, enc_set, hcnt])
  rw [h, happ, foldl_insert_elems]
  simp [WriteBytes_payload, enc_set, hcnt]

/-- C2 at a concrete input: the set `{-3, 5}` of `int`. -/
theorem C2_set_round_trip_witness :
    (ParamTraits_set ParamTraits_int).Read
        ((ParamTraits_set ParamTraits_int).Write emptyMessage
          ((std_set.empty.insert 5).insert (-3)))
        emptyMessage.payload.length std_set.empty =
      ⟨true, ((ParamTraits_set ParamTraits_int).Write emptyMessage
          ((std_set.empty.insert 5).insert (-3))).payload.length,
        (std_set.empty.insert 5).insert (-3)⟩ :=
  C2_set_round_trip ParamTraits_int enc_int (fun _ => True) IsInt32 roundTrips_int trivial
    ((std_set.empty.insert 5).insert (-3)) (by decide) (by decide) emptyMessage

/-- C2, as stated, fails: the element binding `ParamTraits<int>` round-trips
and every member of the set `{0, ..., INT_MAX}` is an `int`, yet `Write` casts
the size `INT_MAX + 1` to the `int` `INT_MIN`, and `Read` of the bytes
written returns false. -/
theorem C2_set_round_trip_counterexample :
    RoundTrips ParamTraits_int enc_int (fun _ => True) IsInt32 ∧
    (∀ x ∈ bigSet.elems, IsInt32 x) ∧
    ((ParamTraits_set ParamTraits_int).Read
      ((ParamTraits_set ParamTraits_int).Write emptyMessage bigSet)
      emptyMessage.payload.length std_set.empty).ok = false := by
  refine ⟨roundTrips_int, bigSet_isInt32, ?_⟩
  have happ := appends_set ParamTraits_int enc_int appends_int emptyMessage bigSet
  have hcast : toInt32 bigSet.size = -2147483648 := by
    rw [bigSet_size]; decide
  rw [set_Read_negative ParamTraits_int _ emptyMessage.payload
    (bigSet.elems.flatMap enc_int) (-2147483648) (by decide) (by decide)
    (by rw [happ, WriteBytes_payload, enc_set, hcast, List.append_assoc])]

/-! ## Maps -/

/-- The bytes written for one entry of a map: key, then mapped value. -/
def enc_entry {K V : Type} (encK : K → List Byte) (encV : V → List Byte) (e : K × V) :
    List Byte :=
  encK e.1 ++ encV e.2

/-- The bytes `ParamTraits<std::map<K, V>>::Write` appends when the key and
value bindings append `encK` and `encV`. -/
def enc_map {K V : Type} [LinearOrder K] (encK : K → List Byte) (encV : V → List Byte)
    (s : std_map K V) : List Byte :=
  enc_int (toInt32 s.size) ++ s.entries.flatMap (enc_entry encK encV)

/-- The map after the stores `r[k] = v` for the entries of a list, in order. -/
def assignAll {K V : Type} [LinearOrder K] (r : std_map K V) (kvs : List (K × V)) :
    std_map K V :=
  kvs.foldl (fun acc e => acc.assign e.1 e.2) r

theorem map_Write_loop_appends {K V : Type} (TK : ParamTraits K) (TV : ParamTraits V)
    (encK : K → List Byte) (encV : V → List Byte) (hK : Appends TK encK)
    (hV : Appends TV encV) (m : Message) (es : List (K × V)) :
    ParamTraits_map.Write_loop TK TV m es = m.WriteBytes (es.flatMap (enc_entry encK encV)) := by
  induction es generalizing m with
  | nil => simp [ParamTraits_map.Write_loop, WriteBytes_nil]
  | cons e es ih =>
    simp [ParamTraits_map.Write_loop, WriteParam, hK m e.1, hV (m.WriteBytes (encK e.1)) e.2,
      ih, WriteBytes_WriteBytes, enc_entry]

theorem appends_map {K V : Type} [LinearOrder K] [Inhabited K] [Inhabited V]
    (TK : ParamTraits K) (TV : ParamTraits V) (encK : K → List Byte) (encV : V → List Byte)
    (hK : Appends TK encK) (hV : Appends TV encV) :
    Appends (ParamTraits_map TK TV) (enc_map encK encV) := by
  intro m p
  simp [ParamTraits_map, ParamTraits_map.Write, WriteParam, appends_int m,
    map_Write_loop_appends TK TV encK encV hK hV, WriteBytes_WriteBytes, enc_map]

/-- The entry loop of the map `Read` on a run of entry encodings: each key is
decoded into a fresh `k`, each value into the object `(*r)[k]`, provided the
value binding round-trips into that object whenever the loop reaches it. -/
theorem map_Read_loop_run {K V : Type} [LinearOrder K] [Inhabited K] [Inhabited V]
    (TK : ParamTraits K) (TV : ParamTraits V) (encK : K → List Byte) (encV : V → List Byte)
    (DK VK : K → Prop) (DV VV : V → Prop) (hK : ReadsBack TK encK DK VK) (hdefK : DK default)
    (hV : ReadsBack TV encV DV VV) (m : Message) (rest : List Byte) (kvs : List (K × V)) :
    ∀ (r : std_map K V) (pre : List Byte), (∀ e ∈ kvs, VK e.1 ∧ VV e.2) →
      (∀ l1 e l2, kvs = l1 ++ e :: l2 → DV ((assignAll r l1).at e.1)) →
      m.payload = pre ++ kvs.flatMap (enc_entry encK encV) ++ rest →
      ParamTraits_map.Read_loop TK TV m kvs.length pre.length r =
        ⟨true, pre.length + (kvs.flatMap (enc_entry encK encV)).length, assignAll r kvs⟩ := by
  induction kvs with
  | nil => intro r pre _ _ _; simp [ParamTraits_map.Read_loop, assignAll]
  | cons e es ih =>
    intro r pre hval hD hpay
    have hkey := hK m pre (encV e.2 ++ (es.flatMap (enc_entry encK encV) ++ rest)) default e.1
      hdefK (hval e (by simp)).1
      (by simpa [List.flatMap_cons, List.append_assoc, enc_entry] using hpay)
    have hvalue := hV m (pre ++ encK e.1) (es.flatMap (enc_entry encK encV) ++ rest)
      (r.at e.1) e.2 (hD [] e es rfl) (hval e (by simp)).2
      (by simpa [List.flatMap_cons, List.append_assoc, enc_entry] using hpay)
    have hnext := ih (r.assign e.1 e.2) (pre ++ enc_entry encK encV e)
      (fun e' he' => hval e' (by simp [he']))
      (fun l1 e' l2 h => by
        have := hD (e :: l1) e' l2 (by simp [h])
        simpa [assignAll] using this)
      (by simpa [List.flatMap_cons, List.append_assoc] using hpay)
    have hent : (enc_entry encK encV e).length = (encK e.1).length + (encV e.2).length := by
      simp [enc_entry]
    rw [List.length_append, hent, ← Nat.add_assoc] at hnext
    rw [List.length_append] at hvalue
    simp only [List.length_cons, ParamTraits_map.Read_loop, ReadParam, hkey, hvalue, hnext]
    simp [List.flatMap_cons, Nat.add_assoc, assignAll, enc_entry]

/-- The map `Read` on a well-formed map payload: a count `kvs.length` followed
by the encodings of the entries `kvs` (in any order, keys may repeat). -/
theorem map_Read_run {K V : Type} [LinearOrder K] [Inhabited K] [Inhabited V]
    (TK : ParamTraits K) (TV : ParamTraits V) (encK : K → List Byte) (encV : V → List Byte)
    (DK VK : K → Prop) (DV VV : V → Prop) (hK : ReadsBack TK encK DK VK) (hdefK : DK default)
    (hV : ReadsBack TV encV DV VV) (m : Message) (pre rest : List Byte) (kvs : List (K × V))
    (r : std_map K V) (hval : ∀ e ∈ kvs, VK e.1 ∧ VV e.2)
    (hD : ∀ l1 e l2, kvs = l1 ++ e :: l2 → DV ((assignAll r l1).at e.1))
    (hlen : kvs.length < 2147483648)
    (hpay : m.payload =
      pre ++ (enc_int (kvs.length : Int) ++ kvs.flatMap (enc_entry encK encV)) ++ rest) :
    (ParamTraits_map TK TV).Read m pre.length r =
      ⟨true, pre.length + (enc_int (kvs.length : Int) ++
        kvs.flatMap (enc_entry encK encV)).length, assignAll r kvs⟩ := by
  have hcount : m.ReadInt pre.length 0 = ⟨true, pre.length + 4, (kvs.length : Int)⟩ := by
    have := ReadInt_field m pre (kvs.flatMap (enc_entry encK encV) ++ rest)
      (ofInt32 (kvs.length : Int)) 0 (by simpa [enc_int, List.append_assoc] using hpay)
    rw [this, toInt32_ofInt32 _ (by unfold IsInt32; omega)]
  have hloop := map_Read_loop_run TK TV encK encV DK VK DV VV hK hdefK hV m rest kvs r
    (pre ++ enc_int (kvs.length : Int)) hval hD (by simpa [List.append_assoc] using hpay)
  simp only [List.length_append, enc_int, length_le32] at hloop
  simp only [ParamTraits_map, ParamTraits_map.Read, ReadParam, ParamTraits_int, hcount,
    Int.toNat_ofNat, enc_int, List.length_append, length_le32]
  simp [hloop, Nat.add_assoc]

theorem map_assign_append {K V : Type} [LinearOrder K] (k : K) (v : V) (acc : List (K × V))
    (h : ∀ a ∈ acc, a.1 < k) : map_assign k v acc = acc ++ [(k, v)] := by
  induction acc with
  | nil => rfl
  | cons y ys ih =>
    have hy : y.1 < k := h y (by simp)
    simp [map_assign, not_lt.mpr (le_of_lt hy), hy, ih (fun a ha => h a (by simp [ha]))]

theorem map_find_none {K V : Type} [LinearOrder K] (k : K) (l : List (K × V))
    (h : ∀ a ∈ l, a.1 < k) : map_find k l = none := by
  induction l with
  | nil => rfl
  | cons y ys ih =>
    have hy : y.1 ≠ k := ne_of_lt (h y (by simp))
    simp [map_find, hy, ih (fun a ha => h a (by simp [ha]))]

theorem assignAll_val {K V : Type} [LinearOrder K] (kvs : List (K × V)) (r : std_map K V) :
    (assignAll r kvs).val = kvs.foldl (fun acc e => map_assign e.1 e.2 acc) r.val := by
  induction kvs generalizing r with
  | nil => rfl
  | cons e es ih =>
    have := ih (r.assign e.1 e.2)
    simpa [assignAll, std_map.assign] using this

theorem foldl_map_assign_sorted {K V : Type} [LinearOrder K] (l : List (K × V)) :
    ∀ acc : List (K × V), ((acc ++ l).map Prod.fst).Sorted (· < ·) →
      l.foldl (fun acc e => map_assign e.1 e.2 acc) acc = acc ++ l := by
  induction l with
  | nil => intro acc _; simp
  | cons x xs ih =>
    intro acc h
    have hlt : ∀ a ∈ acc, a.1 < x.1 := fun a ha => by
      have h' : (acc.map Prod.fst ++ (x :: xs).map Prod.fst).Pairwise (· < ·) := by
        simpa using h
      exact (List.pairwise_append.mp h').2.2 a.1 (List.mem_map_of_mem _ ha) x.1 (by simp)
    rw [List.foldl_cons, map_assign_append x.1 x.2 acc hlt, ih (acc ++ [x]) (by simpa using h)]
    simp

/-- Storing the entries of a map, in iteration order, into the empty map
gives the map back. -/
theorem assignAll_entries {K V : Type} [LinearOrder K] (s : std_map K V) :
    assignAll std_map.empty s.entries = s := by
  apply Subtype.ext
  rw [assignAll_val]
  have := foldl_map_assign_sorted s.val [] (by simpa using s.property)
  simpa [std_map.entries, std_map.empty] using this

/-- While the entries of a map are stored in iteration order into the empty
map, every key is new when its turn comes: `(*r)[k]` is value-initialised. -/
theorem at_fresh_of_sorted {K V : Type} [LinearOrder K] [Inhabited V] (s : std_map K V)
    (l1 l2 : List (K × V)) (e : K × V) (h : s.entries = l1 ++ e :: l2) :
    (assignAll std_map.empty l1).at e.1 = default := by
  have hs : ((l1 ++ e :: l2).map Prod.fst).Sorted (· < ·) := by
    have := s.property
    rwa [show s.val = l1 ++ e :: l2 from h] at this
  have hs' : (l1.map Prod.fst ++ (e.1 :: l2.map Prod.fst)).Pairwise (· < ·) := by
    simpa using hs
  have hp := List.pairwise_append.mp hs'
  have h1 : (assignAll std_map.empty l1).val = l1 := by
    rw [assignAll_val]
    have := foldl_map_assign_sorted l1 [] (by simpa using hp.1)
    simpa [std_map.empty] using this
  have h2 : map_find e.1 l1 = none :=
    map_find_none e.1 l1 (fun a ha => hp.2.2 a.1 (List.mem_map_of_mem _ ha) e.1 (by simp))
  simp [std_map.at, std_map.find, h1, h2]

/-- The map `Read` where the count field holds a negative value: the test
`size < 0` fails the read, the cursor stands right after the count, nothing was
stored. -/
theorem map_Read_negative {K V : Type} [LinearOrder K] [Inhabited K] [Inhabited V]
    (TK : ParamTraits K) (TV : ParamTraits V) (m : Message) (pre rest : List Byte) (c : Int)
    (hc : IsInt32 c) (hneg : c < 0) (hpay : m.payload = pre ++ enc_int c ++ rest)
    (r : std_map K V) :
    (ParamTraits_map TK TV).Read m pre.length r = ⟨false, pre.length + 4, r⟩ := by
  have hcount : m.ReadInt pre.length 0 = ⟨true, pre.length + 4, c⟩ := by
    rw [ReadInt_field m pre rest (ofInt32 c) 0 hpay, toInt32_ofInt32 c hc]
  simp [ParamTraits_map, ParamTraits_map.Read, ReadParam, ParamTraits_int, hcount, hneg]

/-- The entries `(0, 0), (1, 0), ..., (INT_MAX, 0)` in ascending key order. -/
@[irreducible] def bigEntries : List (Int × Int) := bigList.map (fun k => (k, 0))

theorem bigEntries_length : bigEntries.length = 2147483648 := by
  rw [bigEntries, List.length_map, bigList_length]

theorem bigEntries_keys : bigEntries.map Prod.fst = bigList := by
  rw [bigEntries, List.map_map]
  exact List.map_id bigList

theorem bigEntries_isInt32 (e : Int × Int) (he : e ∈ bigEntries) : IsInt32 e.1 ∧ IsInt32 e.2 := by
  rw [bigEntries] at he
  obtain ⟨k, hk, hke⟩ := List.mem_map.mp he
  rw [← hke]
  exact ⟨bigList_isInt32 k hk, (by decide : IsInt32 0)⟩

/-- The map `{0 ↦ 0, 1 ↦ 0, ..., INT_MAX ↦ 0}`, which has `INT_MAX + 1`
entries. -/
def bigMap : std_map Int Int := ⟨bigEntries, by rw [bigEntries_keys]; exact bigList_sorted⟩

theorem bigMap_size : bigMap.size = 2147483648 := bigEntries_length

/-- C3, as amended: map round trip. When the key and value bindings
round-trip, every `std::map<K, V>` of at most `INT_MAX` entries, written by
`ParamTraits<std::map<K, V>>::Write` onto any message and read by `Read` from
the cursor where the write began into an empty destination, makes `Read`
return true with the cursor at the end of what was written and the destination
equal to the map written: the same keys, each with the same mapped value. -/
theorem C3_map_round_trip {K V : Type} [LinearOrder K] [Inhabited K] [Inhabited V]
    (TK : ParamTraits K) (TV : ParamTraits V) (encK : K → List Byte) (encV : V → List Byte)
    (DK VK : K → Prop) (DV VV : V → Prop) (hK : RoundTrips TK encK DK VK) (hdefK : DK default)
    (hV : RoundTrips TV encV DV VV) (hdefV : DV default) (s : std_map K V)
    (hval : ∀ e ∈ s.entries, VK e.1 ∧ VV e.2) (hsize : s.size ≤ INT_MAX) (m0 : Message) :
    (ParamTraits_map TK TV).Read ((ParamTraits_map TK TV).Write m0 s) m0.payload.length
        std_map.empty =
      ⟨true, ((ParamTraits_map TK TV).Write m0 s).payload.length, s⟩ := by
  have hlt : s.entries.length < 2147483648 := by
    unfold INT_MAX std_map.size at hsize; unfold std_map.entries; omega
  have happ := appends_map TK TV encK encV hK.1 hV.1 m0 s
  have hcnt : toInt32 s.size = (s.entries.length : Int) := toInt32_of_lt _ hlt
  have h := map_Read_run TK TV encK encV DK VK DV VV hK.2 hdefK hV.2
    ((ParamTraits_map TK TV).Write m0 s) m0.payload [] s.entries std_map.empty hval
    (fun l1 e l2 hl => by rw [at_fresh_of_sorted s l1 l2 e hl]; exact hdefV) hlt
    (by rw [happ]; simp [WriteBytes_payload, enc_map, hcnt])
  rw [h, happ, assignAll_entries]
  simp [WriteBytes_payload, enc_map, hcnt]

/-- C3 at a concrete input: the map `{-3 ↦ 8, 5 ↦ 7}` of `int` to `int`. -/
theorem C3_map_round_trip_witness :
    (ParamTraits_map ParamTraits_int ParamTraits_int).Read
        ((ParamTraits_map ParamTraits_int ParamTraits_int).Write emptyMessage
          ((std_map.empty.assign 5 7).assign (-3) 8))
        emptyMessage.payload.length std_map.empty =
      ⟨true, ((ParamTraits_map ParamTraits_int ParamTraits_int).Write emptyMessage
          ((std_map.empty.assign 5 7).assign (-3) 8)).payload.length,
        (std_map.empty.assign 5 7).assign (-3) 8⟩ :=
  C3_map_round_trip ParamTraits_int ParamTraits_int enc_int enc_int (fun _ => True) IsInt32
    (fun _ => True) IsInt32 roundTrips_int trivial roundTrips_int trivial
    ((std_map.empty.assign 5 7).assign (-3) 8) (by decide) (by decide) emptyMessage

/-- C3, as stated, fails: the key and value bindings `ParamTraits<int>`
round-trip and every key and value of the map `{0 ↦ 0, ..., INT_MAX ↦ 0}` is
an `int`, yet `Write` casts the size `INT_MAX + 1` to the `int` `INT_MIN`, and
`Read` of the bytes written returns false. -/
theorem C3_map_round_trip_counterexample :
    RoundTrips ParamTraits_int enc_int (fun _ => True) IsInt32 ∧
    (∀ e ∈ bigMap.entries, IsInt32 e.1 ∧ IsInt32 e.2) ∧
    ((ParamTraits_map ParamTraits_int ParamTraits_int).Read
      ((ParamTraits_map ParamTraits_int ParamTraits_int).Write emptyMessage bigMap)
      emptyMessage.payload.length std_map.empty).ok = false := by
  refine ⟨roundTrips_int, bigEntries_isInt32, ?_⟩
  have happ := appends_map ParamTraits_int ParamTraits_int enc_int enc_int appends_int
    appends_int emptyMessage bigMap
  have hcast : toInt32 bigMap.size = -2147483648 := by
    rw [bigMap_size]; decide
  rw [map_Read_negative ParamTraits_int ParamTraits_int _ emptyMessage.payload
    (bigMap.entries.flatMap (enc_entry enc_int enc_int)) (-2147483648) (by decide) (by decide)
    (by rw [happ, WriteBytes_payload, enc_map, hcast, List.append_assoc])]

/-! ## Pairs and tuples -/

/-- `ParamTraits<unsigned int>`: `Write` passes the value to `WriteInt`, which
takes an `int`; `Read` lets `ReadInt` store through the destination viewed as
an `int` (`reinterpret_cast<int*>(r)`). -/
def ParamTraits_unsigned_int : ParamTraits Nat where
  Write m p := m.WriteInt (toInt32 p)
  Read m iter r :=
    let x := m.ReadInt iter (toInt32 r)
    ⟨x.ok, x.iter, ofInt32 x.value⟩

/-- The range of a 32-bit `unsigned int`. -/
def IsUInt32 (v : Nat) : Prop := v < 4294967296

instance (v : Nat) : Decidable (IsUInt32 v) := inferInstanceAs (Decidable (_ < _))

/-- The bytes `ParamTraits<unsigned int>::Write` appends. -/
def enc_unsigned_int (v : Nat) : List Byte := le32 (ofInt32 (toInt32 v))

/-- The bytes `ParamTraits<std::pair<A, B>>::Write` appends. -/
def enc_pair {A B : Type} (encA : A → List Byte) (encB : B → List Byte) (p : A × B) :
    List Byte :=
  encA p.1 ++ encB p.2

/-- The bytes `ParamTraits<Tuple1<A>>::Write` appends. -/
def enc_Tuple1 {A : Type} (encA : A → List Byte) (p : Tuple1 A) : List Byte := encA p.a

/-- The bytes `ParamTraits<Tuple2<A, B>>::Write` appends. -/
def enc_Tuple2 {A B : Type} (encA : A → List Byte) (encB : B → List Byte) (p : Tuple2 A B) :
    List Byte :=
  encA p.a ++ encB p.b

/-- The bytes `ParamTraits<Tuple3<A, B, C>>::Write` appends. -/
def enc_Tuple3 {A B C : Type} (encA : A → List Byte) (encB : B → List Byte)
    (encC : C → List Byte) (p : Tuple3 A B C) : List Byte :=
  encA p.a ++ encB p.b ++ encC p.c

/-- The bytes `ParamTraits<Tuple4<A, B, C, D>>::Write` appends. -/
def enc_Tuple4 {A B C D : Type} (encA : A → List Byte) (encB : B → List Byte)
    (encC : C → List Byte) (encD : D → List Byte) (p : Tuple4 A B C D) : List Byte :=
  encA p.a ++ encB p.b ++ encC p.c ++ encD p.d

/-- The bytes `ParamTraits<Tuple5<A, B, C, D, E>>::Write` appends. -/
def enc_Tuple5 {A B C D E : Type} (encA : A → List Byte) (encB : B → List Byte)
    (encC : C → List Byte) (encD : D → List Byte) (encE : E → List Byte)
    (p : Tuple5 A B C D E) : List Byte :=
  encA p.a ++ encB p.b ++ encC p.c ++ encD p.d ++ encE p.e

theorem ofInt32_toInt32 (n : Nat) (h : IsUInt32 n) : ofInt32 (toInt32 n) = n := by
  unfold IsUInt32 at h
  unfold toInt32 ofInt32
  split_ifs with hlt <;> omega

theorem appends_bool : Appends ParamTraits_bool enc_bool := fun _ _ => rfl

theorem readsBack_bool : ReadsBack ParamTraits_bool enc_bool (fun _ => True) (fun _ => True) := by
  intro m pre rest d v _ _ h
  have := ReadInt_field m pre rest (ofInt32 (if v = true then 1 else 0)) 0 h
  cases v <;>
    simp [ParamTraits_bool, Message.ReadBool, enc_bool, length_le32, this,
      toInt32_ofInt32 _ (by decide : IsInt32 0), toInt32_ofInt32 _ (by decide : IsInt32 1)]

theorem appends_unsigned_int : Appends ParamTraits_unsigned_int enc_unsigned_int :=
  fun _ _ => rfl

theorem readsBack_unsigned_int :
    ReadsBack ParamTraits_unsigned_int enc_unsigned_int (fun _ => True) IsUInt32 := by
  intro m pre rest d v _ hv h
  have := ReadInt_field m pre rest (ofInt32 (toInt32 v)) (toInt32 d) h
  simp [ParamTraits_unsigned_int, enc_unsigned_int, length_le32, this, ofInt32_toInt32 v hv]

theorem appends_pair {A B : Type} (TA : ParamTraits A) (TB : ParamTraits B)
    (encA : A → List Byte) (encB : B → List Byte) (hA : Appends TA encA) (hB : Appends TB encB) :
    Appends (ParamTraits_pair TA TB) (enc_pair encA encB) := by
  intro m p
  simp [ParamTraits_pair, ParamTraits_pair.Write, WriteParam, hA m, hB (m.WriteBytes _),
    WriteBytes_WriteBytes, enc_pair]

theorem readsBack_pair {A B : Type} (TA : ParamTraits A) (TB : ParamTraits B)
    (encA : A → List Byte) (encB : B → List Byte) (DA VA : A → Prop) (DB VB : B → Prop)
    (hA : ReadsBack TA encA DA VA) (hB : ReadsBack TB encB DB VB) :
    ReadsBack (ParamTraits_pair TA TB) (enc_pair encA encB) (fun r => DA r.1 ∧ DB r.2)
      (fun v => VA v.1 ∧ VB v.2) := by
  intro m pre rest d v hD hV hpay
  have ha := hA m pre (encB v.2 ++ rest) d.1 v.1 hD.1 hV.1
    (by simpa [enc_pair, List.append_assoc] using hpay)
  have hb := hB m (pre ++ encA v.1) rest d.2 v.2 hD.2 hV.2
    (by simpa [enc_pair, List.append_assoc] using hpay)
  rw [List.length_append] at hb
  simp [ParamTraits_pair, ParamTraits_pair.Read, ReadParam, ha, hb, enc_pair, Nat.add_assoc]

theorem appends_Tuple0 : Appends ParamTraits_Tuple0 (fun _ => []) := by
  intro m p
  simp [ParamTraits_Tuple0, WriteBytes_nil]

theorem readsBack_Tuple0 :
    ReadsBack ParamTraits_Tuple0 (fun _ => []) (fun _ => True) (fun _ => True) := by
  intro m pre rest d v _ _ _
  cases d; cases v
  simp [ParamTraits_Tuple0]

theorem appends_Tuple1 {A : Type} (TA : ParamTraits A) (encA : A → List Byte)
    (hA : Appends TA encA) : Appends (ParamTraits_Tuple1 TA) (enc_Tuple1 encA) := by
  intro m p
  simp [ParamTraits_Tuple1, WriteParam, hA m, enc_Tuple1]

theorem readsBack_Tuple1 {A : Type} (TA : ParamTraits A) (encA : A → List Byte)
    (DA VA : A → Prop) (hA : ReadsBack TA encA DA VA) :
    ReadsBack (ParamTraits_Tuple1 TA) (enc_Tuple1 encA) (fun r => DA r.a) (fun v => VA v.a) := by
  intro m pre rest d v hD hV hpay
  have ha := hA m pre rest d.a v.a hD hV (by simpa [enc_Tuple1] using hpay)
  simp [ParamTraits_Tuple1, ReadParam, ha, enc_Tuple1]

theorem appends_Tuple2 {A B : Type} (TA : ParamTraits A) (TB : ParamTraits B)
    (encA : A → List Byte) (encB : B → List Byte) (hA : Appends TA encA) (hB : Appends TB encB) :
    Appends (ParamTraits_Tuple2 TA TB) (enc_Tuple2 encA encB) := by
  intro m p
  simp [ParamTraits_Tuple2, WriteParam, hA m, hB (m.WriteBytes _), WriteBytes_WriteBytes,
    enc_Tuple2]

theorem readsBack_Tuple2 {A B : Type} (TA : ParamTraits A) (TB : ParamTraits B)
    (encA : A → List Byte) (encB : B → List Byte) (DA VA : A → Prop) (DB VB : B → Prop)
    (hA : ReadsBack TA encA DA VA) (hB : ReadsBack TB encB DB VB) :
    ReadsBack (ParamTraits_Tuple2 TA TB) (enc_Tuple2 encA encB) (fun r => DA r.a ∧ DB r.b)
      (fun v => VA v.a ∧ VB v.b) := by
  intro m pre rest d v hD hV hpay
  have ha := hA m pre (encB v.b ++ rest) d.a v.a hD.1 hV.1
    (by simpa [enc_Tuple2, List.append_assoc] using hpay)
  have hb := hB m (pre ++ encA v.a) rest d.b v.b hD.2 hV.2
    (by simpa [enc_Tuple2, List.append_assoc] using hpay)
  rw [List.length_append] at hb
  simp [ParamTraits_Tuple2, ReadParam, ha, hb, enc_Tuple2, Nat.add_assoc]

theorem appends_Tuple3 {A B C : Type} (TA : ParamTraits A) (TB : ParamTraits B)
    (TC : ParamTraits C) (encA : A → List Byte) (encB : B → List Byte) (encC : C → List Byte)
    (hA : Appends TA encA) (hB : Appends TB encB) (hC : Appends TC encC) :
    Appends (ParamTraits_Tuple3 TA TB TC) (enc_Tuple3 encA encB encC) := by
  intro m p
  simp [ParamTraits_Tuple3, WriteParam, hA m, hB (m.WriteBytes _), hC (m.WriteBytes _),
    WriteBytes_WriteBytes, enc_Tuple3]

theorem readsBack_Tuple3 {A B C : Type} (TA : ParamTraits A) (TB : ParamTraits B)
    (TC : ParamTraits C) (encA : A → List Byte) (encB : B → List Byte) (encC : C → List Byte)
    (DA VA : A → Prop) (DB VB : B → Prop) (DC VC : C → Prop)
    (hA : ReadsBack TA encA DA VA) (hB : ReadsBack TB encB DB VB)
    (hC : ReadsBack TC encC DC VC) :
    ReadsBack (ParamTraits_Tuple3 TA TB TC) (enc_Tuple3 encA encB encC)
      (fun r => DA r.a ∧ DB r.b ∧ DC r.c) (fun v => VA v.a ∧ VB v.b ∧ VC v.c) := by
  intro m pre rest d v hD hV hpay
  have ha := hA m pre (encB v.b ++ (encC v.c ++ rest)) d.a v.a hD.1 hV.1
    (by simpa [enc_Tuple3, List.append_assoc] using hpay)
  have hb := hB m (pre ++ encA v.a) (encC v.c ++ rest) d.b v.b hD.2.1 hV.2.1
    (by simpa [enc_Tuple3, List.append_assoc] using hpay)
  have hc := hC m (pre ++ encA v.a ++ encB v.b) rest d.c v.c hD.2.2 hV.2.2
    (by simpa [enc_Tuple3, List.append_assoc] using hpay)
  simp only [List.length_append] at hb hc
  simp only [ParamTraits_Tuple3, ReadParam, ha, hb, hc, Bool.not_true, Bool.false_eq_true,
    if_false]
  simp [enc_Tuple3, Nat.add_assoc]

theorem appends_Tuple4 {A B C D : Type} (TA : ParamTraits A) (TB : ParamTraits B)
    (TC : ParamTraits C) (TD : ParamTraits D) (encA : A → List Byte) (encB : B → List Byte)
    (encC : C → List Byte) (encD : D → List Byte) (hA : Appends TA encA) (hB : Appends TB encB)
    (hC : Appends TC encC) (hD : Appends TD encD) :
    Appends (ParamTraits_Tuple4 TA TB TC TD) (enc_Tuple4 encA encB encC encD) := by
  intro m p
  simp [ParamTraits_Tuple4, WriteParam, hA m, hB (m.WriteBytes _), hC (m.WriteBytes _),
    hD (m.WriteBytes _), WriteBytes_WriteBytes, enc_Tuple4]

theorem readsBack_Tuple4 {A B C D : Type} (TA : ParamTraits A) (TB : ParamTraits B)
    (TC : ParamTraits C) (TD : ParamTraits D) (encA : A → List Byte) (encB : B → List Byte)
    (encC : C → List Byte) (encD : D → List Byte) (DA VA : A → Prop) (DB VB : B → Prop)
    (DC VC : C → Prop) (DD VD : D → Prop) (hA : ReadsBack TA encA DA VA)
    (hB : ReadsBack TB encB DB VB) (hC : ReadsBack TC encC DC VC)
    (hD : ReadsBack TD encD DD VD) :
    ReadsBack (ParamTraits_Tuple4 TA TB TC TD) (enc_Tuple4 encA encB encC encD)
      (fun r => DA r.a ∧ DB r.b ∧ DC r.c ∧ DD r.d)
      (fun v => VA v.a ∧ VB v.b ∧ VC v.c ∧ VD v.d) := by
  intro m pre rest d v hDs hV hpay
  have ha := hA m pre (encB v.b ++ (encC v.c ++ (encD v.d ++ rest))) d.a v.a hDs.1 hV.1
    (by simpa [enc_Tuple4, List.append_assoc] using hpay)
  have hb := hB m (pre ++ encA v.a) (encC v.c ++ (encD v.d ++ rest)) d.b v.b hDs.2.1 hV.2.1
    (by simpa [enc_Tuple4, List.append_assoc] using hpay)
  have hc := hC m (pre ++ encA v.a ++ encB v.b) (encD v.d ++ rest) d.c v.c hDs.2.2.1 hV.2.2.1
    (by simpa [enc_Tuple4, List.append_assoc] using hpay)
  have hd := hD m (pre ++ encA v.a ++ encB v.b ++ encC v.c) rest d.d v.d hDs.2.2.2 hV.2.2.2
    (by simpa [enc_Tuple4, List.append_assoc] using hpay)
  simp only [List.length_append] at hb hc hd
  simp only [ParamTraits_Tuple4, ReadParam, ha, hb, hc, hd, Bool.not_true, Bool.false_eq_true,
    if_false]
  simp [enc_Tuple4, Nat.add_assoc]

theorem appends_Tuple5 {A B C D E : Type} (TA : ParamTraits A) (TB : ParamTraits B)
    (TC : ParamTraits C) (TD : ParamTraits D) (TE : ParamTraits E) (encA : A → List Byte)
    (encB : B → List Byte) (encC : C → List Byte) (encD : D → List Byte) (encE : E → List Byte)
    (hA : Appends TA encA) (hB : Appends TB encB) (hC : Appends TC encC) (hD : Appends TD encD)
    (hE : Appends TE encE) :
    Appends (ParamTraits_Tuple5 TA TB TC TD TE) (enc_Tuple5 encA encB encC encD encE) := by
  intro m p
  simp [ParamTraits_Tuple5, WriteParam, hA m, hB (m.WriteBytes _), hC (m.WriteBytes _),
    hD (m.WriteBytes _), hE (m.WriteBytes _), WriteBytes_WriteBytes, enc_Tuple5]

theorem readsBack_Tuple5 {A B C D E : Type} (TA : ParamTraits A) (TB : ParamTraits B)
    (TC : ParamTraits C) (TD : ParamTraits D) (TE : ParamTraits E) (encA : A → List Byte)
    (encB : B → List Byte) (encC : C → List Byte) (encD : D → List Byte) (encE : E → List Byte)
    (DA VA : A → Prop) (DB VB : B → Prop) (DC VC : C → Prop) (DD VD : D → Prop)
    (DE VE : E → Prop) (hA : ReadsBack TA encA DA VA) (hB : ReadsBack TB encB DB VB)
    (hC : ReadsBack TC encC DC VC) (hD : ReadsBack TD encD DD VD)
    (hE : ReadsBack TE encE DE VE) :
    ReadsBack (ParamTraits_Tuple5 TA TB TC TD TE) (enc_Tuple5 encA encB encC encD encE)
      (fun r => DA r.a ∧ DB r.b ∧ DC r.c ∧ DD r.d ∧ DE r.e)
      (fun v => VA v.a ∧ VB v.b ∧ VC v.c ∧ VD v.d ∧ VE v.e) := by
  intro m pre rest d v hDs hV hpay
  have ha := hA m pre (encB v.b ++ (encC v.c ++ (encD v.d ++ (encE v.e ++ rest)))) d.a v.a
    hDs.1 hV.1 (by simpa [enc_Tuple5, List.append_assoc] using hpay)
  have hb := hB m (pre ++ encA v.a) (encC v.c ++ (encD v.d ++ (encE v.e ++ rest))) d.b v.b
    hDs.2.1 hV.2.1 (by simpa [enc_Tuple5, List.append_assoc] using hpay)
  have hc := hC m (pre ++ encA v.a ++ encB v.b) (encD v.d ++ (encE v.e ++ rest)) d.c v.c
    hDs.2.2.1 hV.2.2.1 (by simpa [enc_Tuple5, List.append_assoc] using hpay)
  have hd := hD m (pre ++ encA v.a ++ encB v.b ++ encC v.c) (encE v.e ++ rest) d.d v.d
    hDs.2.2.2.1 hV.2.2.2.1 (by simpa [enc_Tuple5, List.append_assoc] using hpay)
  have he := hE m (pre ++ encA v.a ++ encB v.b ++ encC v.c ++ encD v.d) rest d.e v.e
    hDs.2.2.2.2 hV.2.2.2.2 (by simpa [enc_Tuple5, List.append_assoc] using hpay)
  simp only [List.length_append] at hb hc hd he
  simp only [ParamTraits_Tuple5, ReadParam, ha, hb, hc, hd, he, Bool.not_true, Bool.false_eq_true,
    if_false]
  simp [enc_Tuple5, Nat.add_assoc]

/-! ## The supported types -/

/-- The parameter types built from `bool`, `int` and `unsigned int` with
`std::vector`, `std::pair` and `Tuple0` .. `Tuple5`; a vector type carries
`sizeof` of its element type. -/
inductive Ty where
  | bool : Ty
  | int : Ty
  | unsigned_int : Ty
  | vector (sizeof_P : Nat) (elem : Ty) : Ty
  | pair (first second : Ty) : Ty
  | tuple0 : Ty
  | tuple1 (a : Ty) : Ty
  | tuple2 (a b : Ty) : Ty
  | tuple3 (a b c : Ty) : Ty
  | tuple4 (a b c d : Ty) : Ty
  | tuple5 (a b c d e : Ty) : Ty

/-- The values of a supported type. -/
def Ty.denote : Ty → Type
  | .bool => Bool
  | .int => Int
  | .unsigned_int => Nat
  | .vector _ elem => List elem.denote
  | .pair first second => first.denote × second.denote
  | .tuple0 => Tuple0
  | .tuple1 a => Tuple1 a.denote
  | .tuple2 a b => Tuple2 a.denote b.denote
  | .tuple3 a b c => Tuple3 a.denote b.denote c.denote
  | .tuple4 a b c d => Tuple4 a.denote b.denote c.denote d.denote
  | .tuple5 a b c d e => Tuple5 a.denote b.denote c.denote d.denote e.denote

/-- The value-initialised object of a supported type (`P()`). -/
def Ty.init : (t : Ty) → t.denote
  | .bool => false
  | .int => (0 : Int)
  | .unsigned_int => (0 : Nat)
  | .vector _ _ => []
  | .pair first second => (first.init, second.init)
  | .tuple0 => Tuple0.mk
  | .tuple1 a => ⟨a.init⟩
  | .tuple2 a b => ⟨a.init, b.init⟩
  | .tuple3 a b c => ⟨a.init, b.init, c.init⟩
  | .tuple4 a b c d => ⟨a.init, b.init, c.init, d.init⟩
  | .tuple5 a b c d e => ⟨a.init, b.init, c.init, d.init, e.init⟩

/-- The `ParamTraits` binding of a supported type. -/
def Ty.traits : (t : Ty) → ParamTraits t.denote
  | .bool => ParamTraits_bool
  | .int => ParamTraits_int
  | .unsigned_int => ParamTraits_unsigned_int
  | .vector sizeof_P elem => @ParamTraits_vector elem.denote ⟨elem.init⟩ sizeof_P elem.traits
  | .pair first second => ParamTraits_pair first.traits second.traits
  | .tuple0 => ParamTraits_Tuple0
  | .tuple1 a => ParamTraits_Tuple1 a.traits
  | .tuple2 a b => ParamTraits_Tuple2 a.traits b.traits
  | .tuple3 a b c => ParamTraits_Tuple3 a.traits b.traits c.traits
  | .tuple4 a b c d => ParamTraits_Tuple4 a.traits b.traits c.traits d.traits
  | .tuple5 a b c d e => ParamTraits_Tuple5 a.traits b.traits c.traits d.traits e.traits

/-- The bytes the binding of a supported type appends for a value. -/
def Ty.enc : (t : Ty) → t.denote → List Byte
  | .bool => enc_bool
  | .int => enc_int
  | .unsigned_int => enc_unsigned_int
  | .vector _ elem => enc_vector elem.enc
  | .pair first second => enc_pair first.enc second.enc
  | .tuple0 => fun _ => []
  | .tuple1 a => enc_Tuple1 a.enc
  | .tuple2 a b => enc_Tuple2 a.enc b.enc
  | .tuple3 a b c => enc_Tuple3 a.enc b.enc c.enc
  | .tuple4 a b c d => enc_Tuple4 a.enc b.enc c.enc d.enc
  | .tuple5 a b c d e => enc_Tuple5 a.enc b.enc c.enc d.enc e.enc

/-- The value is one the C++ type can hold: every `int` and `unsigned int` in
it lies in the range of its 32 bits. -/
def Ty.Valid : (t : Ty) → t.denote → Prop
  | .bool => fun _ => True
  | .int => IsInt32
  | .unsigned_int => IsUInt32
  | .vector _ elem => fun (v : List elem.denote) => ∀ x ∈ v, elem.Valid x
  | .pair first second => fun v => first.Valid v.1 ∧ second.Valid v.2
  | .tuple0 => fun _ => True
  | .tuple1 a => fun v => a.Valid v.a
  | .tuple2 a b => fun v => a.Valid v.a ∧ b.Valid v.b
  | .tuple3 a b c => fun v => a.Valid v.a ∧ b.Valid v.b ∧ c.Valid v.c
  | .tuple4 a b c d => fun v => a.Valid v.a ∧ b.Valid v.b ∧ c.Valid v.c ∧ d.Valid v.d
  | .tuple5 a b c d e =>
    fun v => a.Valid v.a ∧ b.Valid v.b ∧ c.Valid v.c ∧ d.Valid v.d ∧ e.Valid v.e

/-- Every vector inside the value passes the decoder's bound: it has fewer
than `INT_MAX / sizeof(P)` elements. -/
def Ty.Sized : (t : Ty) → t.denote → Prop
  | .bool => fun _ => True
  | .int => fun _ => True
  | .unsigned_int => fun _ => True
  | .vector sizeof_P elem => fun (v : List elem.denote) =>
    v.length < INT_MAX / sizeof_P ∧ ∀ x ∈ v, elem.Sized x
  | .pair first second => fun v => first.Sized v.1 ∧ second.Sized v.2
  | .tuple0 => fun _ => True
  | .tuple1 a => fun v => a.Sized v.a
  | .tuple2 a b => fun v => a.Sized v.a ∧ b.Sized v.b
  | .tuple3 a b c => fun v => a.Sized v.a ∧ b.Sized v.b ∧ c.Sized v.c
  | .tuple4 a b c d => fun v => a.Sized v.a ∧ b.Sized v.b ∧ c.Sized v.c ∧ d.Sized v.d
  | .tuple5 a b c d e =>
    fun v => a.Sized v.a ∧ b.Sized v.b ∧ c.Sized v.c ∧ d.Sized v.d ∧ e.Sized v.e

theorem ReadsBack.mono {P : Type} {T : ParamTraits P} {enc : P → List Byte}
    {D V D' V' : P → Prop} (h : ReadsBack T enc D V) (hD : ∀ d, D' d → D d)
    (hV : ∀ v, V' v → V v) : ReadsBack T enc D' V' :=
  fun m pre rest d v hd hv hpay => h m pre rest d v (hD d hd) (hV v hv) hpay

theorem Ty.appends (t : Ty) : Appends t.traits t.enc := by
  induction t with
  | bool => exact appends_bool
  | int => exact appends_int
  | unsigned_int => exact appends_unsigned_int
  | vector sizeof_P elem ih => exact @appends_vector _ ⟨elem.init⟩ sizeof_P _ _ ih
  | pair first second ih1 ih2 => exact appends_pair _ _ _ _ ih1 ih2
  | tuple0 => exact appends_Tuple0
  | tuple1 a iha => exact appends_Tuple1 _ _ iha
  | tuple2 a b iha ihb => exact appends_Tuple2 _ _ _ _ iha ihb
  | tuple3 a b c iha ihb ihc => exact appends_Tuple3 _ _ _ _ _ _ iha ihb ihc
  | tuple4 a b c d iha ihb ihc ihd => exact appends_Tuple4 _ _ _ _ _ _ _ _ iha ihb ihc ihd
  | tuple5 a b c d e iha ihb ihc ihd ihe =>
    exact appends_Tuple5 _ _ _ _ _ _ _ _ _ _ iha ihb ihc ihd ihe

theorem Ty.readsBack (t : Ty) :
    ReadsBack t.traits t.enc (fun _ => True) (fun v => t.Valid v ∧ t.Sized v) := by
  induction t with
  | bool => exact readsBack_bool.mono (fun _ _ => trivial) (fun _ _ => trivial)
  | int => exact readsBack_int.mono (fun _ _ => trivial) (fun _ h => h.1)
  | unsigned_int => exact readsBack_unsigned_int.mono (fun _ _ => trivial) (fun _ h => h.1)
  | vector sizeof_P elem ih =>
    exact (@readsBack_vector _ ⟨elem.init⟩ sizeof_P _ _ _ _ ih trivial).mono
      (fun _ _ _ _ => trivial) (fun v h => ⟨h.2.1, fun x hx => ⟨h.1 x hx, h.2.2 x hx⟩⟩)
  | pair first second ih1 ih2 =>
    exact (readsBack_pair _ _ _ _ _ _ _ _ ih1 ih2).mono (fun _ _ => ⟨trivial, trivial⟩)
      (fun v h => ⟨⟨h.1.1, h.2.1⟩, ⟨h.1.2, h.2.2⟩⟩)
  | tuple0 => exact readsBack_Tuple0.mono (fun _ _ => trivial) (fun _ _ => trivial)
  | tuple1 a iha =>
    exact (readsBack_Tuple1 _ _ _ _ iha).mono (fun _ _ => trivial) (fun v h => h)
  | tuple2 a b iha ihb =>
    exact (readsBack_Tuple2 _ _ _ _ _ _ _ _ iha ihb).mono (fun _ _ => ⟨trivial, trivial⟩)
      (fun v h => ⟨⟨h.1.1, h.2.1⟩, ⟨h.1.2, h.2.2⟩⟩)
  | tuple3 a b c iha ihb ihc =>
    exact (readsBack_Tuple3 _ _ _ _ _ _ _ _ _ _ _ _ iha ihb ihc).mono
      (fun _ _ => ⟨trivial, trivial, trivial⟩)
      (fun v h => ⟨⟨h.1.1, h.2.1⟩, ⟨h.1.2.1, h.2.2.1⟩, ⟨h.1.2.2, h.2.2.2⟩⟩)
  | tuple4 a b c d iha ihb ihc ihd =>
    exact (readsBack_Tuple4 _ _ _ _ _ _ _ _ _ _ _ _ _ _ _ _ iha ihb ihc ihd).mono
      (fun _ _ => ⟨trivial, trivial, trivial, trivial⟩)
      (fun v h => ⟨⟨h.1.1, h.2.1⟩, ⟨h.1.2.1, h.2.2.1⟩, ⟨h.1.2.2.1, h.2.2.2.1⟩,
        ⟨h.1.2.2.2, h.2.2.2.2⟩⟩)
  | tuple5 a b c d e iha ihb ihc ihd ihe =>
    exact (readsBack_Tuple5 _ _ _ _ _ _ _ _ _ _ _ _ _ _ _ _ _ _ _ _ iha ihb ihc ihd ihe).mono
      (fun _ _ => ⟨trivial, trivial, trivial, trivial, trivial⟩)
      (fun v h => ⟨⟨h.1.1, h.2.1⟩, ⟨h.1.2.1, h.2.2.1⟩, ⟨h.1.2.2.1, h.2.2.2.1⟩,
        ⟨h.1.2.2.2.1, h.2.2.2.2.1⟩, ⟨h.1.2.2.2.2, h.2.2.2.2.2⟩⟩)

/-- The sequence `Read` where the count field holds a negative value or one
that is at least `INT_MAX / sizeof(P)`: the read fails right after the count,
before `resize`, with the destination as it was. -/
theorem vector_Read_reject {P : Type} [Inhabited P] (sizeof_P : Nat) (T : ParamTraits P)
    (m : Message) (pre rest : List Byte) (c : Int) (hc : IsInt32 c)
    (hrej : c < 0 ∨ INT_MAX / sizeof_P ≤ c.toNat)
    (hpay : m.payload = pre ++ enc_int c ++ rest) (r : List P) :
    (ParamTraits_vector sizeof_P T).Read m pre.length r = ⟨false, pre.length + 4, r⟩ := by
  have hcount : m.ReadInt pre.length 0 = ⟨true, pre.length + 4, c⟩ := by
    rw [ReadInt_field m pre rest (ofInt32 c) 0 hpay, toInt32_ofInt32 c hc]
  rcases hrej with hneg | hbig
  · simp [ParamTraits_vector, ParamTraits_vector.Read, Message.ReadLength, hcount,
      not_le.mpr hneg]
  · by_cases hneg : c < 0
    · simp [ParamTraits_vector, ParamTraits_vector.Read, Message.ReadLength, hcount,
        not_le.mpr hneg]
    · simp [ParamTraits_vector, ParamTraits_vector.Read, Message.ReadLength, hcount,
        not_lt.mp hneg, hbig]

/-- A sequence of `INT_MAX / sizeof(int)` zeros. -/
@[irreducible] def zeros : List Int := List.replicate 536870911 0

theorem zeros_length : zeros.length = 536870911 := by
  rw [zeros, List.length_replicate]

theorem zeros_isInt32 (x : Int) (hx : x ∈ zeros) : IsInt32 x := by
  rw [zeros] at hx
  rw [(List.mem_replicate.mp hx).2]
  decide

/-- C4, as amended: exact cursor advance. For every value `v` of a supported
type (built from `bool`, `int`, `unsigned int` with vector, pair and
`Tuple0`..`Tuple5`) in which every vector has fewer than `INT_MAX / sizeof(P)`
elements, and every byte sequence `rest`: `Write` appends the bytes of `v`;
reading from the buffer that holds them followed by `rest`, from the cursor
where they begin and into any destination, returns true and `v` and leaves the
cursor advanced by exactly the number of bytes `Write` appended, so that the
bytes from the cursor on are exactly `rest`. (`Read` takes the message as a
constant and hands none back: the buffer bytes are the same after it.) -/
theorem C4_exact_cursor_advance (t : Ty) (v : t.denote) (hvalid : t.Valid v)
    (hsized : t.Sized v) (m0 : Message) (rest : List Byte) (d : t.denote) :
    t.traits.Write m0 v = m0.WriteBytes (t.enc v) ∧
    t.traits.Read ((t.traits.Write m0 v).WriteBytes rest) m0.payload.length d =
      ⟨true, m0.payload.length + (t.enc v).length, v⟩ ∧
    ((t.traits.Write m0 v).WriteBytes rest).payload.drop
      (m0.payload.length + (t.enc v).length) = rest := by
  have happ := t.appends m0 v
  refine ⟨happ, ?_, ?_⟩
  · exact t.readsBack ((t.traits.Write m0 v).WriteBytes rest) m0.payload rest d v trivial
      ⟨hvalid, hsized⟩ (by rw [happ]; simp [WriteBytes_payload])
  · rw [happ, WriteBytes_payload, WriteBytes_payload, ← List.length_append]
    exact List.drop_left _ _

/-- A sample supported type: `Tuple3<std::vector<int>, std::pair<bool, unsigned int>, int>`. -/
abbrev sampleTy : Ty := .tuple3 (.vector 4 .int) (.pair .bool .unsigned_int) .int

/-- A sample value of `sampleTy`. -/
def sampleValue : Tuple3 (List Int) (Bool × Nat) Int := ⟨[1, -2], (true, 4000000000), -7⟩

/-- A sample destination of `sampleTy`, holding other content. -/
def sampleDest : Tuple3 (List Int) (Bool × Nat) Int := ⟨[5], (false, 1), 2⟩

/-- C4 at a concrete input: a `Tuple3` of a vector of `int`, a pair of `bool`
and `unsigned int`, and an `int`, followed by two more bytes. -/
theorem C4_exact_cursor_advance_witness :
    sampleTy.traits.Write emptyMessage sampleValue =
      emptyMessage.WriteBytes (sampleTy.enc sampleValue) ∧
    sampleTy.traits.Read ((sampleTy.traits.Write emptyMessage sampleValue).WriteBytes [9, 9])
        emptyMessage.payload.length sampleDest =
      ⟨true, emptyMessage.payload.length + (sampleTy.enc sampleValue).length, sampleValue⟩ ∧
    ((sampleTy.traits.Write emptyMessage sampleValue).WriteBytes [9, 9]).payload.drop
      (emptyMessage.payload.length + (sampleTy.enc sampleValue).length) = [9, 9] :=
  C4_exact_cursor_advance sampleTy sampleValue
    ⟨(by decide : ∀ x ∈ [(1 : Int), -2], IsInt32 x),
      ⟨trivial, (by decide : IsUInt32 4000000000)⟩, (by decide : IsInt32 (-7))⟩
    ⟨⟨(by decide : [(1 : Int), -2].length < INT_MAX / 4), fun _ _ => trivial⟩,
      ⟨trivial, trivial⟩, trivial⟩
    emptyMessage [9, 9] sampleDest

/-- C4, as stated, fails: the vector of `INT_MAX / sizeof(int)` zeros is a
`std::vector<int>`, `Write` encodes it, and `Read` of the bytes written
returns false, because the count is not below the decoder's bound. -/
theorem C4_exact_cursor_advance_counterexample :
    (Ty.vector 4 .int).Valid zeros ∧
    ((Ty.vector 4 .int).traits.Read
      (((Ty.vector 4 .int).traits.Write emptyMessage zeros).WriteBytes [])
      emptyMessage.payload.length []).ok = false := by
  refine ⟨zeros_isInt32, ?_⟩
  have happ := (Ty.vector 4 .int).appends emptyMessage zeros
  have hcast : toInt32 zeros.length = 536870911 := by
    rw [zeros_length]; decide
  have hrej := @vector_Read_reject Int ⟨(0 : Int)⟩ 4 ParamTraits_int
    (((Ty.vector 4 .int).traits.Write emptyMessage zeros).WriteBytes [])
    emptyMessage.payload (zeros.flatMap enc_int ++ []) 536870911 (by decide)
    (Or.inr (by decide))
    (by
      rw [happ, WriteBytes_payload, WriteBytes_payload]
      show _ = _ ++ enc_int 536870911 ++ _
      rw [← hcast]
      simp only [Ty.enc, enc_vector, List.append_assoc])
    []
  exact congrArg ReadResult.ok hrej

/-- C5: tuple and pair layout. When the field bindings append the encodings
`encA` .. `encE`, `Write` for `Tuple1` .. `Tuple5` appends exactly the
encodings of the fields `a, b, c, d, e` in that order and nothing else, no
count and no length; `Write` for `Tuple0` leaves the message as it is; `Write`
for `std::pair` appends the encoding of `first` then that of `second`, and the
message it produces is the one `Write` for `Tuple2` produces for the same two
values. -/
theorem C5_tuple_pair_layout {A B C D E : Type} (TA : ParamTraits A) (TB : ParamTraits B)
    (TC : ParamTraits C) (TD : ParamTraits D) (TE : ParamTraits E) (encA : A → List Byte)
    (encB : B → List Byte) (encC : C → List Byte) (encD : D → List Byte) (encE : E → List Byte)
    (hA : Appends TA encA) (hB : Appends TB encB) (hC : Appends TC encC) (hD : Appends TD encD)
    (hE : Appends TE encE) (m : Message) (a : A) (b : B) (c : C) (d : D) (e : E) :
    ParamTraits_Tuple0.Write m Tuple0.mk = m ∧
    (ParamTraits_Tuple1 TA).Write m ⟨a⟩ = m.WriteBytes (encA a) ∧
    (ParamTraits_Tuple2 TA TB).Write m ⟨a, b⟩ = m.WriteBytes (encA a ++ encB b) ∧
    (ParamTraits_Tuple3 TA TB TC).Write m ⟨a, b, c⟩ =
      m.WriteBytes (encA a ++ encB b ++ encC c) ∧
    (ParamTraits_Tuple4 TA TB TC TD).Write m ⟨a, b, c, d⟩ =
      m.WriteBytes (encA a ++ encB b ++ encC c ++ encD d) ∧
    (ParamTraits_Tuple5 TA TB TC TD TE).Write m ⟨a, b, c, d, e⟩ =
      m.WriteBytes (encA a ++ encB b ++ encC c ++ encD d ++ encE e) ∧
    (ParamTraits_pair TA TB).Write m (a, b) = m.WriteBytes (encA a ++ encB b) ∧
    (ParamTraits_pair TA TB).Write m (a, b) = (ParamTraits_Tuple2 TA TB).Write m ⟨a, b⟩ :=
  ⟨rfl, appends_Tuple1 TA encA hA m ⟨a⟩, appends_Tuple2 TA TB encA encB hA hB m ⟨a, b⟩,
    appends_Tuple3 TA TB TC encA encB encC hA hB hC m ⟨a, b, c⟩,
    appends_Tuple4 TA TB TC TD encA encB encC encD hA hB hC hD m ⟨a, b, c, d⟩,
    appends_Tuple5 TA TB TC TD TE encA encB encC encD encE hA hB hC hD hE m ⟨a, b, c, d, e⟩,
    appends_pair TA TB encA encB hA hB m (a, b), rfl⟩

/-- C5 at a concrete input: fields of type `int`, `bool`, `int`,
`unsigned int`, `std::vector<int>`. -/
theorem C5_tuple_pair_layout_witness :
    ParamTraits_Tuple0.Write emptyMessage Tuple0.mk = emptyMessage ∧
    (ParamTraits_Tuple1 ParamTraits_int).Write emptyMessage ⟨1⟩ =
      emptyMessage.WriteBytes (enc_int 1) ∧
    (ParamTraits_Tuple2 ParamTraits_int ParamTraits_bool).Write emptyMessage ⟨1, true⟩ =
      emptyMessage.WriteBytes (enc_int 1 ++ enc_bool true) ∧
    (ParamTraits_Tuple3 ParamTraits_int ParamTraits_bool ParamTraits_int).Write emptyMessage
        ⟨1, true, -3⟩ =
      emptyMessage.WriteBytes (enc_int 1 ++ enc_bool true ++ enc_int (-3)) ∧
    (ParamTraits_Tuple4 ParamTraits_int ParamTraits_bool ParamTraits_int
        ParamTraits_unsigned_int).Write emptyMessage ⟨1, true, -3, 4⟩ =
      emptyMessage.WriteBytes (enc_int 1 ++ enc_bool true ++ enc_int (-3) ++
        enc_unsigned_int 4) ∧
    (ParamTraits_Tuple5 ParamTraits_int ParamTraits_bool ParamTraits_int
        ParamTraits_unsigned_int (ParamTraits_vector 4 ParamTraits_int)).Write emptyMessage
        ⟨1, true, -3, 4, [5, 6]⟩ =
      emptyMessage.WriteBytes (enc_int 1 ++ enc_bool true ++ enc_int (-3) ++
        enc_unsigned_int 4 ++ enc_vector enc_int [5, 6]) ∧
    (ParamTraits_pair ParamTraits_int ParamTraits_bool).Write emptyMessage (1, true) =
      emptyMessage.WriteBytes (enc_int 1 ++ enc_bool true) ∧
    (ParamTraits_pair ParamTraits_int ParamTraits_bool).Write emptyMessage (1, true) =
      (ParamTraits_Tuple2 ParamTraits_int ParamTraits_bool).Write emptyMessage ⟨1, true⟩ :=
  C5_tuple_pair_layout ParamTraits_int ParamTraits_bool ParamTraits_int
    ParamTraits_unsigned_int (ParamTraits_vector 4 ParamTraits_int) enc_int enc_bool enc_int
    enc_unsigned_int (enc_vector enc_int) appends_int appends_bool appends_int
    appends_unsigned_int (appends_vector 4 ParamTraits_int enc_int appends_int)
    emptyMessage 1 true (-3) 4 [5, 6]

/-- The sequence `Read` where the count field passes both tests: the
destination is resized to the count and the element loop runs on it. -/
theorem vector_Read_accept {P : Type} [Inhabited P] (sizeof_P : Nat) (T : ParamTraits P)
    (m : Message) (pre rest : List Byte) (c : Int) (hc : IsInt32 c)
    (hacc : ¬ (c < 0 ∨ INT_MAX / sizeof_P ≤ c.toNat))
    (hpay : m.payload = pre ++ enc_int c ++ rest) (r : List P) :
    (ParamTraits_vector sizeof_P T).Read m pre.length r =
      ParamTraits_vector.Read_loop T m c.toNat 0 (pre.length + 4) (vector_resize r c.toNat) := by
  have hcount : m.ReadInt pre.length 0 = ⟨true, pre.length + 4, c⟩ := by
    rw [ReadInt_field m pre rest (ofInt32 c) 0 hpay, toInt32_ofInt32 c hc]
  have h1 : 0 ≤ c := not_lt.mp (fun h => hacc (Or.inl h))
  have h2 : ¬ INT_MAX / sizeof_P ≤ c.toNat := fun h => hacc (Or.inr h)
  simp [ParamTraits_vector, ParamTraits_vector.Read, Message.ReadLength, hcount, h1, h2]

theorem mul_lt_of_lt_div (n s : Nat) (h : n < INT_MAX / s) : n * s < INT_MAX := by
  have hs : 0 < s := by
    rcases Nat.eq_zero_or_pos s with h0 | h0
    · rw [h0, Nat.div_zero] at h; exact absurd h (Nat.not_lt_zero n)
    · exact h0
  have h1 : (n + 1) * s ≤ INT_MAX := le_trans (Nat.mul_le_mul_right s h) (Nat.div_mul_le_self _ _)
  rw [Nat.add_mul, Nat.one_mul] at h1
  omega

/-- C6: sequence count bound. Where the count field `c` of a sequence stands
at the cursor: if `c` is negative or `c >= INT_MAX / sizeof(P)` (integer
division), which covers every `c` with `c * sizeof(P) > INT_MAX`, then
`ParamTraits<std::vector<P>>::Read` returns false with the destination exactly
as it was and the cursor right after the count, whatever the element binding:
nothing was resized and no element was decoded. Otherwise the destination is
resized to `c` elements, the element loop runs on it, and
`c * sizeof(P) < INT_MAX`: the product does not overflow an `int`. -/
theorem C6_vector_count_bound {P : Type} [Inhabited P] (sizeof_P : Nat) (T : ParamTraits P)
    (m : Message) (pre rest : List Byte) (c : Int) (hc : IsInt32 c)
    (hpay : m.payload = pre ++ enc_int c ++ rest) (r : List P) :
    ((c < 0 ∨ INT_MAX / sizeof_P ≤ c.toNat) →
      (ParamTraits_vector sizeof_P T).Read m pre.length r = ⟨false, pre.length + 4, r⟩) ∧
    (INT_MAX < c.toNat * sizeof_P →
      (ParamTraits_vector sizeof_P T).Read m pre.length r = ⟨false, pre.length + 4, r⟩) ∧
    (¬ (c < 0 ∨ INT_MAX / sizeof_P ≤ c.toNat) →
      (ParamTraits_vector sizeof_P T).Read m pre.length r =
        ParamTraits_vector.Read_loop T m c.toNat 0 (pre.length + 4)
          (vector_resize r c.toNat) ∧
      (vector_resize r c.toNat).length = c.toNat ∧
      c.toNat * sizeof_P < INT_MAX) := by
  refine ⟨fun h => vector_Read_reject sizeof_P T m pre rest c hc h hpay r, fun h => ?_,
    fun h => ⟨vector_Read_accept sizeof_P T m pre rest c hc h hpay r,
      vector_resize_length r c.toNat, ?_⟩⟩
  · refine vector_Read_reject sizeof_P T m pre rest c hc (Or.inr ?_) hpay r
    by_contra hlt
    have := mul_lt_of_lt_div c.toNat sizeof_P (not_le.mp hlt)
    omega
  · exact mul_lt_of_lt_div c.toNat sizeof_P (not_le.mp (fun h' => h (Or.inr h')))

/-- C6 at concrete inputs, for `std::vector<int>`: the count -1 and the count
`INT_MAX / 4` are rejected with the destination `[7]` untouched; the count 2
before two elements is accepted. -/
theorem C6_vector_count_bound_witness :
    (ParamTraits_vector 4 ParamTraits_int).Read (emptyMessage.WriteBytes (enc_int (-1))) 0 [7] =
      ⟨false, 4, [7]⟩ ∧
    (ParamTraits_vector 4 ParamTraits_int).Read
      (emptyMessage.WriteBytes (enc_int 536870911)) 0 [7] = ⟨false, 4, [7]⟩ ∧
    ((ParamTraits_vector 4 ParamTraits_int).Read
        (emptyMessage.WriteBytes (enc_int 2 ++ (enc_int 5 ++ enc_int 6))) 0 [7] =
      ParamTraits_vector.Read_loop ParamTraits_int
        (emptyMessage.WriteBytes (enc_int 2 ++ (enc_int 5 ++ enc_int 6))) 2 0 4
        (vector_resize [7] 2) ∧
      (vector_resize [(7 : Int)] 2).length = 2 ∧ 2 * 4 < INT_MAX) :=
  ⟨(C6_vector_count_bound 4 ParamTraits_int (emptyMessage.WriteBytes (enc_int (-1))) [] []
      (-1) (by decide) (by decide) [7]).1 (Or.inl (by decide)),
    (C6_vector_count_bound 4 ParamTraits_int (emptyMessage.WriteBytes (enc_int 536870911)) [] []
      536870911 (by decide) (by decide) [7]).1 (Or.inr (by decide)),
    (C6_vector_count_bound 4 ParamTraits_int
      (emptyMessage.WriteBytes (enc_int 2 ++ (enc_int 5 ++ enc_int 6))) []
      (enc_int 5 ++ enc_int 6) 2 (by decide) (by decide) [7]).2.2 (by decide)⟩

/-- C7: negative counts are rejected by set and map. Where a negative int32
count `c` stands at the cursor, `ParamTraits<std::set<P>>::Read` and
`ParamTraits<std::map<K, V>>::Read` return false, with the cursor right after
the count, whatever the element, key and value bindings (no element was
decoded), and with the destination container exactly as it was before the
call. -/
theorem C7_set_map_negative_count {P K V : Type} [LinearOrder P] [Inhabited P] [LinearOrder K]
    [Inhabited K] [Inhabited V] (T : ParamTraits P) (TK : ParamTraits K) (TV : ParamTraits V)
    (m : Message) (pre rest : List Byte) (c : Int) (hc : IsInt32 c) (hneg : c < 0)
    (hpay : m.payload = pre ++ enc_int c ++ rest) (rs : std_set P) (rm : std_map K V) :
    (ParamTraits_set T).Read m pre.length rs = ⟨false, pre.length + 4, rs⟩ ∧
    (ParamTraits_map TK TV).Read m pre.length rm = ⟨false, pre.length + 4, rm⟩ :=
  ⟨set_Read_negative T m pre rest c hc hneg hpay rs,
    map_Read_negative TK TV m pre rest c hc hneg hpay rm⟩

/-- C7 at a concrete input: the count -1 followed by the encoding of the
`int` 9, read into the set `{5}` and into the map `{5 ↦ 7}`. -/
theorem C7_set_map_negative_count_witness :
    (ParamTraits_set ParamTraits_int).Read
        (emptyMessage.WriteBytes (enc_int (-1) ++ enc_int 9)) 0 (std_set.empty.insert 5) =
      ⟨false, 4, std_set.empty.insert 5⟩ ∧
    (ParamTraits_map ParamTraits_int ParamTraits_int).Read
        (emptyMessage.WriteBytes (enc_int (-1) ++ enc_int 9)) 0 (std_map.empty.assign 5 7) =
      ⟨false, 4, std_map.empty.assign 5 7⟩ :=
  C7_set_map_negative_count ParamTraits_int ParamTraits_int ParamTraits_int
    (emptyMessage.WriteBytes (enc_int (-1) ++ enc_int 9)) [] (enc_int 9) (-1) (by decide)
    (by decide) (by decide) (std_set.empty.insert 5) (std_map.empty.assign 5 7)

/-! ## Truncated input -/

/-- C9: tuple decoding is all-or-nothing. Let `ra`, `rb`, `rc`, `rd`, `re` be
the reads of the fields `a`, `b`, `c`, `d`, `e` in that order, each started at
the cursor the one before it left. For `Tuple1` .. `Tuple5`,
`ParamTraits<TupleN>::Read` returns true if and only if the reads of all its
fields return true, and then the destination holds the values they decoded;
where a field's read is the first to return false, the tuple read returns
false with the cursor as that read left it and with every later field of the
destination as it was: no later field is read. In particular, when only the
read of the final field fails (its bytes are missing), the whole tuple read
returns false. -/
theorem C9_tuple_all_or_nothing {A B C D E : Type} (TA : ParamTraits A) (TB : ParamTraits B)
    (TC : ParamTraits C) (TD : ParamTraits D) (TE : ParamTraits E) (m : Message)
    (iter : PickleIterator) (da : A) (db : B) (dc : C) (dd : D) (de : E)
    (ra : ReadResult A) (rb : ReadResult B) (rc : ReadResult C) (rd : ReadResult D)
    (re : ReadResult E) (hra : ra = ReadParam TA m iter da)
    (hrb : rb = ReadParam TB m ra.iter db) (hrc : rc = ReadParam TC m rb.iter dc)
    (hrd : rd = ReadParam TD m rc.iter dd) (hre : re = ReadParam TE m rd.iter de) :
    (((ParamTraits_Tuple1 TA).Read m iter ⟨da⟩).ok = true ↔ ra.ok = true) ∧
    (ra.ok = false → (ParamTraits_Tuple1 TA).Read m iter ⟨da⟩ = ⟨false, ra.iter, ⟨ra.value⟩⟩) ∧
    (ra.ok = true → (ParamTraits_Tuple1 TA).Read m iter ⟨da⟩ = ⟨true, ra.iter, ⟨ra.value⟩⟩) ∧
    (((ParamTraits_Tuple2 TA TB).Read m iter ⟨da, db⟩).ok = true ↔ ra.ok = true ∧ rb.ok = true) ∧
    (ra.ok = false → (ParamTraits_Tuple2 TA TB).Read m iter ⟨da, db⟩ = ⟨false, ra.iter,
      ⟨ra.value, db⟩⟩) ∧
    (ra.ok = true → rb.ok = false → (ParamTraits_Tuple2 TA TB).Read m iter ⟨da, db⟩ = ⟨false,
      rb.iter, ⟨ra.value, rb.value⟩⟩) ∧
    (ra.ok = true → rb.ok = true → (ParamTraits_Tuple2 TA TB).Read m iter ⟨da, db⟩ = ⟨true,
      rb.iter, ⟨ra.value, rb.value⟩⟩) ∧
    (((ParamTraits_Tuple3 TA TB TC).Read m iter ⟨da, db, dc⟩).ok = true ↔ ra.ok = true ∧ rb.ok =
      true ∧ rc.ok = true) ∧
    (ra.ok = false → (ParamTraits_Tuple3 TA TB TC).Read m iter ⟨da, db, dc⟩ = ⟨false, ra.iter,
      ⟨ra.value, db, dc⟩⟩) ∧
    (ra.ok = true → rb.ok = false → (ParamTraits_Tuple3 TA TB TC).Read m iter ⟨da, db, dc⟩ =
      ⟨false, rb.iter, ⟨ra.value, rb.value, dc⟩⟩) ∧
    (ra.ok = true → rb.ok = true → rc.ok = false → (ParamTraits_Tuple3 TA TB TC).Read m iter
      ⟨da, db, dc⟩ = ⟨false, rc.iter, ⟨ra.value, rb.value, rc.value⟩⟩) ∧
    (ra.ok = true → rb.ok = true → rc.ok = true → (ParamTraits_Tuple3 TA TB TC).Read m iter ⟨da,
      db, dc⟩ = ⟨true, rc.iter, ⟨ra.value, rb.value, rc.value⟩⟩) ∧
    (((ParamTraits_Tuple4 TA TB TC TD).Read m iter ⟨da, db, dc, dd⟩).ok = true ↔ ra.ok = true ∧
      rb.ok = true ∧ rc.ok = true ∧ rd.ok = true) ∧
    (ra.ok = false → (ParamTraits_Tuple4 TA TB TC TD).Read m iter ⟨da, db, dc, dd⟩ = ⟨false,
      ra.iter, ⟨ra.value, db, dc, dd⟩⟩) ∧
    (ra.ok = true → rb.ok = false → (ParamTraits_Tuple4 TA TB TC TD).Read m iter ⟨da, db, dc,
      dd⟩ = ⟨false, rb.iter, ⟨ra.value, rb.value, dc, dd⟩⟩) ∧
    (ra.ok = true → rb.ok = true → rc.ok = false → (ParamTraits_Tuple4 TA TB TC TD).Read m iter
      ⟨da, db, dc, dd⟩ = ⟨false, rc.iter, ⟨ra.value, rb.value, rc.value, dd⟩⟩) ∧
    (ra.ok = true → rb.ok = true → rc.ok = true → rd.ok = false → (ParamTraits_Tuple4 TA TB TC
      TD).Read m iter ⟨da, db, dc, dd⟩ = ⟨false, rd.iter, ⟨ra.value, rb.value, rc.value,
      rd.value⟩⟩) ∧
    (ra.ok = true → rb.ok = true → rc.ok = true → rd.ok = true → (ParamTraits_Tuple4 TA TB TC
      TD).Read m iter ⟨da, db, dc, dd⟩ = ⟨true, rd.iter, ⟨ra.value, rb.value, rc.value,
      rd.value⟩⟩) ∧
    (((ParamTraits_Tuple5 TA TB TC TD TE).Read m iter ⟨da, db, dc, dd, de⟩).ok = true ↔ ra.ok =
      true ∧ rb.ok = true ∧ rc.ok = true ∧ rd.ok = true ∧ re.ok = true) ∧
    (ra.ok = false → (ParamTraits_Tuple5 TA TB TC TD TE).Read m iter ⟨da, db, dc, dd, de⟩ =
      ⟨false, ra.iter, ⟨ra.value, db, dc, dd, de⟩⟩) ∧
    (ra.ok = true → rb.ok = false → (ParamTraits_Tuple5 TA TB TC TD TE).Read m iter ⟨da, db, dc,
      dd, de⟩ = ⟨false, rb.iter, ⟨ra.value, rb.value, dc, dd, de⟩⟩) ∧
    (ra.ok = true → rb.ok = true → rc.ok = false → (ParamTraits_Tuple5 TA TB TC TD TE).Read m
      iter ⟨da, db, dc, dd, de⟩ = ⟨false, rc.iter, ⟨ra.value, rb.value, rc.value, dd, de⟩⟩) ∧
    (ra.ok = true → rb.ok = true → rc.ok = true → rd.ok = false → (ParamTraits_Tuple5 TA TB TC
      TD TE).Read m iter ⟨da, db, dc, dd, de⟩ = ⟨false, rd.iter, ⟨ra.value, rb.value, rc.value,
      rd.value, de⟩⟩) ∧
    (ra.ok = true → rb.ok = true → rc.ok = true → rd.ok = true → re.ok = false →
      (ParamTraits_Tuple5 TA TB TC TD TE).Read m iter ⟨da, db, dc, dd, de⟩ = ⟨false, re.iter,
      ⟨ra.value, rb.value, rc.value, rd.value, re.value⟩⟩) ∧
    (ra.ok = true → rb.ok = true → rc.ok = true → rd.ok = true → re.ok = true →
      (ParamTraits_Tuple5 TA TB TC TD TE).Read m iter ⟨da, db, dc, dd, de⟩ = ⟨true, re.iter,
      ⟨ra.value, rb.value, rc.value, rd.value, re.value⟩⟩) := by
  subst hre hrd hrc hrb hra
  simp only [ParamTraits_Tuple1, ParamTraits_Tuple2, ParamTraits_Tuple3, ParamTraits_Tuple4,
    ParamTraits_Tuple5, ReadParam]
  refine ⟨?_, ?_, ?_, ?_, ?_, ?_, ?_, ?_, ?_, ?_, ?_, ?_, ?_, ?_, ?_, ?_, ?_, ?_, ?_, ?_, ?_, ?_,
    ?_, ?_, ?_⟩
  all_goals (intros; (try split_ifs) <;> simp_all)

/-- A message whose payload is the encoding of the two `int`s 1 and 2. -/
def twoInts : Message := emptyMessage.WriteBytes (enc_int 1 ++ enc_int 2)

/-- C9 at a concrete input: on the encoding of two `int`s, the read of a
`Tuple3` of `int`s fails at its final field, whose bytes are missing, and the
read of a `Tuple2` of `int`s succeeds. -/
theorem C9_tuple_all_or_nothing_witness :
    (ParamTraits_Tuple3 ParamTraits_int ParamTraits_int ParamTraits_int).Read twoInts 0
        ⟨0, 0, 0⟩ = ⟨false, 8, ⟨1, 2, 0⟩⟩ ∧
    (ParamTraits_Tuple2 ParamTraits_int ParamTraits_int).Read twoInts 0 ⟨0, 0⟩ =
      ⟨true, 8, ⟨1, 2⟩⟩ :=
  ⟨(C9_tuple_all_or_nothing ParamTraits_int ParamTraits_int ParamTraits_int ParamTraits_int
      ParamTraits_int twoInts 0 0 0 0 0 0 ⟨true, 4, 1⟩ ⟨true, 8, 2⟩ ⟨false, 8, 0⟩ ⟨false, 8, 0⟩
      ⟨false, 8, 0⟩ (by decide) (by decide) (by decide) (by decide)
      (by decide)).2.2.2.2.2.2.2.2.2.2.1 rfl rfl rfl,
    (C9_tuple_all_or_nothing ParamTraits_int ParamTraits_int ParamTraits_int ParamTraits_int
      ParamTraits_int twoInts 0 0 0 0 0 0 ⟨true, 4, 1⟩ ⟨true, 8, 2⟩ ⟨false, 8, 0⟩ ⟨false, 8, 0⟩
      ⟨false, 8, 0⟩ (by decide) (by decide) (by decide) (by decide)
      (by decide)).2.2.2.2.2.2.1 rfl rfl⟩

/-! ## Repeated keys in a map payload -/

theorem map_find_map_assign {K V : Type} [LinearOrder K] (k k' : K) (v : V)
    (l : List (K × V)) :
    map_find k' (map_assign k v l) = if k' = k then some v else map_find k' l := by
  induction l with
  | nil =>
    by_cases h : k = k'
    · simp [map_assign, map_find, h]
    · simp [map_assign, map_find, h, Ne.symm h]
  | cons e es ih =>
    by_cases hk : k' = k
    · subst hk
      rw [if_pos rfl] at ih ⊢
      unfold map_assign
      split_ifs with h1 h2
      · simp [map_find]
      · simp [map_find, ne_of_lt h2, ih]
      · simp [map_find]
    · rw [if_neg hk] at ih ⊢
      unfold map_assign
      split_ifs with h1 h2
      · simp [map_find, Ne.symm hk]
      · simp [map_find, ih]
      · have hek : k = e.1 := le_antisymm (not_lt.mp h2) (not_lt.mp h1)
        have hne : ¬ e.1 = k' := fun h => hk (by rw [← h, hek])
        simp [map_find, Ne.symm hk, hne]

theorem find_assign {K V : Type} [LinearOrder K] (r : std_map K V) (k k' : K) (v : V) :
    (r.assign k v).find k' = if k' = k then some v else r.find k' :=
  map_find_map_assign k k' v r.val

theorem assignAll_append {K V : Type} [LinearOrder K] (r : std_map K V)
    (l1 l2 : List (K × V)) : assignAll r (l1 ++ l2) = assignAll (assignAll r l1) l2 := by
  simp [assignAll, List.foldl_append]

theorem find_assignAll_of_absent {K V : Type} [LinearOrder K] (k : K) (l : List (K × V)) :
    ∀ r : std_map K V, (∀ e ∈ l, e.1 ≠ k) → (assignAll r l).find k = r.find k := by
  induction l with
  | nil => intro r _; rfl
  | cons e es ih =>
    intro r h
    have h1 : (assignAll r (e :: es)) = assignAll (r.assign e.1 e.2) es := rfl
    rw [h1, ih _ (fun e' he' => h e' (by simp [he'])), find_assign,
      if_neg (Ne.symm (h e (by simp)))]

/-- After the stores of a list of entries, a key holds the value of its last
entry in the list. -/
theorem find_assignAll_last {K V : Type} [LinearOrder K] (r : std_map K V)
    (l1 l2 : List (K × V)) (k : K) (v : V) (hlast : ∀ e ∈ l2, e.1 ≠ k) :
    (assignAll r (l1 ++ (k, v) :: l2)).find k = some v := by
  have h1 : assignAll r (l1 ++ (k, v) :: l2) =
      assignAll ((assignAll r l1).assign k v) l2 := by
    rw [assignAll_append]; rfl
  rw [h1, find_assignAll_of_absent k l2 _ hlast, find_assign, if_pos rfl]

/-- C10, as amended: map duplicate keys, last write wins, for value types
whose `Read` overwrites its destination. When the value binding reads back
what was written into every destination (as the bindings of `int`, `bool`,
pairs, tuples and vectors of those do, and those of `std::set` and `std::map`
do not), the map `Read` of a payload of entries in which keys may repeat
returns true, and the value stored afterwards at a key `k` is exactly the
value `v` of the last entry of `k` in the payload, whatever earlier entries of
`k` held and whatever the destination held at `k` before. -/
theorem C10_map_last_write_wins {K V : Type} [LinearOrder K] [Inhabited K] [Inhabited V]
    (TK : ParamTraits K) (TV : ParamTraits V) (encK : K → List Byte) (encV : V → List Byte)
    (DK VK : K → Prop) (VV : V → Prop) (hK : RoundTrips TK encK DK VK) (hdefK : DK default)
    (hV : RoundTrips TV encV (fun _ => True) VV) (m : Message) (pre rest : List Byte)
    (l1 l2 : List (K × V)) (k : K) (v : V) (r0 : std_map K V)
    (hval : ∀ e ∈ l1 ++ (k, v) :: l2, VK e.1 ∧ VV e.2)
    (hlen : (l1 ++ (k, v) :: l2).length < 2147483648)
    (hpay : m.payload = pre ++ (enc_int ((l1 ++ (k, v) :: l2).length : Int) ++
      (l1 ++ (k, v) :: l2).flatMap (enc_entry encK encV)) ++ rest)
    (hlast : ∀ e ∈ l2, e.1 ≠ k) :
    ((ParamTraits_map TK TV).Read m pre.length r0).ok = true ∧
    ((ParamTraits_map TK TV).Read m pre.length r0).value.find k = some v := by
  have h := map_Read_run TK TV encK encV DK VK (fun _ => True) VV hK.2 hdefK hV.2 m pre rest
    (l1 ++ (k, v) :: l2) r0 hval (fun _ _ _ _ => trivial) hlen hpay
  rw [h]
  exact ⟨rfl, find_assignAll_last r0 l1 l2 k v hlast⟩

/-- A map payload of `int` to `int` with the key 1 twice: the count 3, then
the entries `(1, 10)`, `(1, 20)`, `(2, 5)`. -/
def dupInts : Message :=
  emptyMessage.WriteBytes (enc_int 3 ++
    (enc_int 1 ++ enc_int 10 ++ (enc_int 1 ++ enc_int 20 ++ (enc_int 2 ++ enc_int 5))))

/-- C10 at a concrete input: in a `std::map<int, int>` payload with entries
`(1, 10)`, `(1, 20)`, `(2, 5)`, read into the map `{1 ↦ 99}`, the key 1 ends
with the value 20. -/
theorem C10_map_last_write_wins_witness :
    ((ParamTraits_map ParamTraits_int ParamTraits_int).Read dupInts
      ([] : List Byte).length (std_map.empty.assign 1 99)).ok = true ∧
    ((ParamTraits_map ParamTraits_int ParamTraits_int).Read dupInts
      ([] : List Byte).length (std_map.empty.assign 1 99)).value.find 1 = some 20 :=
  C10_map_last_write_wins ParamTraits_int ParamTraits_int enc_int enc_int (fun _ => True)
    IsInt32 IsInt32 roundTrips_int trivial roundTrips_int dupInts [] [] [(1, 10)] [(2, 5)] 1 20
    (std_map.empty.assign 1 99) (by decide) (by decide) (by decide) (by decide)

/-- A map payload of `int` to `std::set<int>` with the key 1 twice: the count
2, then the entries `(1, {10})` and `(1, {20})`. -/
def dupSets : Message :=
  emptyMessage.WriteBytes (enc_int 2 ++
    (enc_int 1 ++ enc_set enc_int (std_set.empty.insert 10)) ++
    (enc_int 1 ++ enc_set enc_int (std_set.empty.insert 20)))

/-- C10, as stated, fails for the value type `std::set<int>`: in the payload
with entries `(1, {10})` and `(1, {20})` the map `Read` returns true, the
value decoded for the last occurrence of the key 1 (its bytes begin at offset
20) is `{20}`, and yet the value stored at 1 afterwards is `{10, 20}`: the
member 10 of the earlier value remains, because the set `Read` inserts into
the object `(*r)[k]` that already holds it. -/
theorem C10_map_last_write_wins_counterexample :
    ((ParamTraits_map ParamTraits_int (ParamTraits_set ParamTraits_int)).Read dupSets 0
      std_map.empty).ok = true ∧
    (ParamTraits_set ParamTraits_int).Read dupSets 20 std_set.empty =
      ⟨true, 28, std_set.empty.insert 20⟩ ∧
    ((ParamTraits_map ParamTraits_int (ParamTraits_set ParamTraits_int)).Read dupSets 0
      std_map.empty).value.find 1 = some ((std_set.empty.insert 10).insert 20) := by
  decide

/-! ## Generic message subclasses: asynchronous messages -/

instance : Inhabited Tuple0 := ⟨Tuple0.mk⟩

instance {A : Type} [Inhabited A] : Inhabited (Tuple1 A) := ⟨⟨default⟩⟩

instance {A B : Type} [Inhabited A] [Inhabited B] : Inhabited (Tuple2 A B) :=
  ⟨⟨default, default⟩⟩

instance {A B C : Type} [Inhabited A] [Inhabited B] [Inhabited C] : Inhabited (Tuple3 A B C) :=
  ⟨⟨default, default, default⟩⟩

instance {A B C D : Type} [Inhabited A] [Inhabited B] [Inhabited C] [Inhabited D] :
    Inhabited (Tuple4 A B C D) :=
  ⟨⟨default, default, default, default⟩⟩

instance {A B C D E : Type} [Inhabited A] [Inhabited B] [Inhabited C] [Inhabited D]
    [Inhabited E] : Inhabited (Tuple5 A B C D E) :=
  ⟨⟨default, default, default, default, default⟩⟩

/-- Modelled from the spec: the enumerator `PRIORITY_NORMAL` of the small
priority enum of `ipc/ipc_message.h`. The spec gives it no number; nothing
proved below depends on the one chosen here. -/
def PRIORITY_NORMAL : Nat := 2

/-- Modelled from the spec: the constructor `Message(routing_id, type,
priority)` of `ipc/ipc_message.h`, construction path (a): an envelope with no
payload. -/
def Message.ctor (routing_id : Int) (type : Nat) (priority : Nat) : Message :=
  { routing_id := routing_id, type := type, priority := priority, payload := [] }

/-- The constructor `MessageWithTuple(routing_id, type, p)`: the base
`Message(routing_id, type, PRIORITY_NORMAL)`, then `WriteParam(this, p)`. The
parameter `type` is a `uint16`. -/
def MessageWithTuple.ctor {P : Type} (T : ParamTraits P) (routing_id : Int) (type : Nat)
    (p : P) : Message :=
  WriteParam T (Message.ctor routing_id (type % 65536) PRIORITY_NORMAL) p

/-- `MessageWithTuple::Read(msg, p)`: `ReadParam` from a null iterator, which
stands for the start of the payload. Returns `rv` and the content of `*p`.
`DCHECK(rv)` does nothing in a release build. -/
def MessageWithTuple.Read {P : Type} (T : ParamTraits P) (msg : Message) (p : P) : Bool × P :=
  let rv := ReadParam T msg 0 p
  (rv.ok, rv.value)

/-- Modelled from the spec: `DispatchToMethod(obj, method, arg)` of
`base/tuple.h` for `Tuple0`: the handler is invoked with no argument. The
target object `obj` is rendered by its state, a handler by the change of state
its invocation makes. -/
def DispatchToMethod0 {S : Type} (obj : S) (method : S → S) (_arg : Tuple0) : S :=
  method obj

/-- Modelled from the spec: `DispatchToMethod` for `Tuple1`: the handler is
invoked with the field `a`. -/
def DispatchToMethod1 {S A : Type} (obj : S) (method : A → S → S) (arg : Tuple1 A) : S :=
  method arg.a obj

/-- Modelled from the spec: `DispatchToMethod` for `Tuple2`: the handler is
invoked with the fields `a, b`. -/
def DispatchToMethod2 {S A B : Type} (obj : S) (method : A → B → S → S) (arg : Tuple2 A B) : S :=
  method arg.a arg.b obj

/-- Modelled from the spec: `DispatchToMethod` for `Tuple3`: the handler is
invoked with the fields `a, b, c`. -/
def DispatchToMethod3 {S A B C : Type} (obj : S) (method : A → B → C → S → S)
    (arg : Tuple3 A B C) : S :=
  method arg.a arg.b arg.c obj

/-- Modelled from the spec: `DispatchToMethod` for `Tuple4`: the handler is
invoked with the fields `a, b, c, d`. -/
def DispatchToMethod4 {S A B C D : Type} (obj : S) (method : A → B → C → D → S → S)
    (arg : Tuple4 A B C D) : S :=
  method arg.a arg.b arg.c arg.d obj

/-- Modelled from the spec: `DispatchToMethod` for `Tuple5`: the handler is
invoked with the fields `a, b, c, d, e`. -/
def DispatchToMethod5 {S A B C D E : Type} (obj : S) (method : A → B → C → D → E → S → S)
    (arg : Tuple5 A B C D E) : S :=
  method arg.a arg.b arg.c arg.d arg.e obj

/-- `MessageWithTuple::Dispatch(msg, obj, func)`, the generic dispatcher.
`DispatchToMethod` is the overload of `base/tuple.h` that the type of `Param`
selects. Returns the flag and the state of `obj` after the call. -/
def MessageWithTuple.Dispatch {P S Method : Type} [Inhabited P] (T : ParamTraits P)
    (DispatchToMethod : S → Method → P → S) (msg : Message) (obj : S) (func : Method) :
    Bool × S :=
  let p := MessageWithTuple.Read T msg default
  if p.1 then (true, DispatchToMethod obj func p.2) else (false, obj)

/-- `MessageWithTuple::Dispatch` for `void (T::*func)(const Message&, TA)`. -/
def MessageWithTuple.Dispatch_msg1 {S A : Type} [Inhabited A] (T : ParamTraits (Tuple1 A))
    (msg : Message) (obj : S) (func : Message → A → S → S) : Bool × S :=
  let p := MessageWithTuple.Read T msg default
  if p.1 then (true, func msg p.2.a obj) else (false, obj)

/-- `MessageWithTuple::Dispatch` for `void (T::*func)(const Message&, TA, TB)`. -/
def MessageWithTuple.Dispatch_msg2 {S A B : Type} [Inhabited A] [Inhabited B]
    (T : ParamTraits (Tuple2 A B)) (msg : Message) (obj : S)
    (func : Message → A → B → S → S) : Bool × S :=
  let p := MessageWithTuple.Read T msg default
  if p.1 then (true, func msg p.2.a p.2.b obj) else (false, obj)

/-- `MessageWithTuple::Dispatch` for
`void (T::*func)(const Message&, TA, TB, TC)`. -/
def MessageWithTuple.Dispatch_msg3 {S A B C : Type} [Inhabited A] [Inhabited B] [Inhabited C]
    (T : ParamTraits (Tuple3 A B C)) (msg : Message) (obj : S)
    (func : Message → A → B → C → S → S) : Bool × S :=
  let p := MessageWithTuple.Read T msg default
  if p.1 then (true, func msg p.2.a p.2.b p.2.c obj) else (false, obj)

/-- `MessageWithTuple::Dispatch` for
`void (T::*func)(const Message&, TA, TB, TC, TD)`. -/
def MessageWithTuple.Dispatch_msg4 {S A B C D : Type} [Inhabited A] [Inhabited B] [Inhabited C]
    [Inhabited D] (T : ParamTraits (Tuple4 A B C D)) (msg : Message) (obj : S)
    (func : Message → A → B → C → D → S → S) : Bool × S :=
  let p := MessageWithTuple.Read T msg default
  if p.1 then (true, func msg p.2.a p.2.b p.2.c p.2.d obj) else (false, obj)

/-- `MessageWithTuple::Dispatch` for
`void (T::*func)(const Message&, TA, TB, TC, TD, TE)`. -/
def MessageWithTuple.Dispatch_msg5 {S A B C D E : Type} [Inhabited A] [Inhabited B]
    [Inhabited C] [Inhabited D] [Inhabited E] (T : ParamTraits (Tuple5 A B C D E))
    (msg : Message) (obj : S) (func : Message → A → B → C → D → E → S → S) : Bool × S :=
  let p := MessageWithTuple.Read T msg default
  if p.1 then (true, func msg p.2.a p.2.b p.2.c p.2.d p.2.e obj) else (false, obj)

/-- C11: asynchronous dispatch invokes the handler exactly when decoding
succeeds. For every message, target state and handler, each overload of
`MessageWithTuple::Dispatch` (the generic one and the five that pass the
message) returns the flag that `MessageWithTuple::Read` returns for the
declared tuple; when that flag is true, the state of the target afterwards is
the one a single invocation of the handler on the decoded fields produces from
the state before; when it is false, the state of the target is the state
before: the handler was not invoked. -/
theorem C11_dispatch_iff_decoded {P S Method A B C D E : Type} [Inhabited P] [Inhabited A]
    [Inhabited B] [Inhabited C] [Inhabited D] [Inhabited E] (T : ParamTraits P)
    (DispatchToMethod : S → Method → P → S) (func : Method)
    (T1 : ParamTraits (Tuple1 A)) (f1 : Message → A → S → S)
    (T2 : ParamTraits (Tuple2 A B)) (f2 : Message → A → B → S → S)
    (T3 : ParamTraits (Tuple3 A B C)) (f3 : Message → A → B → C → S → S)
    (T4 : ParamTraits (Tuple4 A B C D)) (f4 : Message → A → B → C → D → S → S)
    (T5 : ParamTraits (Tuple5 A B C D E)) (f5 : Message → A → B → C → D → E → S → S)
    (msg : Message) (obj : S) :
    ((MessageWithTuple.Dispatch T DispatchToMethod msg obj func).1 =
        (MessageWithTuple.Read T msg default).1 ∧
      ((MessageWithTuple.Read T msg default).1 = true →
        (MessageWithTuple.Dispatch T DispatchToMethod msg obj func).2 =
          DispatchToMethod obj func (MessageWithTuple.Read T msg default).2) ∧
      ((MessageWithTuple.Read T msg default).1 = false →
        (MessageWithTuple.Dispatch T DispatchToMethod msg obj func).2 = obj)) ∧
    ((MessageWithTuple.Dispatch_msg1 T1 msg obj f1).1 =
        (MessageWithTuple.Read T1 msg default).1 ∧
      ((MessageWithTuple.Read T1 msg default).1 = true →
        (MessageWithTuple.Dispatch_msg1 T1 msg obj f1).2 =
          f1 msg (MessageWithTuple.Read T1 msg default).2.a obj) ∧
      ((MessageWithTuple.Read T1 msg default).1 = false →
        (MessageWithTuple.Dispatch_msg1 T1 msg obj f1).2 = obj)) ∧
    ((MessageWithTuple.Dispatch_msg2 T2 msg obj f2).1 =
        (MessageWithTuple.Read T2 msg default).1 ∧
      ((MessageWithTuple.Read T2 msg default).1 = true →
        (MessageWithTuple.Dispatch_msg2 T2 msg obj f2).2 =
          f2 msg (MessageWithTuple.Read T2 msg default).2.a (MessageWithTuple.Read T2 msg default).2.b obj) ∧
      ((MessageWithTuple.Read T2 msg default).1 = false →
        (MessageWithTuple.Dispatch_msg2 T2 msg obj f2).2 = obj)) ∧
    ((MessageWithTuple.Dispatch_msg3 T3 msg obj f3).1 =
        (MessageWithTuple.Read T3 msg default).1 ∧
      ((MessageWithTuple.Read T3 msg default).1 = true →
        (MessageWithTuple.Dispatch_msg3 T3 msg obj f3).2 =
          f3 msg (MessageWithTuple.Read T3 msg default).2.a (MessageWithTuple.Read T3 msg default).2.b (MessageWithTuple.Read T3 msg default).2.c obj) ∧
      ((MessageWithTuple.Read T3 msg default).1 = false →
        (MessageWithTuple.Dispatch_msg3 T3 msg obj f3).2 = obj)) ∧
    ((MessageWithTuple.Dispatch_msg4 T4 msg obj f4).1 =
        (MessageWithTuple.Read T4 msg default).1 ∧
      ((MessageWithTuple.Read T4 msg default).1 = true →
        (MessageWithTuple.Dispatch_msg4 T4 msg obj f4).2 =
          f4 msg (MessageWithTuple.Read T4 msg default).2.a (MessageWithTuple.Read T4 msg default).2.b (MessageWithTuple.Read T4 msg default).2.c (MessageWithTuple.Read T4 msg default).2.d obj) ∧
      ((MessageWithTuple.Read T4 msg default).1 = false →
        (MessageWithTuple.Dispatch_msg4 T4 msg obj f4).2 = obj)) ∧
    ((MessageWithTuple.Dispatch_msg5 T5 msg obj f5).1 =
        (MessageWithTuple.Read T5 msg default).1 ∧
      ((MessageWithTuple.Read T5 msg default).1 = true →
        (MessageWithTuple.Dispatch_msg5 T5 msg obj f5).2 =
          f5 msg (MessageWithTuple.Read T5 msg default).2.a (MessageWithTuple.Read T5 msg default).2.b (MessageWithTuple.Read T5 msg default).2.c (MessageWithTuple.Read T5 msg default).2.d (MessageWithTuple.Read T5 msg default).2.e obj) ∧
      ((MessageWithTuple.Read T5 msg default).1 = false →
        (MessageWithTuple.Dispatch_msg5 T5 msg obj f5).2 = obj)) := by
  simp only [MessageWithTuple.Dispatch, MessageWithTuple.Dispatch_msg1,
    MessageWithTuple.Dispatch_msg2, MessageWithTuple.Dispatch_msg3,
    MessageWithTuple.Dispatch_msg4, MessageWithTuple.Dispatch_msg5]
  refine ⟨?_, ?_, ?_, ?_, ?_, ?_⟩ <;>
    (refine ⟨?_, fun h => ?_, fun h => ?_⟩ <;> (try split_ifs) <;> simp_all)

/-- C11 at a concrete input, with a target that records the calls it
receives: on the encoding of the two `int`s 1 and 2, dispatch for a `Tuple2`
of `int`s returns true and the record has exactly one more call, `(1, 2)`;
dispatch for a `Tuple3` of `int`s returns false and the record is as before. -/
theorem C11_dispatch_recorded_calls :
    MessageWithTuple.Dispatch (ParamTraits_Tuple2 ParamTraits_int ParamTraits_int)
        DispatchToMethod2 twoInts ([(9, 9)] : List (Int × Int))
        (fun a b calls => calls ++ [(a, b)]) = (true, [(9, 9), (1, 2)]) ∧
    MessageWithTuple.Dispatch_msg3
        (ParamTraits_Tuple3 ParamTraits_int ParamTraits_int ParamTraits_int) twoInts
        ([(9, 9, 9)] : List (Int × Int × Int))
        (fun _ a b c calls => calls ++ [(a, b, c)]) = (false, [(9, 9, 9)]) := by
  decide

/-- `MessageWithTuple::Read` on the message the constructor built from `p`,
when the binding of the tuple pack round-trips `p` into the destination. -/
theorem MessageWithTuple_Read_ctor {P : Type} (T : ParamTraits P) (enc : P → List Byte)
    (D V : P → Prop) (hT : RoundTrips T enc D V) (d : P) (hd : D d) (p : P) (hp : V p)
    (routing_id : Int) (type : Nat) :
    MessageWithTuple.Read T (MessageWithTuple.ctor T routing_id type p) d = (true, p) := by
  have happ : MessageWithTuple.ctor T routing_id type p =
      (Message.ctor routing_id (type % 65536) PRIORITY_NORMAL).WriteBytes (enc p) := hT.1 _ p
  have h := hT.2 (MessageWithTuple.ctor T routing_id type p) [] [] d p hd hp
    (by rw [happ]; simp [WriteBytes_payload, Message.ctor])
  have h' : T.Read (MessageWithTuple.ctor T routing_id type p) 0 d =
      ⟨true, 0 + (enc p).length, p⟩ := h
  simp [MessageWithTuple.Read, ReadParam, h']

/-- The sequence `Read` on a payload that begins with the encoding of a
sequence of `int` that has `INT_MAX / sizeof(int)` elements or more (and at
most `INT_MAX`): the count is rejected. -/
theorem oversize_Read_rejected (v : List Int) (h1 : v.length < 2147483648)
    (h2 : INT_MAX / 4 ≤ v.length) (m : Message) (rest : List Byte)
    (hpay : m.payload = enc_vector enc_int v ++ rest) (r : List Int) :
    (ParamTraits_vector 4 ParamTraits_int).Read m 0 r = ⟨false, 4, r⟩ := by
  have hcast : toInt32 v.length = (v.length : Int) := toInt32_of_lt _ h1
  exact vector_Read_reject 4 ParamTraits_int m [] (v.flatMap enc_int ++ rest) (v.length : Int)
    (by unfold IsInt32; omega) (Or.inr (by simpa using h2))
    (by rw [hpay, enc_vector, hcast, List.nil_append, List.append_assoc]) r

/-- The message built from a tuple pack whose one field is an oversize
sequence of `int`: the payload is the encoding of the sequence, and
`MessageWithTuple::Read` returns false. -/
theorem oversize_ctor_Read (v : List Int) (h1 : v.length < 2147483648)
    (h2 : INT_MAX / 4 ≤ v.length) :
    (MessageWithTuple.ctor (ParamTraits_Tuple1 (ParamTraits_vector 4 ParamTraits_int)) 0 0
      ⟨v⟩).payload = enc_vector enc_int v ∧
    (MessageWithTuple.Read (ParamTraits_Tuple1 (ParamTraits_vector 4 ParamTraits_int))
      (MessageWithTuple.ctor (ParamTraits_Tuple1 (ParamTraits_vector 4 ParamTraits_int)) 0 0
        ⟨v⟩) ⟨[]⟩).1 = false := by
  have happ : MessageWithTuple.ctor (ParamTraits_Tuple1 (ParamTraits_vector 4 ParamTraits_int))
      0 0 ⟨v⟩ = (Message.ctor 0 (0 % 65536) PRIORITY_NORMAL).WriteBytes
        (enc_Tuple1 (enc_vector enc_int) ⟨v⟩) :=
    appends_Tuple1 (ParamTraits_vector 4 ParamTraits_int) (enc_vector enc_int)
      (appends_vector 4 ParamTraits_int enc_int appends_int) _ _
  have hpay : (MessageWithTuple.ctor (ParamTraits_Tuple1 (ParamTraits_vector 4 ParamTraits_int))
      0 0 ⟨v⟩).payload = enc_vector enc_int v := by
    rw [happ, WriteBytes_payload]
    simp only [Message.ctor, List.nil_append, enc_Tuple1]
  refine ⟨hpay, ?_⟩
  have h := oversize_Read_rejected v h1 h2 _ [] (by rw [hpay, List.append_nil]) []
  show ((ParamTraits_vector 4 ParamTraits_int).Read _ 0 []).ok = false
  rw [h]

/-- The set binding round-trips every set of at most `INT_MAX` members into an
empty destination, when the element binding round-trips its members into a
fresh `item`. -/
theorem roundTrips_set {P : Type} [LinearOrder P] [Inhabited P] (T : ParamTraits P)
    (enc : P → List Byte) (D V : P → Prop) (hT : RoundTrips T enc D V) (hdef : D default) :
    RoundTrips (ParamTraits_set T) (enc_set enc) (fun d => d = std_set.empty)
      (fun s => s.size ≤ INT_MAX ∧ ∀ x ∈ s.elems, V x) := by
  refine ⟨appends_set T enc hT.1, ?_⟩
  intro m pre rest d v hd hv hpay
  have hlt : v.elems.length < 2147483648 := by
    have := hv.1
    unfold INT_MAX std_set.size at this
    unfold std_set.elems
    omega
  have hcnt : toInt32 v.size = (v.elems.length : Int) := toInt32_of_lt _ hlt
  have h := set_Read_run T enc D V hT.2 hdef m pre rest v.elems std_set.empty hv.2 hlt
    (by rw [hpay, enc_set, hcnt])
  rw [hd, h, foldl_insert_elems]
  simp [enc_set, hcnt]

/-- The `Read` of a `Tuple1` of a set of `int` on a payload that holds the
encoding of a set whose size, cast to `int`, is negative: the count is
rejected. -/
theorem oversize_set_Read (s : std_set Int) (hneg : toInt32 s.size < 0) (m : Message)
    (pre rest : List Byte) (hpay : m.payload = pre ++ enc_set enc_int s ++ rest)
    (r : Tuple1 (std_set Int)) :
    ((ParamTraits_Tuple1 (ParamTraits_set ParamTraits_int)).Read m pre.length r).ok = false := by
  have h := set_Read_negative ParamTraits_int m pre (s.elems.flatMap enc_int ++ rest)
    (toInt32 s.size) (isInt32_toInt32 _) hneg
    (by rw [hpay, enc_set]; simp only [List.append_assoc]) r.a
  show ((ParamTraits_set ParamTraits_int).Read m pre.length r.a).ok = false
  rw [h]

/-- The message built from a tuple pack whose one field is a set of `int`
whose size, cast to `int`, is negative: `MessageWithTuple::Read` returns
false. -/
theorem oversize_set_ctor_Read (s : std_set Int) (hneg : toInt32 s.size < 0) :
    (MessageWithTuple.Read (ParamTraits_Tuple1 (ParamTraits_set ParamTraits_int))
      (MessageWithTuple.ctor (ParamTraits_Tuple1 (ParamTraits_set ParamTraits_int)) 0 0
        ⟨s⟩) ⟨std_set.empty⟩).1 = false := by
  have happ : MessageWithTuple.ctor (ParamTraits_Tuple1 (ParamTraits_set ParamTraits_int))
      0 0 ⟨s⟩ = (Message.ctor 0 (0 % 65536) PRIORITY_NORMAL).WriteBytes
        (enc_Tuple1 (enc_set enc_int) ⟨s⟩) :=
    appends_Tuple1 (ParamTraits_set ParamTraits_int) (enc_set enc_int)
      (appends_set ParamTraits_int enc_int appends_int) _ _
  have hpay : (MessageWithTuple.ctor (ParamTraits_Tuple1 (ParamTraits_set ParamTraits_int))
      0 0 ⟨s⟩).payload = [] ++ enc_set enc_int s ++ [] := by
    rw [happ, WriteBytes_payload]
    simp only [Message.ctor, List.nil_append, enc_Tuple1, List.append_nil]
  exact oversize_set_Read s hneg _ [] [] hpay ⟨std_set.empty⟩

/-- C17, as amended: message construction round trip. For every routing id,
type and tuple pack `p` that the binding of its type round-trips into a
default-constructed tuple (`Read`, started where the bytes `Write` appended
for `p` begin, returns true and yields `p`: so it is for every pack of `int`,
`bool`, `unsigned int`, pairs and tuples of them, vectors of fewer than
`INT_MAX / sizeof(P)` elements and sets of at most `INT_MAX` members, and not
for a larger vector or set), the message the `MessageWithTuple` constructor
produces carries the routing id, has exactly the encoding of `p` as its
payload, and `MessageWithTuple::Read` on it returns true and yields a tuple
equal to `p`. -/
theorem C17_construction_round_trip {P : Type} [Inhabited P] (T : ParamTraits P)
    (enc : P → List Byte) (D V : P → Prop) (hT : RoundTrips T enc D V) (hdef : D default)
    (p : P) (hp : V p) (routing_id : Int) (type : Nat) :
    (MessageWithTuple.ctor T routing_id type p).routing_id = routing_id ∧
    (MessageWithTuple.ctor T routing_id type p).payload = enc p ∧
    MessageWithTuple.Read T (MessageWithTuple.ctor T routing_id type p) default = (true, p) := by
  have happ : MessageWithTuple.ctor T routing_id type p =
      (Message.ctor routing_id (type % 65536) PRIORITY_NORMAL).WriteBytes (enc p) := hT.1 _ p
  refine ⟨?_, ?_, MessageWithTuple_Read_ctor T enc D V hT default hdef p hp routing_id type⟩
  · rw [happ]; rfl
  · rw [happ, WriteBytes_payload]; simp [Message.ctor]

/-- The set `{1, 2}` of `int`. -/
def smallSet : std_set Int := (std_set.empty.insert 1).insert 2

/-- C17 at concrete inputs: the tuple pack `(7, true)` of an `int` and a
`bool`, routing id 5, type 3; and the tuple pack of the one set `{1, 2}`. -/
theorem C17_construction_round_trip_witness :
    ((MessageWithTuple.ctor (ParamTraits_Tuple2 ParamTraits_int ParamTraits_bool) 5 3
      ⟨7, true⟩).routing_id = 5 ∧
    (MessageWithTuple.ctor (ParamTraits_Tuple2 ParamTraits_int ParamTraits_bool) 5 3
      ⟨7, true⟩).payload = enc_Tuple2 enc_int enc_bool ⟨7, true⟩ ∧
    MessageWithTuple.Read (ParamTraits_Tuple2 ParamTraits_int ParamTraits_bool)
      (MessageWithTuple.ctor (ParamTraits_Tuple2 ParamTraits_int ParamTraits_bool) 5 3
        ⟨7, true⟩) default = (true, ⟨7, true⟩)) ∧
    MessageWithTuple.Read (ParamTraits_Tuple1 (ParamTraits_set ParamTraits_int))
      (MessageWithTuple.ctor (ParamTraits_Tuple1 (ParamTraits_set ParamTraits_int)) 5 3
        ⟨smallSet⟩) default = (true, ⟨smallSet⟩) :=
  ⟨C17_construction_round_trip (ParamTraits_Tuple2 ParamTraits_int ParamTraits_bool)
      (enc_Tuple2 enc_int enc_bool) (fun _ => True ∧ True) (fun v => IsInt32 v.a ∧ True)
      ⟨appends_Tuple2 _ _ _ _ appends_int appends_bool,
        readsBack_Tuple2 _ _ _ _ _ _ _ _ readsBack_int readsBack_bool⟩
      ⟨trivial, trivial⟩ ⟨7, true⟩ ⟨by decide, trivial⟩ 5 3,
    (C17_construction_round_trip (ParamTraits_Tuple1 (ParamTraits_set ParamTraits_int))
      (enc_Tuple1 (enc_set enc_int)) (fun r => r.a = std_set.empty)
      (fun v => v.a.size ≤ INT_MAX ∧ ∀ x ∈ v.a.elems, IsInt32 x)
      ⟨appends_Tuple1 _ _ (roundTrips_set ParamTraits_int enc_int _ _ roundTrips_int trivial).1,
        readsBack_Tuple1 _ _ _ _
          (roundTrips_set ParamTraits_int enc_int _ _ roundTrips_int trivial).2⟩
      rfl ⟨smallSet⟩ ⟨by decide, by decide⟩ 5 3).2.2⟩

/-- C17, as stated, fails: the tuple pack holding the vector of
`INT_MAX / sizeof(int)` zeros is serialized by the constructor, every element
of it is an `int`, and `MessageWithTuple::Read` on the message returns false,
because the count is not below the decoder's bound. It fails as well for the
tuple pack holding the set `{0, ..., INT_MAX}`, whose size is written as the
`int` `INT_MIN`. -/
theorem C17_construction_round_trip_counterexample :
    (∀ x ∈ zeros, IsInt32 x) ∧
    ((MessageWithTuple.ctor (ParamTraits_Tuple1 (ParamTraits_vector 4 ParamTraits_int)) 0 0
      ⟨zeros⟩).payload = enc_vector enc_int zeros ∧
    (MessageWithTuple.Read (ParamTraits_Tuple1 (ParamTraits_vector 4 ParamTraits_int))
      (MessageWithTuple.ctor (ParamTraits_Tuple1 (ParamTraits_vector 4 ParamTraits_int)) 0 0
        ⟨zeros⟩) ⟨[]⟩).1 = false) ∧
    (∀ x ∈ bigSet.elems, IsInt32 x) ∧
    (MessageWithTuple.Read (ParamTraits_Tuple1 (ParamTraits_set ParamTraits_int))
      (MessageWithTuple.ctor (ParamTraits_Tuple1 (ParamTraits_set ParamTraits_int)) 0 0
        ⟨bigSet⟩) ⟨std_set.empty⟩).1 = false :=
  ⟨zeros_isInt32, oversize_ctor_Read zeros (by rw [zeros_length]; decide)
    (by rw [zeros_length]; decide), bigSet_isInt32,
    oversize_set_ctor_Read bigSet (by rw [bigSet_size]; decide)⟩

/-! ## Positional unpacking -/

/-- C12, as amended: positional unpacking. For every message built by the
`MessageWithTuple` constructor from a 3-field tuple `(a, b, c)` that the field
bindings round-trip into a default-constructed destination (for the supported
types: every vector in it has fewer than `INT_MAX / sizeof(P)` elements),
dispatching it to a 3-parameter handler returns true and leaves the target in
the state one invocation of the handler with the arguments `a, b, c`, in that
order, produces; with the message-taking convention the first argument is the
very message that was dispatched, followed by `a, b, c`. The same holds with
the corresponding fields for the arities 1, 2, 4 and 5. -/
theorem C12_positional_unpacking {S A B C D E : Type} [Inhabited A] [Inhabited B]
    [Inhabited C] [Inhabited D] [Inhabited E] (TA : ParamTraits A) (TB : ParamTraits B)
    (TC : ParamTraits C) (TD : ParamTraits D) (TE : ParamTraits E) (encA : A → List Byte)
    (encB : B → List Byte) (encC : C → List Byte) (encD : D → List Byte) (encE : E → List Byte)
    (DA VA : A → Prop) (DB VB : B → Prop) (DC VC : C → Prop) (DD VD : D → Prop)
    (DE VE : E → Prop) (hA : RoundTrips TA encA DA VA) (hB : RoundTrips TB encB DB VB)
    (hC : RoundTrips TC encC DC VC) (hD : RoundTrips TD encD DD VD)
    (hE : RoundTrips TE encE DE VE) (hdA : DA default) (hdB : DB default) (hdC : DC default)
    (hdD : DD default) (hdE : DE default) (a : A) (b : B) (c : C) (d : D) (e : E)
    (hvA : VA a) (hvB : VB b) (hvC : VC c) (hvD : VD d) (hvE : VE e)
    (routing_id : Int) (type : Nat) (obj : S)
    (f1 : A → S → S) (g1 : Message → A → S → S)
    (f2 : A → B → S → S) (g2 : Message → A → B → S → S)
    (f3 : A → B → C → S → S) (g3 : Message → A → B → C → S → S)
    (f4 : A → B → C → D → S → S) (g4 : Message → A → B → C → D → S → S)
    (f5 : A → B → C → D → E → S → S) (g5 : Message → A → B → C → D → E → S → S) :
    MessageWithTuple.Dispatch (ParamTraits_Tuple3 TA TB TC) DispatchToMethod3
        (MessageWithTuple.ctor (ParamTraits_Tuple3 TA TB TC) routing_id type ⟨a, b, c⟩) obj f3 =
      (true, f3 a b c obj) ∧
    MessageWithTuple.Dispatch_msg3 (ParamTraits_Tuple3 TA TB TC)
        (MessageWithTuple.ctor (ParamTraits_Tuple3 TA TB TC) routing_id type ⟨a, b, c⟩) obj g3 =
      (true, g3 (MessageWithTuple.ctor (ParamTraits_Tuple3 TA TB TC) routing_id type ⟨a, b, c⟩)
        a b c obj) ∧
    MessageWithTuple.Dispatch (ParamTraits_Tuple1 TA) DispatchToMethod1
        (MessageWithTuple.ctor (ParamTraits_Tuple1 TA) routing_id type ⟨a⟩) obj f1 =
      (true, f1 a obj) ∧
    MessageWithTuple.Dispatch_msg1 (ParamTraits_Tuple1 TA)
        (MessageWithTuple.ctor (ParamTraits_Tuple1 TA) routing_id type ⟨a⟩) obj g1 =
      (true, g1 (MessageWithTuple.ctor (ParamTraits_Tuple1 TA) routing_id type ⟨a⟩)
        a obj) ∧
    MessageWithTuple.Dispatch (ParamTraits_Tuple2 TA TB) DispatchToMethod2
        (MessageWithTuple.ctor (ParamTraits_Tuple2 TA TB) routing_id type ⟨a, b⟩) obj f2 =
      (true, f2 a b obj) ∧
    MessageWithTuple.Dispatch_msg2 (ParamTraits_Tuple2 TA TB)
        (MessageWithTuple.ctor (ParamTraits_Tuple2 TA TB) routing_id type ⟨a, b⟩) obj g2 =
      (true, g2 (MessageWithTuple.ctor (ParamTraits_Tuple2 TA TB) routing_id type ⟨a, b⟩)
        a b obj) ∧
    MessageWithTuple.Dispatch (ParamTraits_Tuple4 TA TB TC TD) DispatchToMethod4
        (MessageWithTuple.ctor (ParamTraits_Tuple4 TA TB TC TD) routing_id type ⟨a, b, c, d⟩) obj f4 =
      (true, f4 a b c d obj) ∧
    MessageWithTuple.Dispatch_msg4 (ParamTraits_Tuple4 TA TB TC TD)
        (MessageWithTuple.ctor (ParamTraits_Tuple4 TA TB TC TD) routing_id type ⟨a, b, c, d⟩) obj g4 =
      (true, g4 (MessageWithTuple.ctor (ParamTraits_Tuple4 TA TB TC TD) routing_id type ⟨a, b, c, d⟩)
        a b c d obj) ∧
    MessageWithTuple.Dispatch (ParamTraits_Tuple5 TA TB TC TD TE) DispatchToMethod5
        (MessageWithTuple.ctor (ParamTraits_Tuple5 TA TB TC TD TE) routing_id type ⟨a, b, c, d, e⟩) obj f5 =
      (true, f5 a b c d e obj) ∧
    MessageWithTuple.Dispatch_msg5 (ParamTraits_Tuple5 TA TB TC TD TE)
        (MessageWithTuple.ctor (ParamTraits_Tuple5 TA TB TC TD TE) routing_id type ⟨a, b, c, d, e⟩) obj g5 =
      (true, g5 (MessageWithTuple.ctor (ParamTraits_Tuple5 TA TB TC TD TE) routing_id type ⟨a, b, c, d, e⟩)
        a b c d e obj) := by
  have hr3 := MessageWithTuple_Read_ctor (ParamTraits_Tuple3 TA TB TC) _ _ _
    ⟨appends_Tuple3 _ _ _ _ _ _ hA.1 hB.1 hC.1,
      readsBack_Tuple3 _ _ _ _ _ _ _ _ _ _ _ _ hA.2 hB.2 hC.2⟩
    default ⟨hdA, hdB, hdC⟩ ⟨a, b, c⟩ ⟨hvA, hvB, hvC⟩ routing_id type
  have hr1 := MessageWithTuple_Read_ctor (ParamTraits_Tuple1 TA) _ _ _
    ⟨appends_Tuple1 _ _ hA.1,
      readsBack_Tuple1 _ _ _ _ hA.2⟩
    default hdA ⟨a⟩ hvA routing_id type
  have hr2 := MessageWithTuple_Read_ctor (ParamTraits_Tuple2 TA TB) _ _ _
    ⟨appends_Tuple2 _ _ _ _ hA.1 hB.1,
      readsBack_Tuple2 _ _ _ _ _ _ _ _ hA.2 hB.2⟩
    default ⟨hdA, hdB⟩ ⟨a, b⟩ ⟨hvA, hvB⟩ routing_id type
  have hr4 := MessageWithTuple_Read_ctor (ParamTraits_Tuple4 TA TB TC TD) _ _ _
    ⟨appends_Tuple4 _ _ _ _ _ _ _ _ hA.1 hB.1 hC.1 hD.1,
      readsBack_Tuple4 _ _ _ _ _ _ _ _ _ _ _ _ _ _ _ _ hA.2 hB.2 hC.2 hD.2⟩
    default ⟨hdA, hdB, hdC, hdD⟩ ⟨a, b, c, d⟩ ⟨hvA, hvB, hvC, hvD⟩ routing_id type
  have hr5 := MessageWithTuple_Read_ctor (ParamTraits_Tuple5 TA TB TC TD TE) _ _ _
    ⟨appends_Tuple5 _ _ _ _ _ _ _ _ _ _ hA.1 hB.1 hC.1 hD.1 hE.1,
      readsBack_Tuple5 _ _ _ _ _ _ _ _ _ _ _ _ _ _ _ _ _ _ _ _ hA.2 hB.2 hC.2 hD.2 hE.2⟩
    default ⟨hdA, hdB, hdC, hdD, hdE⟩ ⟨a, b, c, d, e⟩ ⟨hvA, hvB, hvC, hvD, hvE⟩ routing_id type
  simp only [MessageWithTuple.Dispatch, MessageWithTuple.Dispatch_msg1,
    MessageWithTuple.Dispatch_msg2, MessageWithTuple.Dispatch_msg3,
    MessageWithTuple.Dispatch_msg4, MessageWithTuple.Dispatch_msg5, hr1, hr2, hr3, hr4, hr5,
    DispatchToMethod1, DispatchToMethod2, DispatchToMethod3, DispatchToMethod4,
    DispatchToMethod5, if_true, and_self]

/-- A handler of three parameters that records the arguments of each call
in the state of its target. -/
def recordCall3 (a : Int) (b : Bool) (c : Int) (calls : List (Int × Bool × Int)) :
    List (Int × Bool × Int) :=
  calls ++ [(a, b, c)]

/-- A handler with the message-taking convention that records the routing id
of the message it is given and its three field arguments. -/
def recordCallMsg3 (msg : Message) (a : Int) (b : Bool) (c : Int)
    (calls : List (Int × Int × Bool × Int)) : List (Int × Int × Bool × Int) :=
  calls ++ [(msg.routing_id, a, b, c)]

/-- C12 at a concrete input: the message built from `(1, true, -3)` with
routing id 5, dispatched to handlers that record their arguments. -/
theorem C12_positional_unpacking_witness :
    MessageWithTuple.Dispatch (ParamTraits_Tuple3 ParamTraits_int ParamTraits_bool ParamTraits_int)
        DispatchToMethod3
        (MessageWithTuple.ctor (ParamTraits_Tuple3 ParamTraits_int ParamTraits_bool
          ParamTraits_int) 5 3 ⟨1, true, -3⟩) ([] : List (Int × Bool × Int)) recordCall3 =
      (true, recordCall3 1 true (-3) []) :=
  (C12_positional_unpacking (S := List (Int × Bool × Int)) ParamTraits_int ParamTraits_bool
    ParamTraits_int ParamTraits_int ParamTraits_int enc_int enc_bool enc_int enc_int enc_int
    (fun _ => True) IsInt32 (fun _ => True) (fun _ => True) (fun _ => True) IsInt32
    (fun _ => True) IsInt32 (fun _ => True) IsInt32 roundTrips_int
    ⟨appends_bool, readsBack_bool⟩ roundTrips_int roundTrips_int roundTrips_int trivial trivial
    trivial trivial trivial 1 true (-3) 0 0 (by decide) trivial (by decide) (by decide)
    (by decide) 5 3 [] (fun _ s => s) (fun _ _ s => s) (fun _ _ s => s) (fun _ _ _ s => s)
    recordCall3 (fun _ _ _ _ s => s) (fun _ _ _ _ s => s) (fun _ _ _ _ _ s => s)
    (fun _ _ _ _ _ s => s) (fun _ _ _ _ _ _ s => s)).1

/-- A handler of three parameters, the first a sequence, that records its
second and third argument in the state of its target. -/
def recordTail3 (_a : List Int) (b c : Int) (calls : List (Int × Int)) : List (Int × Int) :=
  calls ++ [(b, c)]

theorem Tuple3_Read_first_fails {A B C : Type} (TA : ParamTraits A) (TB : ParamTraits B)
    (TC : ParamTraits C) (m : Message) (iter : PickleIterator) (r : Tuple3 A B C)
    (h : (TA.Read m iter r.a).ok = false) :
    ((ParamTraits_Tuple3 TA TB TC).Read m iter r).ok = false := by
  simp [ParamTraits_Tuple3, ReadParam, h]

/-- Dispatch of the message built from a 3-field tuple whose first field is an
oversize sequence of `int`: it returns false and the target is as before. -/
theorem oversize_dispatch (v : List Int) (h1 : v.length < 2147483648)
    (h2 : INT_MAX / 4 ≤ v.length) :
    MessageWithTuple.Dispatch
        (ParamTraits_Tuple3 (ParamTraits_vector 4 ParamTraits_int) ParamTraits_int
          ParamTraits_int) DispatchToMethod3
        (MessageWithTuple.ctor (ParamTraits_Tuple3 (ParamTraits_vector 4 ParamTraits_int)
          ParamTraits_int ParamTraits_int) 0 0 ⟨v, 1, 2⟩) ([] : List (Int × Int)) recordTail3 =
      (false, []) := by
  have happ : MessageWithTuple.ctor (ParamTraits_Tuple3 (ParamTraits_vector 4 ParamTraits_int)
      ParamTraits_int ParamTraits_int) 0 0 ⟨v, 1, 2⟩ =
      (Message.ctor 0 (0 % 65536) PRIORITY_NORMAL).WriteBytes
        (enc_Tuple3 (enc_vector enc_int) enc_int enc_int ⟨v, 1, 2⟩) :=
    appends_Tuple3 (ParamTraits_vector 4 ParamTraits_int) ParamTraits_int ParamTraits_int
      (enc_vector enc_int) enc_int enc_int (appends_vector 4 ParamTraits_int enc_int appends_int)
      appends_int appends_int _ _
  have hpay : (MessageWithTuple.ctor (ParamTraits_Tuple3 (ParamTraits_vector 4 ParamTraits_int)
      ParamTraits_int ParamTraits_int) 0 0 ⟨v, 1, 2⟩).payload =
      enc_vector enc_int v ++ (enc_int 1 ++ enc_int 2) := by
    rw [happ, WriteBytes_payload]
    simp only [Message.ctor, List.nil_append, enc_Tuple3, List.append_assoc]
  have h := oversize_Read_rejected v h1 h2 _ _ hpay []
  have hfail := Tuple3_Read_first_fails (ParamTraits_vector 4 ParamTraits_int) ParamTraits_int
    ParamTraits_int (MessageWithTuple.ctor (ParamTraits_Tuple3
      (ParamTraits_vector 4 ParamTraits_int) ParamTraits_int ParamTraits_int) 0 0 ⟨v, 1, 2⟩) 0
    (default : Tuple3 (List Int) Int Int) (congrArg ReadResult.ok h)
  simp only [MessageWithTuple.Dispatch, MessageWithTuple.Read, ReadParam, hfail]
  rfl

/-- C12, as stated, fails: the message built from the 3-field tuple whose
first field is the vector of `INT_MAX / sizeof(int)` zeros is dispatched to a
3-parameter handler, and the handler is not invoked: dispatch returns false
and the record of calls stays empty. -/
theorem C12_positional_unpacking_counterexample :
    (∀ x ∈ zeros, IsInt32 x) ∧
    MessageWithTuple.Dispatch
        (ParamTraits_Tuple3 (ParamTraits_vector 4 ParamTraits_int) ParamTraits_int
          ParamTraits_int) DispatchToMethod3
        (MessageWithTuple.ctor (ParamTraits_Tuple3 (ParamTraits_vector 4 ParamTraits_int)
          ParamTraits_int ParamTraits_int) 0 0 ⟨zeros, 1, 2⟩) ([] : List (Int × Int))
        recordTail3 = (false, []) :=
  ⟨zeros_isInt32, oversize_dispatch zeros (by rw [zeros_length]; decide)
    (by rw [zeros_length]; decide)⟩

/-! ## Manual unpacking -/

/-- `MessageWithTuple::Read(msg, TA* a, TB* b)`, manual
unpacking: returns the flag and the content of the output variables after the
call; their content before the call is passed in. -/
def MessageWithTuple.Read_out2 {A B : Type} [Inhabited A] [Inhabited B]
    (T : ParamTraits (Tuple2 A B)) (msg : Message) (a : A) (b : B) :
    Bool × A × B :=
  let params := MessageWithTuple.Read T msg default
  if !params.1 then (false, a, b)
  else (true, params.2.a, params.2.b)

/-- `MessageWithTuple::Read(msg, TA* a, TB* b, TC* c)`, manual
unpacking: returns the flag and the content of the output variables after the
call; their content before the call is passed in. -/
def MessageWithTuple.Read_out3 {A B C : Type} [Inhabited A] [Inhabited B] [Inhabited C]
    (T : ParamTraits (Tuple3 A B C)) (msg : Message) (a : A) (b : B) (c : C) :
    Bool × A × B × C :=
  let params := MessageWithTuple.Read T msg default
  if !params.1 then (false, a, b, c)
  else (true, params.2.a, params.2.b, params.2.c)

/-- `MessageWithTuple::Read(msg, TA* a, TB* b, TC* c, TD* d)`, manual
unpacking: returns the flag and the content of the output variables after the
call; their content before the call is passed in. -/
def MessageWithTuple.Read_out4 {A B C D : Type} [Inhabited A] [Inhabited B] [Inhabited C] [Inhabited D]
    (T : ParamTraits (Tuple4 A B C D)) (msg : Message) (a : A) (b : B) (c : C) (d : D) :
    Bool × A × B × C × D :=
  let params := MessageWithTuple.Read T msg default
  if !params.1 then (false, a, b, c, d)
  else (true, params.2.a, params.2.b, params.2.c, params.2.d)

/-- `MessageWithTuple::Read(msg, TA* a, TB* b, TC* c, TD* d, TE* e)`, manual
unpacking: returns the flag and the content of the output variables after the
call; their content before the call is passed in. -/
def MessageWithTuple.Read_out5 {A B C D E : Type} [Inhabited A] [Inhabited B] [Inhabited C] [Inhabited D] [Inhabited E]
    (T : ParamTraits (Tuple5 A B C D E)) (msg : Message) (a : A) (b : B) (c : C) (d : D) (e : E) :
    Bool × A × B × C × D × E :=
  let params := MessageWithTuple.Read T msg default
  if !params.1 then (false, a, b, c, d, e)
  else (true, params.2.a, params.2.b, params.2.c, params.2.d, params.2.e)

/-- C18: no partial tuple reaches the caller of the manual unpacking
`Read`s. For every message and every prior content of the output variables,
the `MessageWithTuple::Read` overloads with 2, 3, 4 or 5 output pointers
return false and leave every output variable as it was when the read of the
declared tuple returns false, and return true with each output set to the
corresponding decoded field (`a, b, c, d, e` in order) when it returns true. -/
theorem C18_manual_unpacking {A B C D E : Type} [Inhabited A] [Inhabited B] [Inhabited C]
    [Inhabited D] [Inhabited E] (T2 : ParamTraits (Tuple2 A B))
    (T3 : ParamTraits (Tuple3 A B C)) (T4 : ParamTraits (Tuple4 A B C D))
    (T5 : ParamTraits (Tuple5 A B C D E)) (msg : Message) (a : A) (b : B) (c : C) (d : D)
    (e : E) :
    ((MessageWithTuple.Read T2 msg default).1 = false →
      MessageWithTuple.Read_out2 T2 msg a b = (false, a, b)) ∧
    ((MessageWithTuple.Read T2 msg default).1 = true →
      MessageWithTuple.Read_out2 T2 msg a b =
        (true, (MessageWithTuple.Read T2 msg default).2.a, (MessageWithTuple.Read T2 msg default).2.b)) ∧
    ((MessageWithTuple.Read T3 msg default).1 = false →
      MessageWithTuple.Read_out3 T3 msg a b c = (false, a, b, c)) ∧
    ((MessageWithTuple.Read T3 msg default).1 = true →
      MessageWithTuple.Read_out3 T3 msg a b c =
        (true, (MessageWithTuple.Read T3 msg default).2.a, (MessageWithTuple.Read T3 msg default).2.b, (MessageWithTuple.Read T3 msg default).2.c)) ∧
    ((MessageWithTuple.Read T4 msg default).1 = false →
      MessageWithTuple.Read_out4 T4 msg a b c d = (false, a, b, c, d)) ∧
    ((MessageWithTuple.Read T4 msg default).1 = true →
      MessageWithTuple.Read_out4 T4 msg a b c d =
        (true, (MessageWithTuple.Read T4 msg default).2.a, (MessageWithTuple.Read T4 msg default).2.b, (MessageWithTuple.Read T4 msg default).2.c, (MessageWithTuple.Read T4 msg default).2.d)) ∧
    ((MessageWithTuple.Read T5 msg default).1 = false →
      MessageWithTuple.Read_out5 T5 msg a b c d e = (false, a, b, c, d, e)) ∧
    ((MessageWithTuple.Read T5 msg default).1 = true →
      MessageWithTuple.Read_out5 T5 msg a b c d e =
        (true, (MessageWithTuple.Read T5 msg default).2.a, (MessageWithTuple.Read T5 msg default).2.b, (MessageWithTuple.Read T5 msg default).2.c, (MessageWithTuple.Read T5 msg default).2.d, (MessageWithTuple.Read T5 msg default).2.e)) := by
  simp only [MessageWithTuple.Read_out2, MessageWithTuple.Read_out3, MessageWithTuple.Read_out4,
    MessageWithTuple.Read_out5]
  refine ⟨?_, ?_, ?_, ?_, ?_, ?_, ?_, ?_⟩ <;> (intro h; simp [h])

/-- C18 at a concrete input: on the encoding of the two `int`s 1 and 2, the
overload with two outputs returns true and sets them to 1 and 2; the overload
with three outputs returns false and leaves 7, 8, 9 in the output variables,
although the first two fields decode. -/
theorem C18_manual_unpacking_example :
    MessageWithTuple.Read_out2 (ParamTraits_Tuple2 ParamTraits_int ParamTraits_int) twoInts
        7 8 = (true, 1, 2) ∧
    MessageWithTuple.Read_out3
        (ParamTraits_Tuple3 ParamTraits_int ParamTraits_int ParamTraits_int) twoInts 7 8 9 =
      (false, 7, 8, 9) := by
  decide

/-! ## Generic message subclasses: synchronous messages -/

/-- `ParamDeserializer<RefTuple>`: `out_` is a tuple of references to
variables the caller owns; it is rendered by the content of those variables. -/
structure ParamDeserializer (RefTuple : Type) where
  out_ : RefTuple
deriving DecidableEq, Repr

/-- `ParamDeserializer::SerializeOutputParameters(msg, iter)`:
`ReadParam(&msg, &iter, &out_)`. The iterator is passed by value. Returns the
flag and the deserializer, whose `out_` is the content of the caller's
variables after the call. -/
def ParamDeserializer.SerializeOutputParameters {RefTuple : Type} (T : ParamTraits RefTuple)
    (self : ParamDeserializer RefTuple) (msg : Message) (iter : PickleIterator) :
    Bool × ParamDeserializer RefTuple :=
  let r := ReadParam T msg iter self.out_
  (r.ok, { out_ := r.value })

/-- Modelled from the spec: `SyncMessage` of `ipc/ipc_sync_message.h`, a
message that owns the deserializer of its reply. -/
structure SyncMessage (ReplyParam : Type) where
  msg : Message
  deserializer : ParamDeserializer ReplyParam

/-- Modelled from the spec: the constructor `SyncMessage(routing_id, type,
priority, deserializer)`: the envelope, without payload, and the deserializer
it is given. -/
def SyncMessage.ctor {ReplyParam : Type} (routing_id : Int) (type : Nat) (priority : Nat)
    (deserializer : ParamDeserializer ReplyParam) : SyncMessage ReplyParam :=
  { msg := Message.ctor routing_id type priority, deserializer := deserializer }

/-- Modelled from the spec: `SyncMessage::GetDataIterator(msg)`, the cursor at
the first parameter of a message; the payload holds the codec-encoded
parameters and nothing else. -/
def SyncMessage.GetDataIterator (_msg : Message) : PickleIterator := 0

/-- Modelled from the spec: `SyncMessage::GenerateReply(msg)`: the reply
envelope "inherits its routing id, carries the request's type with the reply
bit set"; it has no payload yet and is not marked as an error. -/
def SyncMessage.GenerateReply (msg : Message) : Message :=
  { routing_id := msg.routing_id, type := msg.type, priority := msg.priority, payload := [],
    reply := true, reply_error := false }

/-- Modelled from the spec: `Message::set_reply_error()`, which marks a reply
as an error reply. -/
def Message.set_reply_error (m : Message) : Message :=
  { m with reply_error := true }

/-- The constructor `MessageWithReply(routing_id, type, send, reply)`: the
base `SyncMessage(routing_id, type, PRIORITY_NORMAL,
new ParamDeserializer<ReplyParam>(reply))`, then `WriteParam(this, send)`. The
parameter `type` is a `uint16`. -/
def MessageWithReply.ctor {SendParam ReplyParam : Type} (TS : ParamTraits SendParam)
    (routing_id : Int) (type : Nat) (send : SendParam) (reply : ReplyParam) :
    SyncMessage ReplyParam :=
  let base := SyncMessage.ctor routing_id (type % 65536) PRIORITY_NORMAL
    (ParamDeserializer.mk reply)
  { base with msg := WriteParam TS base.msg send }

/-- `MessageWithReply::Dispatch(msg, obj, func)`. `DispatchToMethod` is the
overload of `base/tuple.h` with an out-parameter tuple that the types select:
it is given the target, the handler, the send tuple and the reply tuple, and
leaves the target and the reply tuple as the handler left them. `Send` is the
method `obj->Send`. Returns the flag and the state of `obj` after the call. -/
def MessageWithReply.Dispatch {SendParam ReplyValue S Method : Type} [Inhabited SendParam]
    [Inhabited ReplyValue] (TS : ParamTraits SendParam) (TR : ParamTraits ReplyValue)
    (DispatchToMethod : S → Method → SendParam → ReplyValue → S × ReplyValue)
    (Send : S → Message → S) (msg : Message) (obj : S) (func : Method) : Bool × S :=
  let iter := SyncMessage.GetDataIterator msg
  let reply := SyncMessage.GenerateReply msg
  let send_params := ReadParam TS msg iter default
  if send_params.ok then
    let called := DispatchToMethod obj func send_params.value default
    let reply := WriteParam TR reply called.2
    (!false, Send called.1 reply)
  else
    let reply := reply.set_reply_error
    (!true, Send obj reply)

/-- `MessageWithReply::DispatchDelayReply(msg, obj, func)`. `DispatchToMethod`
is given the target, the handler, the send tuple and the tuple
`MakeRefTuple(*reply)` that refers to the reply; the reply stays with the
handler. Returns the flag and the state of `obj` after the call. -/
def MessageWithReply.DispatchDelayReply {SendParam S Method : Type} [Inhabited SendParam]
    (TS : ParamTraits SendParam)
    (DispatchToMethod : S → Method → SendParam → Tuple1 Message → S × Tuple1 Message)
    (Send : S → Message → S) (msg : Message) (obj : S) (func : Method) : Bool × S :=
  let iter := SyncMessage.GetDataIterator msg
  let reply := SyncMessage.GenerateReply msg
  let send_params := ReadParam TS msg iter default
  if send_params.ok then
    let t : Tuple1 Message := ⟨reply⟩
    let called := DispatchToMethod obj func send_params.value t
    (!false, called.1)
  else
    let reply := reply.set_reply_error
    (!true, Send obj reply)

/-- `MessageWithReply::WriteReplyParams(reply, a)`. -/
def MessageWithReply.WriteReplyParams1 {A : Type} (T : ParamTraits (Tuple1 A)) (reply : Message)
    (a : A) : Message :=
  WriteParam T reply ⟨a⟩

/-- `MessageWithReply::WriteReplyParams(reply, a, b)`. -/
def MessageWithReply.WriteReplyParams2 {A B : Type} (T : ParamTraits (Tuple2 A B))
    (reply : Message) (a : A) (b : B) : Message :=
  WriteParam T reply ⟨a, b⟩

/-- `MessageWithReply::WriteReplyParams(reply, a, b, c)`. -/
def MessageWithReply.WriteReplyParams3 {A B C : Type} (T : ParamTraits (Tuple3 A B C))
    (reply : Message) (a : A) (b : B) (c : C) : Message :=
  WriteParam T reply ⟨a, b, c⟩

/-- `MessageWithReply::WriteReplyParams(reply, a, b, c, d)`. -/
def MessageWithReply.WriteReplyParams4 {A B C D : Type} (T : ParamTraits (Tuple4 A B C D))
    (reply : Message) (a : A) (b : B) (c : C) (d : D) : Message :=
  WriteParam T reply ⟨a, b, c, d⟩

/-- `MessageWithReply::WriteReplyParams(reply, a, b, c, d, e)`. -/
def MessageWithReply.WriteReplyParams5 {A B C D E : Type} (T : ParamTraits (Tuple5 A B C D E))
    (reply : Message) (a : A) (b : B) (c : C) (d : D) (e : E) : Message :=
  WriteParam T reply ⟨a, b, c, d, e⟩

/-- A target that records the calls its handler receives and the messages
passed to its `Send`. -/
structure TestMessageReceiver where
  calls : List (Int × Int)
  sent : List Message
deriving DecidableEq, Repr

/-- `TestMessageReceiver::Send`: the message is added to the record. -/
def TestMessageReceiver.Send (obj : TestMessageReceiver) (msg : Message) :
    TestMessageReceiver :=
  { obj with sent := obj.sent ++ [msg] }

/-- A handler of a synchronous call: records `(x, y)` and writes
`sum = x + y` into its out-parameter. -/
def TestMessageReceiver.OnAdd (x y : Int) (_sum : Int) (obj : TestMessageReceiver) :
    TestMessageReceiver × Int :=
  ({ obj with calls := obj.calls ++ [(x, y)] }, x + y)

/-- A handler of a delayed-reply call: records `(x, y)` and keeps the reply
it is given for later, unsent. -/
def TestMessageReceiver.OnAddDelayed (x y : Int) (_reply : Message)
    (obj : TestMessageReceiver) : TestMessageReceiver :=
  { obj with calls := obj.calls ++ [(x, y)] }

/-- Modelled from the spec: `DispatchToMethod(obj, method, in, out)` of
`base/tuple.h` for a `Tuple2` in and a `Tuple1` out: the handler is invoked
with `in.a, in.b` and a pointer to `out->a`. -/
def DispatchToMethod2_1 {S A B X : Type} (obj : S) (method : A → B → X → S → S × X)
    (arg : Tuple2 A B) (out : Tuple1 X) : S × Tuple1 X :=
  let r := method arg.a arg.b out.a obj
  (r.1, ⟨r.2⟩)

/-- Modelled from the spec: `DispatchToMethod(obj, method, in, out)` for a
`Tuple2` in and the `Tuple1<Message&>` of a delayed reply: the handler is
invoked with `in.a, in.b` and the reply. -/
def DispatchToMethod2_reply {S A B : Type} (obj : S) (method : A → B → Message → S → S)
    (arg : Tuple2 A B) (out : Tuple1 Message) : S × Tuple1 Message :=
  (method arg.a arg.b out.a obj, out)

/-- The request of the synchronous call `Add(x = 3, y = 4)` with reply
`(sum)`, routing id 7, as its constructor builds it. -/
def addRequest : Message :=
  (MessageWithReply.ctor (ParamTraits_Tuple2 ParamTraits_int ParamTraits_int) 7 1
    (⟨3, 4⟩ : Tuple2 Int Int) (⟨0⟩ : Tuple1 Int)).msg

/-- The request of `Add(x = 3, y = 4)` with the last byte of its payload cut
off. -/
def truncatedRequest : Message :=
  { addRequest with payload := addRequest.payload.dropLast }

/-- The error reply to the request `Add(3, 4)`: routing id 7, reply and error
flags set, no payload. -/
def errorReply : Message :=
  { routing_id := 7, type := 1, priority := PRIORITY_NORMAL, payload := [], reply := true,
    reply_error := true }

/-- The reply `(sum = 7)` to the request `Add(3, 4)`: routing id 7, reply flag
set, no error flag, the encoding of `(7)` as payload. -/
def sumReply : Message :=
  { routing_id := 7, type := 1, priority := PRIORITY_NORMAL, payload := enc_Tuple1 enc_int ⟨7⟩,
    reply := true, reply_error := false }

/-- C13: synchronous dispatch on a malformed request. For every sync message
whose send tuple fails to decode, `MessageWithReply::Dispatch` returns false
and leaves the target in the state that one call of its `Send` with the
generated reply, marked as an error reply, produces from the state before:
the handler and `DispatchToMethod` have no part in the outcome (the handler is
not invoked), the reply that is sent has the error flag set and the payload of
the generated reply, to which no reply parameter was written. -/
theorem C13_sync_dispatch_malformed {SendParam ReplyValue S Method : Type}
    [Inhabited SendParam] [Inhabited ReplyValue] (TS : ParamTraits SendParam)
    (TR : ParamTraits ReplyValue)
    (DispatchToMethod : S → Method → SendParam → ReplyValue → S × ReplyValue)
    (Send : S → Message → S) (msg : Message) (obj : S) (func : Method)
    (hfail : (ReadParam TS msg (SyncMessage.GetDataIterator msg) default).ok = false) :
    MessageWithReply.Dispatch TS TR DispatchToMethod Send msg obj func =
      (false, Send obj (SyncMessage.GenerateReply msg).set_reply_error) ∧
    (SyncMessage.GenerateReply msg).set_reply_error.reply_error = true ∧
    (SyncMessage.GenerateReply msg).set_reply_error.payload =
      (SyncMessage.GenerateReply msg).payload ∧
    (SyncMessage.GenerateReply msg).set_reply_error.payload = [] ∧
    (SyncMessage.GenerateReply msg).set_reply_error.routing_id = msg.routing_id := by
  refine ⟨?_, rfl, rfl, rfl, rfl⟩
  simp [MessageWithReply.Dispatch, hfail]

/-- C13 at a concrete input: the request `Add(3, 4)` truncated by one byte,
dispatched to a target that records calls and sent messages: no call is
recorded and exactly one message is sent, the error reply. -/
theorem C13_sync_dispatch_malformed_witness :
    MessageWithReply.Dispatch (ParamTraits_Tuple2 ParamTraits_int ParamTraits_int)
        (ParamTraits_Tuple1 ParamTraits_int) DispatchToMethod2_1 TestMessageReceiver.Send
        truncatedRequest ⟨[], []⟩ TestMessageReceiver.OnAdd =
      (false, ⟨[], [errorReply]⟩) :=
  (C13_sync_dispatch_malformed (ParamTraits_Tuple2 ParamTraits_int ParamTraits_int)
    (ParamTraits_Tuple1 ParamTraits_int) DispatchToMethod2_1 TestMessageReceiver.Send
    truncatedRequest ⟨[], []⟩ TestMessageReceiver.OnAdd (by decide)).1

/-- C14: synchronous dispatch on a well-formed request. For every sync
message whose send tuple decodes, `MessageWithReply::Dispatch` returns true;
the handler is invoked once, through `DispatchToMethod`, with the decoded send
tuple and a default-constructed reply tuple as out-parameter; the reply that
is sent is the generated reply to which `WriteParam` has appended exactly the
encoding of the reply tuple as the handler left it; its error flag is not set;
and the target is left in the state that one call of `Send` with that reply
produces from the state the handler left. -/
theorem C14_sync_dispatch_wellformed {SendParam ReplyValue S Method : Type}
    [Inhabited SendParam] [Inhabited ReplyValue] (TS : ParamTraits SendParam)
    (TR : ParamTraits ReplyValue) (encR : ReplyValue → List Byte) (hR : Appends TR encR)
    (DispatchToMethod : S → Method → SendParam → ReplyValue → S × ReplyValue)
    (Send : S → Message → S) (msg : Message) (obj : S) (func : Method)
    (hok : (ReadParam TS msg (SyncMessage.GetDataIterator msg) default).ok = true) :
    MessageWithReply.Dispatch TS TR DispatchToMethod Send msg obj func =
      (true, Send
        (DispatchToMethod obj func
          (ReadParam TS msg (SyncMessage.GetDataIterator msg) default).value default).1
        ((SyncMessage.GenerateReply msg).WriteBytes (encR
          (DispatchToMethod obj func
            (ReadParam TS msg (SyncMessage.GetDataIterator msg) default).value default).2))) ∧
    ∀ r : ReplyValue,
      ((SyncMessage.GenerateReply msg).WriteBytes (encR r)).payload = encR r ∧
      ((SyncMessage.GenerateReply msg).WriteBytes (encR r)).reply_error = false ∧
      ((SyncMessage.GenerateReply msg).WriteBytes (encR r)).reply = true ∧
      ((SyncMessage.GenerateReply msg).WriteBytes (encR r)).routing_id = msg.routing_id := by
  refine ⟨?_, fun r => ⟨?_, rfl, rfl, rfl⟩⟩
  · simp [MessageWithReply.Dispatch, hok, WriteParam, hR _ _]
  · simp [WriteBytes_payload, SyncMessage.GenerateReply]

/-- C14 at a concrete input: the request `Add(x = 3, y = 4)` dispatched to the
handler that writes `sum = x + y`: one call `(3, 4)` is recorded and exactly
one message is sent, the reply whose payload is the encoding of `(7)`, without
error flag. -/
theorem C14_sync_dispatch_wellformed_witness :
    MessageWithReply.Dispatch (ParamTraits_Tuple2 ParamTraits_int ParamTraits_int)
        (ParamTraits_Tuple1 ParamTraits_int) DispatchToMethod2_1 TestMessageReceiver.Send
        addRequest ⟨[], []⟩ TestMessageReceiver.OnAdd =
      (true, ⟨[(3, 4)], [sumReply]⟩) :=
  (C14_sync_dispatch_wellformed (ParamTraits_Tuple2 ParamTraits_int ParamTraits_int)
    (ParamTraits_Tuple1 ParamTraits_int) (enc_Tuple1 enc_int)
    (appends_Tuple1 ParamTraits_int enc_int appends_int) DispatchToMethod2_1
    TestMessageReceiver.Send addRequest ⟨[], []⟩ TestMessageReceiver.OnAdd (by decide)).1

/-- C15: the delayed reply is never sent twice by the dispatcher. For every
sync message, `MessageWithReply::DispatchDelayReply` calls `Send` at most
once. When the send tuple fails to decode it returns false and leaves the
target in the state one call of `Send` with the generated reply, marked as an
error, produces: the handler is not invoked. When the send tuple decodes it
returns true and leaves the target in the state one invocation of the handler,
with the decoded send tuple and the tuple that refers to the generated
reply (not marked as an error, not sent), produces: the dispatcher itself
does not call `Send`. -/
theorem C15_delayed_reply {SendParam S Method : Type} [Inhabited SendParam]
    (TS : ParamTraits SendParam)
    (DispatchToMethod : S → Method → SendParam → Tuple1 Message → S × Tuple1 Message)
    (Send : S → Message → S) (msg : Message) (obj : S) (func : Method) :
    ((ReadParam TS msg (SyncMessage.GetDataIterator msg) default).ok = false →
      MessageWithReply.DispatchDelayReply TS DispatchToMethod Send msg obj func =
        (false, Send obj (SyncMessage.GenerateReply msg).set_reply_error) ∧
      (SyncMessage.GenerateReply msg).set_reply_error.reply_error = true) ∧
    ((ReadParam TS msg (SyncMessage.GetDataIterator msg) default).ok = true →
      MessageWithReply.DispatchDelayReply TS DispatchToMethod Send msg obj func =
        (true, (DispatchToMethod obj func
          (ReadParam TS msg (SyncMessage.GetDataIterator msg) default).value
          ⟨SyncMessage.GenerateReply msg⟩).1) ∧
      (SyncMessage.GenerateReply msg).reply_error = false) := by
  refine ⟨fun h => ⟨?_, rfl⟩, fun h => ⟨?_, rfl⟩⟩
  · simp [MessageWithReply.DispatchDelayReply, h]
  · simp [MessageWithReply.DispatchDelayReply, h]

/-- C15 at concrete inputs, with a target that records calls and sent
messages: for the truncated request no call is recorded and exactly one
message, the error reply, is sent; for the request `Add(3, 4)` the call
`(3, 4)` is recorded and nothing is sent. -/
theorem C15_delayed_reply_witness :
    MessageWithReply.DispatchDelayReply (ParamTraits_Tuple2 ParamTraits_int ParamTraits_int)
        DispatchToMethod2_reply TestMessageReceiver.Send truncatedRequest ⟨[], []⟩
        TestMessageReceiver.OnAddDelayed =
      (false, ⟨[], [errorReply]⟩) ∧
    MessageWithReply.DispatchDelayReply (ParamTraits_Tuple2 ParamTraits_int ParamTraits_int)
        DispatchToMethod2_reply TestMessageReceiver.Send addRequest ⟨[], []⟩
        TestMessageReceiver.OnAddDelayed = (true, ⟨[(3, 4)], []⟩) :=
  ⟨((C15_delayed_reply (ParamTraits_Tuple2 ParamTraits_int ParamTraits_int)
      DispatchToMethod2_reply TestMessageReceiver.Send truncatedRequest ⟨[], []⟩
      TestMessageReceiver.OnAddDelayed).1 (by decide)).1,
    ((C15_delayed_reply (ParamTraits_Tuple2 ParamTraits_int ParamTraits_int)
      DispatchToMethod2_reply TestMessageReceiver.Send addRequest ⟨[], []⟩
      TestMessageReceiver.OnAddDelayed).2 (by decide)).1⟩

/-! ## Reply round trip -/

/-- A value written at the end of a message is read back from the cursor
where the write began, when the binding round-trips it into the destination. -/
theorem roundTrip_at_end {P : Type} (T : ParamTraits P) (enc : P → List Byte)
    (D V : P → Prop) (hT : RoundTrips T enc D V) (m0 : Message) (d v : P) (hd : D d)
    (hv : V v) :
    T.Read (T.Write m0 v) m0.payload.length d =
      ⟨true, m0.payload.length + (enc v).length, v⟩ :=
  hT.2 (T.Write m0 v) m0.payload [] d v hd hv (by rw [hT.1 m0 v]; simp [WriteBytes_payload])

/-- The reply that holds a set of `int` whose size, cast to `int`, is negative,
deserialized into any output variable: `SerializeOutputParameters` returns
false. -/
theorem oversize_set_reply (s : std_set Int) (hneg : toInt32 s.size < 0) (reply : Message)
    (o : std_set Int) :
    (ParamDeserializer.SerializeOutputParameters
      (ParamTraits_Tuple1 (ParamTraits_set ParamTraits_int)) ⟨⟨o⟩⟩
      (MessageWithReply.WriteReplyParams1 (ParamTraits_Tuple1 (ParamTraits_set ParamTraits_int))
        reply s) reply.payload.length).1 = false := by
  have happ : MessageWithReply.WriteReplyParams1
      (ParamTraits_Tuple1 (ParamTraits_set ParamTraits_int)) reply s =
      reply.WriteBytes (enc_Tuple1 (enc_set enc_int) ⟨s⟩) :=
    appends_Tuple1 (ParamTraits_set ParamTraits_int) (enc_set enc_int)
      (appends_set ParamTraits_int enc_int appends_int) _ _
  have hpay : (MessageWithReply.WriteReplyParams1
      (ParamTraits_Tuple1 (ParamTraits_set ParamTraits_int)) reply s).payload =
      reply.payload ++ enc_set enc_int s ++ [] := by
    rw [happ, WriteBytes_payload]
    simp only [enc_Tuple1, List.append_nil]
  exact oversize_set_Read s hneg _ reply.payload [] hpay ⟨o⟩

/-- C16, as amended: reply round trip into caller storage. For every reply
value list (1 to 5 values) and caller-owned output variables such that the
binding of each value reads back, into the output variable of its position as
it stands, what it wrote (`Read`, started where the bytes `Write` appended for
the value begin, returns true and leaves the value in that variable: so it is
for `int`, `bool`, `unsigned int`, pairs and tuples of them and vectors of
fewer than `INT_MAX / sizeof(P)` elements into any variable, and for a set of
at most `INT_MAX` members into an empty variable; not for a larger vector or
set, nor for a set read into a variable that is not empty), writing the list
into a reply with `MessageWithReply::WriteReplyParams` and then calling
`ParamDeserializer::SerializeOutputParameters` on that reply, with the
iterator where the reply data begin, returns true and leaves in the output
variables referenced by the deserializer's tuple exactly the values that were
written, in the same positions. -/
theorem C16_reply_round_trip {A B C D E : Type} (TA : ParamTraits A) (TB : ParamTraits B)
    (TC : ParamTraits C) (TD : ParamTraits D) (TE : ParamTraits E) (encA : A → List Byte)
    (encB : B → List Byte) (encC : C → List Byte) (encD : D → List Byte) (encE : E → List Byte)
    (DA VA : A → Prop) (DB VB : B → Prop) (DC VC : C → Prop) (DD VD : D → Prop)
    (DE VE : E → Prop) (hA : RoundTrips TA encA DA VA) (hB : RoundTrips TB encB DB VB)
    (hC : RoundTrips TC encC DC VC) (hD : RoundTrips TD encD DD VD)
    (hE : RoundTrips TE encE DE VE) (oa : A) (ob : B) (oc : C) (od : D) (oe : E)
    (hdA : DA oa) (hdB : DB ob) (hdC : DC oc) (hdD : DD od) (hdE : DE oe)
    (a : A) (b : B) (c : C) (d : D) (e : E)
    (hvA : VA a) (hvB : VB b) (hvC : VC c) (hvD : VD d) (hvE : VE e) (reply : Message) :
    ParamDeserializer.SerializeOutputParameters (ParamTraits_Tuple1 TA)
        ⟨⟨oa⟩⟩
        (MessageWithReply.WriteReplyParams1 (ParamTraits_Tuple1 TA) reply a)
        reply.payload.length = (true, ⟨⟨a⟩⟩) ∧
    ParamDeserializer.SerializeOutputParameters (ParamTraits_Tuple2 TA TB)
        ⟨⟨oa, ob⟩⟩
        (MessageWithReply.WriteReplyParams2 (ParamTraits_Tuple2 TA TB) reply a b)
        reply.payload.length = (true, ⟨⟨a, b⟩⟩) ∧
    ParamDeserializer.SerializeOutputParameters (ParamTraits_Tuple3 TA TB TC)
        ⟨⟨oa, ob, oc⟩⟩
        (MessageWithReply.WriteReplyParams3 (ParamTraits_Tuple3 TA TB TC) reply a b c)
        reply.payload.length = (true, ⟨⟨a, b, c⟩⟩) ∧
    ParamDeserializer.SerializeOutputParameters (ParamTraits_Tuple4 TA TB TC TD)
        ⟨⟨oa, ob, oc, od⟩⟩
        (MessageWithReply.WriteReplyParams4 (ParamTraits_Tuple4 TA TB TC TD) reply a b c d)
        reply.payload.length = (true, ⟨⟨a, b, c, d⟩⟩) ∧
    ParamDeserializer.SerializeOutputParameters (ParamTraits_Tuple5 TA TB TC TD TE)
        ⟨⟨oa, ob, oc, od, oe⟩⟩
        (MessageWithReply.WriteReplyParams5 (ParamTraits_Tuple5 TA TB TC TD TE) reply a b c d e)
        reply.payload.length = (true, ⟨⟨a, b, c, d, e⟩⟩) := by
  have hr1 := roundTrip_at_end (ParamTraits_Tuple1 TA) _ _ _
    ⟨appends_Tuple1 _ _ hA.1,
      readsBack_Tuple1 _ _ _ _ hA.2⟩
    reply ⟨oa⟩ ⟨a⟩ hdA hvA
  have hr2 := roundTrip_at_end (ParamTraits_Tuple2 TA TB) _ _ _
    ⟨appends_Tuple2 _ _ _ _ hA.1 hB.1,
      readsBack_Tuple2 _ _ _ _ _ _ _ _ hA.2 hB.2⟩
    reply ⟨oa, ob⟩ ⟨a, b⟩ ⟨hdA, hdB⟩ ⟨hvA, hvB⟩
  have hr3 := roundTrip_at_end (ParamTraits_Tuple3 TA TB TC) _ _ _
    ⟨appends_Tuple3 _ _ _ _ _ _ hA.1 hB.1 hC.1,
      readsBack_Tuple3 _ _ _ _ _ _ _ _ _ _ _ _ hA.2 hB.2 hC.2⟩
    reply ⟨oa, ob, oc⟩ ⟨a, b, c⟩ ⟨hdA, hdB, hdC⟩ ⟨hvA, hvB, hvC⟩
  have hr4 := roundTrip_at_end (ParamTraits_Tuple4 TA TB TC TD) _ _ _
    ⟨appends_Tuple4 _ _ _ _ _ _ _ _ hA.1 hB.1 hC.1 hD.1,
      readsBack_Tuple4 _ _ _ _ _ _ _ _ _ _ _ _ _ _ _ _ hA.2 hB.2 hC.2 hD.2⟩
    reply ⟨oa, ob, oc, od⟩ ⟨a, b, c, d⟩ ⟨hdA, hdB, hdC, hdD⟩ ⟨hvA, hvB, hvC, hvD⟩
  have hr5 := roundTrip_at_end (ParamTraits_Tuple5 TA TB TC TD TE) _ _ _
    ⟨appends_Tuple5 _ _ _ _ _ _ _ _ _ _ hA.1 hB.1 hC.1 hD.1 hE.1,
      readsBack_Tuple5 _ _ _ _ _ _ _ _ _ _ _ _ _ _ _ _ _ _ _ _ hA.2 hB.2 hC.2 hD.2 hE.2⟩
    reply ⟨oa, ob, oc, od, oe⟩ ⟨a, b, c, d, e⟩ ⟨hdA, hdB, hdC, hdD, hdE⟩ ⟨hvA, hvB, hvC, hvD, hvE⟩
  simp only [ParamDeserializer.SerializeOutputParameters, MessageWithReply.WriteReplyParams1,
    MessageWithReply.WriteReplyParams2, MessageWithReply.WriteReplyParams3,
    MessageWithReply.WriteReplyParams4, MessageWithReply.WriteReplyParams5, ReadParam,
    WriteParam, hr1, hr2, hr3, hr4, hr5, and_self]

/-- C16 at concrete inputs: the reply `(sum = 7)` written into the generated
reply of the request `Add(3, 4)` and deserialized into an output variable that
holds 99; and the reply `({1, 2}, 7)` deserialized into an empty set and a
variable that holds 99. -/
theorem C16_reply_round_trip_witness :
    ParamDeserializer.SerializeOutputParameters (ParamTraits_Tuple1 ParamTraits_int) ⟨⟨99⟩⟩
        (MessageWithReply.WriteReplyParams1 (ParamTraits_Tuple1 ParamTraits_int)
          (SyncMessage.GenerateReply addRequest) 7)
        (SyncMessage.GenerateReply addRequest).payload.length = (true, ⟨⟨7⟩⟩) ∧
    ParamDeserializer.SerializeOutputParameters
        (ParamTraits_Tuple2 (ParamTraits_set ParamTraits_int) ParamTraits_int)
        ⟨⟨std_set.empty, 99⟩⟩
        (MessageWithReply.WriteReplyParams2
          (ParamTraits_Tuple2 (ParamTraits_set ParamTraits_int) ParamTraits_int)
          (SyncMessage.GenerateReply addRequest) smallSet 7)
        (SyncMessage.GenerateReply addRequest).payload.length = (true, ⟨⟨smallSet, 7⟩⟩) :=
  ⟨(C16_reply_round_trip ParamTraits_int ParamTraits_int ParamTraits_int ParamTraits_int
      ParamTraits_int enc_int enc_int enc_int enc_int enc_int (fun _ => True) IsInt32
      (fun _ => True) IsInt32 (fun _ => True) IsInt32 (fun _ => True) IsInt32 (fun _ => True)
      IsInt32 roundTrips_int roundTrips_int roundTrips_int roundTrips_int roundTrips_int
      99 0 0 0 0 trivial trivial trivial trivial trivial 7 0 0 0 0 (by decide) (by decide)
      (by decide) (by decide) (by decide) (SyncMessage.GenerateReply addRequest)).1,
    (C16_reply_round_trip (ParamTraits_set ParamTraits_int) ParamTraits_int ParamTraits_int
      ParamTraits_int ParamTraits_int (enc_set enc_int) enc_int enc_int enc_int enc_int
      (fun d => d = std_set.empty) (fun s => s.size ≤ INT_MAX ∧ ∀ x ∈ s.elems, IsInt32 x)
      (fun _ => True) IsInt32 (fun _ => True) IsInt32 (fun _ => True) IsInt32 (fun _ => True)
      IsInt32 (roundTrips_set ParamTraits_int enc_int _ _ roundTrips_int trivial)
      roundTrips_int roundTrips_int roundTrips_int roundTrips_int
      std_set.empty 99 0 0 0 rfl trivial trivial trivial trivial smallSet 7 0 0 0
      ⟨by decide, by decide⟩ (by decide) (by decide) (by decide) (by decide)
      (SyncMessage.GenerateReply addRequest)).2.1⟩

/-- C16, as stated, fails for an output variable of type `std::set<int>`: the
reply value `{1}` is written with `WriteReplyParams` and deserialized, with
the iterator at the start of the reply data, into a caller's variable that
holds `{5}`; the call returns true and the variable then holds `{1, 5}`, not
the value that was written. It fails as well for the reply value
`{0, ..., INT_MAX}`, every member an `int`, deserialized into an empty
variable: its size is written as the `int` `INT_MIN` and the call returns
false. -/
theorem C16_reply_round_trip_counterexample :
    ParamDeserializer.SerializeOutputParameters
        (ParamTraits_Tuple1 (ParamTraits_set ParamTraits_int))
        ⟨⟨std_set.empty.insert 5⟩⟩
        (MessageWithReply.WriteReplyParams1 (ParamTraits_Tuple1 (ParamTraits_set ParamTraits_int))
          (SyncMessage.GenerateReply addRequest) (std_set.empty.insert 1))
        (SyncMessage.GenerateReply addRequest).payload.length =
      (true, ⟨⟨(std_set.empty.insert 1).insert 5⟩⟩) ∧
    (∀ x ∈ bigSet.elems, IsInt32 x) ∧
    (ParamDeserializer.SerializeOutputParameters
        (ParamTraits_Tuple1 (ParamTraits_set ParamTraits_int)) ⟨⟨std_set.empty⟩⟩
        (MessageWithReply.WriteReplyParams1 (ParamTraits_Tuple1 (ParamTraits_set ParamTraits_int))
          (SyncMessage.GenerateReply addRequest) bigSet)
        (SyncMessage.GenerateReply addRequest).payload.length).1 = false :=
  ⟨by decide, bigSet_isInt32,
    oversize_set_reply bigSet (by rw [bigSet_size]; decide) (SyncMessage.GenerateReply addRequest)
      std_set.empty⟩

end IPC

/-! ## Message classes -/

/-- One enumerator of a C `enum` declaration: its name and, when it has one,
its initialiser. -/
structure Enumerator where
  name : String
  init : Option Nat
deriving DecidableEq, Repr

/-- The values a C `enum` declaration gives its enumerators: an enumerator
with an initialiser has that value, one without has the value of the one
before it plus one; `next` is the value an enumerator without initialiser
takes at this point (0 at the start of the declaration). -/
def enumValues : List Enumerator → Nat → List (String × Nat)
  | [], _ => []
  | e :: es, next =>
    let v := e.init.getD next
    (e.name, v) :: enumValues es (v + 1)

/-- The declaration `enum IPCMessageStart` of `ipc/ipc_message_utils.h`. -/
def IPCMessageStart : List Enumerator :=
  [⟨"AutomationMsgStart", some 0⟩,
   ⟨"ViewMsgStart", none⟩,
   ⟨"ViewHostMsgStart", none⟩,
   ⟨"PluginProcessMsgStart", none⟩,
   ⟨"PluginProcessHostMsgStart", none⟩,
   ⟨"PluginMsgStart", none⟩,
   ⟨"PluginHostMsgStart", none⟩,
   ⟨"NPObjectMsgStart", none⟩,
   ⟨"TestMsgStart", none⟩,
   ⟨"DevToolsAgentMsgStart", none⟩,
   ⟨"DevToolsClientMsgStart", none⟩,
   ⟨"WorkerProcessMsgStart", none⟩,
   ⟨"WorkerProcessHostMsgStart", none⟩,
   ⟨"WorkerMsgStart", none⟩,
   ⟨"WorkerHostMsgStart", none⟩,
   ⟨"LastMsgIndex", none⟩]

/-- C19: message-class ids are collision-free and fit in 4 bits. The values
of the enumerators of `IPCMessageStart` are 0 for `AutomationMsgStart` and,
for each next class, one more than the previous, up to 15 for `LastMsgIndex`;
they are pairwise distinct; every one of them is at most 15 and so equals its
own low 4 bits. -/
theorem C19_message_class_ids :
    enumValues IPCMessageStart 0 =
      [("AutomationMsgStart", 0),
      ("ViewMsgStart", 1),
      ("ViewHostMsgStart", 2),
      ("PluginProcessMsgStart", 3),
      ("PluginProcessHostMsgStart", 4),
      ("PluginMsgStart", 5),
      ("PluginHostMsgStart", 6),
      ("NPObjectMsgStart", 7),
      ("TestMsgStart", 8),
      ("DevToolsAgentMsgStart", 9),
      ("DevToolsClientMsgStart", 10),
      ("WorkerProcessMsgStart", 11),
      ("WorkerProcessHostMsgStart", 12),
      ("WorkerMsgStart", 13),
      ("WorkerHostMsgStart", 14),
      ("LastMsgIndex", 15)] ∧
    (enumValues IPCMessageStart 0).map Prod.snd = List.range 16 ∧
    ((enumValues IPCMessageStart 0).map Prod.snd).Nodup ∧
    (∀ v ∈ (enumValues IPCMessageStart 0).map Prod.snd, v ≤ 15 ∧ v % 16 = v) := by
  refine ⟨rfl, rfl, ?_, ?_⟩
  · rw [show (enumValues IPCMessageStart 0).map Prod.snd = List.range 16 from rfl]
    exact List.nodup_range 16
  · rw [show (enumValues IPCMessageStart 0).map Prod.snd = List.range 16 from rfl]
    decide

/-! # JSON writer of `base/json_writer.cc` -/

namespace base

/-- A `std::string`: a sequence of bytes. -/
abbrev std_string := List (Fin 256)

/-- The bytes of a text of ASCII characters (a C string literal). -/
def ascii (s : String) : std_string :=
  s.toList.map (fun c => Fin.ofNat c.toNat)

/-- Modelled from the spec: a node of the tree of `base/values.h`, "a tree of
null/boolean/integer/double/string/list/dictionary nodes", with its `GetType()`
tag as constructor and the result of its `GetAs...` accessor as argument. A
double node is given by the text `real` that `ss << value` produces for it
(formatting of floating point numbers is outside the embedding). A dictionary
is given by its entries in the order `DictionaryValue::Iterator` visits them,
each with the value `dict->Get(itr.key(), &value)` yields for its key. `binary`
stands for `TYPE_BINARY`, which the writer does not handle. -/
inductive Value where
  | null : Value
  | boolean (value : Bool) : Value
  | integer (value : Int) : Value
  | double (real : std_string) : Value
  | string (value : std_string) : Value
  | binary (data : std_string) : Value
  | dictionary (entries : List (std_string × Value)) : Value
  | list (items : List Value) : Value

/-- The decimal digits of a number, most significant first, before `acc`;
`fuel` bounds the number of digits. -/
def decimalDigits : Nat → Nat → std_string → std_string
  | 0, _, acc => acc
  | fuel + 1, n, acc =>
    if n / 10 = 0 then Fin.ofNat (48 + n % 10) :: acc
    else decimalDigits fuel (n / 10) (Fin.ofNat (48 + n % 10) :: acc)

/-- The text `std::stringstream ss; ss << value;` gives for an `int`: decimal
digits, after a minus sign for a negative value. -/
def IntToString (value : Int) : std_string :=
  if value < 0 then ascii "-" ++ decimalDigits (value.natAbs + 1) value.natAbs []
  else decimalDigits (value.natAbs + 1) value.natAbs []

/-- The hexadecimal digits (lower case) of a number, most significant first,
before `acc`; `fuel` bounds the number of digits. -/
def hexDigits : Nat → Nat → std_string → std_string
  | 0, _, acc => acc
  | fuel + 1, n, acc =>
    let digit : Fin 256 := if n % 16 < 10 then Fin.ofNat (48 + n % 16) else Fin.ofNat (87 + n % 16)
    if n / 16 = 0 then digit :: acc else hexDigits fuel (n / 16) (digit :: acc)

/-- The text `std::stringstream ss; ss << std::hex << as_uint;` gives for an
`unsigned int`: hexadecimal digits in lower case, nothing before them and no padding. -/
def HexToString (as_uint : Nat) : std_string :=
  hexDigits (as_uint + 1) as_uint []

/-- `JsonSingleEscapeChar(c, dst)`: for one of the seven characters of the
`switch` the escape sequence is appended and the result is true; otherwise
nothing is appended and the result is false. -/
def JsonSingleEscapeChar (c : Fin 256) (dst : std_string) : Bool × std_string :=
  if c = 8 then (true, dst ++ ascii "\\b")
  else if c = 12 then (true, dst ++ ascii "\\f")
  else if c = 10 then (true, dst ++ ascii "\\n")
  else if c = 13 then (true, dst ++ ascii "\\r")
  else if c = 9 then (true, dst ++ ascii "\\t")
  else if c = 92 then (true, dst ++ ascii "\\\\")
  else if c = 34 then (true, dst ++ ascii "\\\"")
  else (false, dst)

/-- The loop of `JsonDoubleQuoteT` over the bytes of `str`. -/
def JsonDoubleQuoteT_loop : std_string → std_string → std_string
  | [], dst => dst
  | c :: rest, dst =>
    let escaped := JsonSingleEscapeChar c dst
    if !escaped.1 then
      if c.val < 32 || c.val > 126 then
        JsonDoubleQuoteT_loop rest (escaped.2 ++ HexToString c.val)
      else JsonDoubleQuoteT_loop rest (escaped.2 ++ [c])
    else JsonDoubleQuoteT_loop rest escaped.2

/-- `JsonDoubleQuoteT(str, put_in_quotes, dst)`. -/
def JsonDoubleQuoteT (str : std_string) (put_in_quotes : Bool) (dst : std_string) :
    std_string :=
  let dst := if put_in_quotes then dst ++ [34] else dst
  let dst := JsonDoubleQuoteT_loop str dst
  if put_in_quotes then dst ++ [34] else dst

/-- `JsonDoubleQuote(str, put_in_quotes, dst)`. -/
def JsonDoubleQuote (str : std_string) (put_in_quotes : Bool) (dst : std_string) : std_string :=
  JsonDoubleQuoteT str put_in_quotes dst

/-- `JSONWriter::IndentLine(depth)`: `depth * 3` spaces are appended to
`json_string_`. -/
def JSONWriter.IndentLine (json_string_ : std_string) (depth : Nat) : std_string :=
  json_string_ ++ List.replicate (depth * 3) 32

/-- The fix-up of the text of a double in `BuildJSONString`: `.0` is appended
when the text has neither `.` nor `e` nor `E`; a `0` is put before a leading
`.` and after the `-` of a leading `-.`. -/
def JSONWriter.fixDouble (real : std_string) : std_string :=
  let real :=
    if !real.contains 46 && !real.contains 101 && !real.contains 69 then real ++ ascii ".0"
    else real
  if real.getD 0 0 = 46 then ascii "0" ++ real
  else if real.length > 1 && real.getD 0 0 = 45 && real.getD 1 0 = 46 then
    real.take 1 ++ ascii "0" ++ real.drop 1
  else real

mutual
/-- `JSONWriter::BuildJSONString(node, depth, escape)`. The members of the
writer are passed along: `pretty_print_` and the text `json_string_` built so
far, which is returned with what the call appends. `kPrettyPrintLineEnding`
is the line ending of the platform. -/
def JSONWriter.BuildJSONString (pretty_print_ : Bool) (kPrettyPrintLineEnding : std_string) :
    Value → Nat → Bool → std_string → std_string
  | .null, _, _, json_string_ => json_string_ ++ ascii "null"
  | .boolean value, _, _, json_string_ =>
    json_string_ ++ (if value then ascii "true" else ascii "false")
  | .integer value, _, _, json_string_ => json_string_ ++ IntToString value
  | .double real, _, _, json_string_ => json_string_ ++ JSONWriter.fixDouble real
  | .string value, _, _, json_string_ => JsonDoubleQuote value true json_string_
  | .list items, depth, escape, json_string_ =>
    let json_string_ := json_string_ ++ ascii "["
    let json_string_ := if pretty_print_ then json_string_ ++ ascii " " else json_string_
    let json_string_ := JSONWriter.BuildJSONString_list pretty_print_ kPrettyPrintLineEnding
      items 0 depth escape json_string_
    let json_string_ := if pretty_print_ then json_string_ ++ ascii " " else json_string_
    json_string_ ++ ascii "]"
  | .dictionary entries, depth, escape, json_string_ =>
    let json_string_ := json_string_ ++ ascii "\x7b"
    let json_string_ :=
      if pretty_print_ then json_string_ ++ kPrettyPrintLineEnding else json_string_
    let json_string_ := JSONWriter.BuildJSONString_dict pretty_print_ kPrettyPrintLineEnding
      entries false depth escape json_string_
    if pretty_print_ then
      JSONWriter.IndentLine (json_string_ ++ kPrettyPrintLineEnding) depth ++ ascii "\x7d"
    else json_string_ ++ ascii "\x7d"
  | .binary _, _, _, json_string_ => json_string_
/-- The loop of `BuildJSONString` over the items of a list, from index `i`
on: `if (i != 0) { append(","); if (pretty_print_) append(" "); }`, then the
item. -/
def JSONWriter.BuildJSONString_list (pretty_print_ : Bool)
    (kPrettyPrintLineEnding : std_string) :
    List Value → Nat → Nat → Bool → std_string → std_string
  | [], _, _, _, json_string_ => json_string_
  | value :: rest, i, depth, escape, json_string_ =>
    let json_string_ :=
      if i != 0 then
        let json_string_ := json_string_ ++ ascii ","
        if pretty_print_ then json_string_ ++ ascii " " else json_string_
      else json_string_
    let json_string_ := JSONWriter.BuildJSONString pretty_print_ kPrettyPrintLineEnding value
      depth escape json_string_
    JSONWriter.BuildJSONString_list pretty_print_ kPrettyPrintLineEnding rest (i + 1) depth
      escape json_string_
/-- The loop of `BuildJSONString` over the entries of a dictionary, with the
flag `first_value_has_been_output`. -/
def JSONWriter.BuildJSONString_dict (pretty_print_ : Bool)
    (kPrettyPrintLineEnding : std_string) :
    List (std_string × Value) → Bool → Nat → Bool → std_string → std_string
  | [], _, _, _, json_string_ => json_string_
  | entry :: rest, first_value_has_been_output, depth, escape, json_string_ =>
    let json_string_ :=
      if first_value_has_been_output then
        let json_string_ := json_string_ ++ [44]
        if pretty_print_ then json_string_ ++ kPrettyPrintLineEnding else json_string_
      else json_string_
    let json_string_ :=
      if pretty_print_ then JSONWriter.IndentLine json_string_ (depth + 1) else json_string_
    let json_string_ := JsonDoubleQuote entry.1 true json_string_
    let json_string_ :=
      if pretty_print_ then json_string_ ++ ascii ": " else json_string_ ++ ascii ":"
    let json_string_ := JSONWriter.BuildJSONString pretty_print_ kPrettyPrintLineEnding entry.2
      (depth + 1) escape json_string_
    JSONWriter.BuildJSONString_dict pretty_print_ kPrettyPrintLineEnding rest true depth escape
      json_string_
end

/-- `JSONWriter::WriteWithOptionalEscape(node, pretty_print, escape, json)`:
`json` is cleared, the text of the tree is built into it, and in pretty mode
the line ending is appended. Returns the content of `*json` after the call. -/
def JSONWriter.WriteWithOptionalEscape (kPrettyPrintLineEnding : std_string) (node : Value)
    (pretty_print : Bool) (escape : Bool) (_json : std_string) : std_string :=
  let json : std_string := []
  let json := JSONWriter.BuildJSONString pretty_print kPrettyPrintLineEnding node 0 escape json
  if pretty_print then json ++ kPrettyPrintLineEnding else json

/-- `JSONWriter::Write(node, pretty_print, json)`. -/
def JSONWriter.Write (kPrettyPrintLineEnding : std_string) (node : Value) (pretty_print : Bool)
    (json : std_string) : std_string :=
  JSONWriter.WriteWithOptionalEscape kPrettyPrintLineEnding node pretty_print true json

/-- The tree `{"a": 1, "b": [true, null, "x\n"]}`. -/
def sampleTree : Value :=
  .dictionary [(ascii "a", .integer 1),
    (ascii "b", .list [.boolean true, .null, .string (ascii "x\n")])]

/-! ## Append-only building -/

theorem JsonSingleEscapeChar_append (c : Fin 256) (dst : std_string) :
    JsonSingleEscapeChar c dst =
      ((JsonSingleEscapeChar c []).1, dst ++ (JsonSingleEscapeChar c []).2) := by
  unfold JsonSingleEscapeChar
  split_ifs <;> simp

theorem JsonDoubleQuoteT_loop_append (str : std_string) :
    ∀ dst : std_string, JsonDoubleQuoteT_loop str dst = dst ++ JsonDoubleQuoteT_loop str [] := by
  induction str with
  | nil => intro dst; simp [JsonDoubleQuoteT_loop]
  | cons c rest ih =>
    intro dst
    simp only [JsonDoubleQuoteT_loop]
    rw [JsonSingleEscapeChar_append c dst]
    split_ifs
    · rw [ih (dst ++ _ ++ _), ih ((JsonSingleEscapeChar c []).2 ++ _)]; simp
    · rw [ih (dst ++ _ ++ _), ih ((JsonSingleEscapeChar c []).2 ++ _)]; simp
    · rw [ih (dst ++ _), ih ((JsonSingleEscapeChar c []).2)]; simp

theorem JsonDoubleQuote_append (str dst : std_string) :
    JsonDoubleQuote str true dst = dst ++ JsonDoubleQuote str true [] := by
  simp only [JsonDoubleQuote, JsonDoubleQuoteT, if_true]
  rw [JsonDoubleQuoteT_loop_append str (dst ++ _), JsonDoubleQuoteT_loop_append str ([] ++ _)]
  simp

theorem JsonDoubleQuote_quoted (str : std_string) :
    JsonDoubleQuote str true [] = [34] ++ JsonDoubleQuoteT_loop str [] ++ [34] := by
  simp only [JsonDoubleQuote, JsonDoubleQuoteT, if_true]
  rw [JsonDoubleQuoteT_loop_append str ([] ++ _)]
  simp

/-! ## Compact mode -/

/-- The text a node renders to in compact mode. -/
def compact (eol : std_string) (node : Value) : std_string :=
  JSONWriter.BuildJSONString false eol node 0 true []

/-- The text the list loop appends in compact mode from index `i` on. -/
def compact_list (eol : std_string) (items : List Value) (i : Nat) : std_string :=
  JSONWriter.BuildJSONString_list false eol items i 0 true []

/-- The text the dictionary loop appends in compact mode. -/
def compact_dict (eol : std_string) (entries : List (std_string × Value)) (first : Bool) :
    std_string :=
  JSONWriter.BuildJSONString_dict false eol entries first 0 true []

mutual
theorem BuildJSONString_compact (eol : std_string) :
    ∀ (node : Value) (depth : Nat) (escape : Bool) (json : std_string),
      JSONWriter.BuildJSONString false eol node depth escape json = json ++ compact eol node
  | .null, _, _, json => by simp [compact, JSONWriter.BuildJSONString]
  | .boolean _, _, _, json => by simp [compact, JSONWriter.BuildJSONString]
  | .integer _, _, _, json => by simp [compact, JSONWriter.BuildJSONString]
  | .double _, _, _, json => by simp [compact, JSONWriter.BuildJSONString]
  | .binary _, _, _, json => by simp [compact, JSONWriter.BuildJSONString]
  | .string value, _, _, json => by
    simp only [compact, JSONWriter.BuildJSONString]
    exact JsonDoubleQuote_append value json
  | .list items, depth, escape, json => by
    simp only [compact, JSONWriter.BuildJSONString, Bool.false_eq_true, if_false]
    rw [BuildJSONString_list_compact eol items 0 depth escape (json ++ ascii "["),
      BuildJSONString_list_compact eol items 0 0 true ([] ++ ascii "[")]
    simp
  | .dictionary entries, depth, escape, json => by
    simp only [compact, JSONWriter.BuildJSONString, Bool.false_eq_true, if_false]
    rw [BuildJSONString_dict_compact eol entries false depth escape (json ++ ascii "\x7b"),
      BuildJSONString_dict_compact eol entries false 0 true ([] ++ ascii "\x7b")]
    simp
theorem BuildJSONString_list_compact (eol : std_string) :
    ∀ (items : List Value) (i depth : Nat) (escape : Bool) (json : std_string),
      JSONWriter.BuildJSONString_list false eol items i depth escape json =
        json ++ compact_list eol items i
  | [], _, _, _, json => by simp [compact_list, JSONWriter.BuildJSONString_list]
  | value :: rest, i, depth, escape, json => by
    simp only [compact_list, JSONWriter.BuildJSONString_list, Bool.false_eq_true, if_false]
    rw [BuildJSONString_compact eol value depth escape,
      BuildJSONString_list_compact eol rest (i + 1) depth escape,
      BuildJSONString_compact eol value 0 true,
      BuildJSONString_list_compact eol rest (i + 1) 0 true]
    split_ifs <;> simp [compact_list]
theorem BuildJSONString_dict_compact (eol : std_string) :
    ∀ (entries : List (std_string × Value)) (first : Bool) (depth : Nat) (escape : Bool)
      (json : std_string),
      JSONWriter.BuildJSONString_dict false eol entries first depth escape json =
        json ++ compact_dict eol entries first
  | [], _, _, _, json => by simp [compact_dict, JSONWriter.BuildJSONString_dict]
  | entry :: rest, first, depth, escape, json => by
    simp only [compact_dict, JSONWriter.BuildJSONString_dict, Bool.false_eq_true, if_false]
    rw [BuildJSONString_compact eol entry.2 (depth + 1) escape,
      BuildJSONString_dict_compact eol rest true depth escape,
      BuildJSONString_compact eol entry.2 (0 + 1) true,
      BuildJSONString_dict_compact eol rest true 0 true]
    rw [JsonDoubleQuote_append entry.1 (if first = true then json ++ [44] else json),
      JsonDoubleQuote_append entry.1 (if first = true then [] ++ [44] else [])]
    split_ifs <;> simp [compact_dict]
end

theorem compact_list_cons (eol : std_string) (value : Value) (rest : List Value) (i : Nat) :
    compact_list eol (value :: rest) i =
      (if i = 0 then [] else ascii ",") ++ compact eol value ++ compact_list eol rest (i + 1) := by
  simp only [compact_list, JSONWriter.BuildJSONString_list, Bool.false_eq_true, if_false]
  rw [BuildJSONString_compact, BuildJSONString_list_compact]
  split_ifs <;> simp_all [compact_list]

theorem compact_dict_cons (eol : std_string) (entry : std_string × Value)
    (rest : List (std_string × Value)) (first : Bool) :
    compact_dict eol (entry :: rest) first =
      (if first then ascii "," else []) ++
        (JsonDoubleQuote entry.1 true [] ++ ascii ":" ++ compact eol entry.2) ++
          compact_dict eol rest true := by
  simp only [compact_dict, JSONWriter.BuildJSONString_dict, Bool.false_eq_true, if_false]
  rw [BuildJSONString_compact, BuildJSONString_dict_compact, JsonDoubleQuote_append]
  cases first
  · simp [compact_dict]
  · simp [compact_dict, ascii]
    rfl

theorem intercalate_cons_cons {α : Type} (sep x y : List α) (ys : List (List α)) :
    List.intercalate sep (x :: y :: ys) = x ++ sep ++ List.intercalate sep (y :: ys) := by
  simp [List.intercalate]

theorem compact_list_succ (eol : std_string) :
    ∀ (items : List Value) (i : Nat) (x : std_string),
      x ++ compact_list eol items (i + 1) =
        List.intercalate (ascii ",") (x :: items.map (compact eol))
  | [], _, x => by simp [compact_list, JSONWriter.BuildJSONString_list, List.intercalate]
  | value :: rest, i, x => by
    rw [List.map_cons, intercalate_cons_cons, ← compact_list_succ eol rest (i + 1),
      compact_list_cons]
    simp

theorem compact_list_zero (eol : std_string) (items : List Value) :
    compact_list eol items 0 = List.intercalate (ascii ",") (items.map (compact eol)) := by
  cases items with
  | nil => simp [compact_list, JSONWriter.BuildJSONString_list, List.intercalate]
  | cons value rest =>
    rw [List.map_cons, ← compact_list_succ eol rest 0, compact_list_cons]
    simp

/-- The text of one dictionary entry in compact mode: the quoted key, a
colon, the value. -/
def compact_entry (eol : std_string) (entry : std_string × Value) : std_string :=
  JsonDoubleQuote entry.1 true [] ++ ascii ":" ++ compact eol entry.2

theorem compact_dict_true (eol : std_string) :
    ∀ (entries : List (std_string × Value)) (x : std_string),
      x ++ compact_dict eol entries true =
        List.intercalate (ascii ",") (x :: entries.map (compact_entry eol))
  | [], x => by simp [compact_dict, JSONWriter.BuildJSONString_dict, List.intercalate]
  | entry :: rest, x => by
    rw [List.map_cons, intercalate_cons_cons, ← compact_dict_true eol rest, compact_dict_cons]
    simp [compact_entry]

theorem compact_dict_false (eol : std_string) (entries : List (std_string × Value)) :
    compact_dict eol entries false =
      List.intercalate (ascii ",") (entries.map (compact_entry eol)) := by
  cases entries with
  | nil => simp [compact_dict, JSONWriter.BuildJSONString_dict, List.intercalate]
  | cons entry rest =>
    rw [List.map_cons, ← compact_dict_true eol rest, compact_dict_cons]
    simp [compact_entry]

theorem Write_compact (eol : std_string) (node : Value) (json : std_string) :
    JSONWriter.Write eol node false json = compact eol node := by
  simp [JSONWriter.Write, JSONWriter.WriteWithOptionalEscape, compact]

theorem compact_list_node (eol : std_string) (items : List Value) :
    compact eol (.list items) =
      ascii "[" ++ List.intercalate (ascii ",") (items.map (compact eol)) ++ ascii "]" := by
  rw [← compact_list_zero]
  simp only [compact, JSONWriter.BuildJSONString, Bool.false_eq_true, if_false]
  rw [BuildJSONString_list_compact]
  simp

theorem compact_dictionary_node (eol : std_string) (entries : List (std_string × Value)) :
    compact eol (.dictionary entries) =
      ascii "\x7b" ++ List.intercalate (ascii ",") (entries.map (compact_entry eol)) ++
        ascii "\x7d" := by
  rw [← compact_dict_false]
  simp only [compact, JSONWriter.BuildJSONString, Bool.false_eq_true, if_false]
  rw [BuildJSONString_dict_compact]
  simp

/-! ## Whitespace outside quoted strings -/

set_option maxRecDepth 100000

/-- Position of a scan through JSON text relative to its quoted strings:
outside of them, inside one, or inside one right after a backslash. -/
inductive QuoteState where
  | outside : QuoteState
  | inside : QuoteState
  | escaped : QuoteState
deriving DecidableEq, Repr

/-- The position after one more byte: a double quote opens a string, a
backslash inside a string protects the next byte, an unprotected double quote
closes the string. -/
def quoteStep : QuoteState → Fin 256 → QuoteState
  | .outside, c => if c = 34 then .inside else .outside
  | .inside, c => if c = 92 then .escaped else if c = 34 then .outside else .inside
  | .escaped, _ => .inside

/-- The position at the end of a text. -/
def scanEnd (st : QuoteState) (text : std_string) : QuoteState :=
  text.foldl quoteStep st

/-- The bytes of a text that stand outside its quoted strings (the quotes
belong to the strings). -/
def outsideQuotes : QuoteState → std_string → std_string
  | _, [] => []
  | st, c :: rest =>
    (if st = .outside ∧ c ≠ 34 then [c] else []) ++ outsideQuotes (quoteStep st c) rest

/-- The whitespace characters of C `isspace`: tab, newline, vertical tab, form
feed, carriage return, space. -/
def isspace (c : Fin 256) : Bool :=
  c = 9 || c = 10 || c = 11 || c = 12 || c = 13 || c = 32

/-- A text has no whitespace outside quoted strings: every quoted string
in it is closed, and no byte outside of them is whitespace. -/
def NoWhitespaceOutsideStrings (text : std_string) : Prop :=
  scanEnd .outside text = .outside ∧ ∀ c ∈ outsideQuotes .outside text, isspace c = false

mutual
/-- A tree of null, boolean, integer, string, list and dictionary nodes. -/
def Value.isPlain : Value → Bool
  | .null => true
  | .boolean _ => true
  | .integer _ => true
  | .double _ => false
  | .string _ => true
  | .binary _ => false
  | .dictionary entries => Value.isPlain_entries entries
  | .list items => Value.isPlain_items items
/-- Every item is such a tree. -/
def Value.isPlain_items : List Value → Bool
  | [] => true
  | value :: rest => Value.isPlain value && Value.isPlain_items rest
/-- Every entry holds such a tree. -/
def Value.isPlain_entries : List (std_string × Value) → Bool
  | [] => true
  | entry :: rest => Value.isPlain entry.2 && Value.isPlain_entries rest
end

theorem scanEnd_append (st : QuoteState) (a b : std_string) :
    scanEnd st (a ++ b) = scanEnd (scanEnd st a) b := by
  simp [scanEnd, List.foldl_append]

theorem outsideQuotes_append (a b : std_string) :
    ∀ st : QuoteState,
      outsideQuotes st (a ++ b) = outsideQuotes st a ++ outsideQuotes (scanEnd st a) b := by
  induction a with
  | nil => intro st; simp [outsideQuotes, scanEnd]
  | cons c rest ih =>
    intro st
    rw [List.cons_append]
    simp only [outsideQuotes]
    rw [ih, List.append_assoc]
    rfl

theorem noWhitespace_nil : NoWhitespaceOutsideStrings [] := by
  simp [NoWhitespaceOutsideStrings, scanEnd, outsideQuotes]

theorem noWhitespace_append {a b : std_string} (ha : NoWhitespaceOutsideStrings a)
    (hb : NoWhitespaceOutsideStrings b) : NoWhitespaceOutsideStrings (a ++ b) := by
  obtain ⟨ha1, ha2⟩ := ha
  obtain ⟨hb1, hb2⟩ := hb
  refine ⟨by rw [scanEnd_append, ha1, hb1], ?_⟩
  intro c hc
  rw [outsideQuotes_append, ha1, List.mem_append] at hc
  rcases hc with hc | hc
  · exact ha2 c hc
  · exact hb2 c hc

/-- A text of bytes that are neither whitespace nor a double quote. -/
theorem noWhitespace_of_bytes (text : std_string)
    (h : ∀ c ∈ text, c ≠ 34 ∧ isspace c = false) : NoWhitespaceOutsideStrings text := by
  induction text with
  | nil => exact noWhitespace_nil
  | cons c rest ih =>
    have hc := h c (List.mem_cons_self _ _)
    have hrest := ih (fun d hd => h d (List.mem_cons_of_mem _ hd))
    have hone : NoWhitespaceOutsideStrings [c] := by
      simp [NoWhitespaceOutsideStrings, scanEnd, outsideQuotes, quoteStep, hc.1, hc.2]
    exact noWhitespace_append hone hrest

theorem noWhitespace_intercalate (sep : std_string) (hsep : NoWhitespaceOutsideStrings sep) :
    ∀ texts : List std_string, (∀ t ∈ texts, NoWhitespaceOutsideStrings t) →
      NoWhitespaceOutsideStrings (List.intercalate sep texts)
  | [], _ => by simpa [List.intercalate] using noWhitespace_nil
  | [x], h => by simpa [List.intercalate] using h x (List.mem_singleton_self x)
  | x :: y :: ys, h => by
    rw [intercalate_cons_cons]
    exact noWhitespace_append
      (noWhitespace_append (h x (List.mem_cons_self _ _)) hsep)
      (noWhitespace_intercalate sep hsep (y :: ys) (fun t ht => h t (List.mem_cons_of_mem _ ht)))

theorem decimalDigits_bytes :
    ∀ (fuel n : Nat) (acc : std_string), (∀ c ∈ acc, c ≠ 34 ∧ isspace c = false) →
      ∀ c ∈ decimalDigits fuel n acc, c ≠ 34 ∧ isspace c = false := by
  intro fuel
  induction fuel with
  | zero => intro n acc h; simpa [decimalDigits] using h
  | succ fuel ih =>
    intro n acc h
    have hdigit : ∀ d : Nat, d < 10 →
        (Fin.ofNat (48 + d) : Fin 256) ≠ 34 ∧ isspace (Fin.ofNat (48 + d) : Fin 256) = false := by
      decide
    have hacc : ∀ c ∈ (Fin.ofNat (48 + n % 10) : Fin 256) :: acc, c ≠ 34 ∧ isspace c = false := by
      intro c hc
      rcases List.mem_cons.mp hc with hc | hc
      · rw [hc]; exact hdigit (n % 10) (Nat.mod_lt _ (by decide))
      · exact h c hc
    simp only [decimalDigits]
    split_ifs
    · exact hacc
    · exact ih (n / 10) _ hacc

theorem noWhitespace_IntToString (value : Int) :
    NoWhitespaceOutsideStrings (IntToString value) := by
  have hd := noWhitespace_of_bytes _
    (decimalDigits_bytes (value.natAbs + 1) value.natAbs [] (by simp))
  unfold IntToString
  split_ifs
  · exact noWhitespace_append (noWhitespace_of_bytes _ (by decide)) hd
  · exact hd

theorem JsonDoubleQuoteT_loop_cons (c : Fin 256) (rest : std_string) :
    JsonDoubleQuoteT_loop (c :: rest) [] =
      JsonDoubleQuoteT_loop [c] [] ++ JsonDoubleQuoteT_loop rest [] := by
  rw [← JsonDoubleQuoteT_loop_append]
  simp only [JsonDoubleQuoteT_loop]
  split_ifs <;> rfl

/-- What the quoting loop emits for one byte leaves the scan inside the
string. -/
theorem JsonDoubleQuoteT_loop_byte_inside :
    ∀ c : Fin 256, scanEnd .inside (JsonDoubleQuoteT_loop [c] []) = .inside ∧
      outsideQuotes .inside (JsonDoubleQuoteT_loop [c] []) = [] := by
  decide

theorem JsonDoubleQuoteT_loop_inside :
    ∀ str : std_string, scanEnd .inside (JsonDoubleQuoteT_loop str []) = .inside ∧
      outsideQuotes .inside (JsonDoubleQuoteT_loop str []) = []
  | [] => by simp [JsonDoubleQuoteT_loop, scanEnd, outsideQuotes]
  | c :: rest => by
    have h1 := JsonDoubleQuoteT_loop_byte_inside c
    have h2 := JsonDoubleQuoteT_loop_inside rest
    rw [JsonDoubleQuoteT_loop_cons, scanEnd_append, outsideQuotes_append, h1.1, h1.2, h2.1,
      h2.2]
    simp

theorem noWhitespace_JsonDoubleQuote (str : std_string) :
    NoWhitespaceOutsideStrings (JsonDoubleQuote str true []) := by
  have h := JsonDoubleQuoteT_loop_inside str
  have hopen : scanEnd .outside ([34] : std_string) = .inside := by decide
  have hclose : scanEnd .inside ([34] : std_string) = .outside := by decide
  rw [JsonDoubleQuote_quoted]
  refine ⟨?_, ?_⟩
  · rw [scanEnd_append, scanEnd_append, hopen, h.1, hclose]
  · intro c hc
    rw [outsideQuotes_append, outsideQuotes_append, scanEnd_append, hopen, h.1, h.2] at hc
    revert hc
    simp [outsideQuotes, quoteStep]

mutual
theorem noWhitespace_compact (eol : std_string) :
    ∀ node : Value, Value.isPlain node = true → NoWhitespaceOutsideStrings (compact eol node)
  | .null, _ => by
    simpa [compact, JSONWriter.BuildJSONString] using
      noWhitespace_of_bytes (ascii "null") (by decide)
  | .boolean true, _ => by
    simpa [compact, JSONWriter.BuildJSONString] using
      noWhitespace_of_bytes (ascii "true") (by decide)
  | .boolean false, _ => by
    simpa [compact, JSONWriter.BuildJSONString] using
      noWhitespace_of_bytes (ascii "false") (by decide)
  | .integer value, _ => by
    simpa [compact, JSONWriter.BuildJSONString] using noWhitespace_IntToString value
  | .double _, h => by simp [Value.isPlain] at h
  | .binary _, h => by simp [Value.isPlain] at h
  | .string value, _ => by
    simpa [compact, JSONWriter.BuildJSONString] using noWhitespace_JsonDoubleQuote value
  | .list items, h => by
    rw [compact_list_node]
    exact noWhitespace_append
      (noWhitespace_append (noWhitespace_of_bytes _ (by decide))
        (noWhitespace_intercalate _ (noWhitespace_of_bytes _ (by decide)) _
          (noWhitespace_compact_items eol items (by simpa [Value.isPlain] using h))))
      (noWhitespace_of_bytes _ (by decide))
  | .dictionary entries, h => by
    rw [compact_dictionary_node]
    exact noWhitespace_append
      (noWhitespace_append (noWhitespace_of_bytes _ (by decide))
        (noWhitespace_intercalate _ (noWhitespace_of_bytes _ (by decide)) _
          (noWhitespace_compact_entries eol entries (by simpa [Value.isPlain] using h))))
      (noWhitespace_of_bytes _ (by decide))
theorem noWhitespace_compact_items (eol : std_string) :
    ∀ items : List Value, Value.isPlain_items items = true →
      ∀ t ∈ items.map (compact eol), NoWhitespaceOutsideStrings t
  | [], _ => by simp
  | value :: rest, h => by
    simp only [Value.isPlain_items, Bool.and_eq_true] at h
    intro t ht
    rcases List.mem_cons.mp ht with ht | ht
    · rw [ht]; exact noWhitespace_compact eol value h.1
    · exact noWhitespace_compact_items eol rest h.2 t ht
theorem noWhitespace_compact_entries (eol : std_string) :
    ∀ entries : List (std_string × Value), Value.isPlain_entries entries = true →
      ∀ t ∈ entries.map (compact_entry eol), NoWhitespaceOutsideStrings t
  | [], _ => by simp
  | entry :: rest, h => by
    simp only [Value.isPlain_entries, Bool.and_eq_true] at h
    intro t ht
    rcases List.mem_cons.mp ht with ht | ht
    · rw [ht]
      exact noWhitespace_append
        (noWhitespace_append (noWhitespace_JsonDoubleQuote entry.1)
          (noWhitespace_of_bytes _ (by decide)))
        (noWhitespace_compact eol entry.2 h.1)
    · exact noWhitespace_compact_entries eol rest h.2 t ht
end

theorem compact_sampleTree (eol : std_string) :
    compact eol sampleTree = ascii "\x7b\"a\":1,\"b\":[true,null,\"x\\n\"]\x7d" := by
  rw [sampleTree, compact_dictionary_node]
  simp only [List.map, compact_entry]
  rw [compact_list_node]
  simp only [List.map, compact, JSONWriter.BuildJSONString, List.nil_append, if_true]
  decide

/-! ## Claim C20 -/

/-- C20: JSON compact rendering. `JSONWriter::Write` with `pretty_print = false`
replaces the content of `json` by the text built for the tree and appends
nothing after it (no trailing newline). For every tree of null, boolean,
integer, string, list and dictionary nodes that text has no whitespace outside
quoted strings. A list renders as `[`, its items separated by `,`, then `]`; a
dictionary as `{`, its entries separated by `,`, then `}`, each entry being
the quoted key, `:` and the value; null, a boolean, an integer and a string
render as `null`, `true` or `false`, the decimal digits and the quoted string.
The tree `{"a": 1, "b": [true, null, "x\n"]}` renders as
`{"a":1,"b":[true,null,"x\n"]}` with the newline as backslash and `n`. -/
theorem C20_compact_rendering (kPrettyPrintLineEnding json : std_string) :
    (∀ node : Value, Value.isPlain node = true →
      NoWhitespaceOutsideStrings (JSONWriter.Write kPrettyPrintLineEnding node false json)) ∧
    (∀ items : List Value,
      JSONWriter.Write kPrettyPrintLineEnding (.list items) false json =
        ascii "[" ++
          List.intercalate (ascii ",")
            (items.map fun item => JSONWriter.Write kPrettyPrintLineEnding item false json) ++
          ascii "]") ∧
    (∀ entries : List (std_string × Value),
      JSONWriter.Write kPrettyPrintLineEnding (.dictionary entries) false json =
        ascii "\x7b" ++
          List.intercalate (ascii ",")
            (entries.map fun entry =>
              JsonDoubleQuote entry.1 true [] ++ ascii ":" ++
                JSONWriter.Write kPrettyPrintLineEnding entry.2 false json) ++
          ascii "\x7d") ∧
    JSONWriter.Write kPrettyPrintLineEnding .null false json = ascii "null" ∧
    JSONWriter.Write kPrettyPrintLineEnding (.boolean true) false json = ascii "true" ∧
    JSONWriter.Write kPrettyPrintLineEnding (.boolean false) false json = ascii "false" ∧
    (∀ value : Int,
      JSONWriter.Write kPrettyPrintLineEnding (.integer value) false json = IntToString value) ∧
    (∀ value : std_string,
      JSONWriter.Write kPrettyPrintLineEnding (.string value) false json =
        JsonDoubleQuote value true []) ∧
    (∀ node : Value,
      JSONWriter.Write kPrettyPrintLineEnding node false json =
        JSONWriter.BuildJSONString false kPrettyPrintLineEnding node 0 true []) ∧
    JSONWriter.Write kPrettyPrintLineEnding sampleTree false json =
      ascii "\x7b\"a\":1,\"b\":[true,null,\"x\\n\"]\x7d" := by
  have hW : (fun node : Value => JSONWriter.Write kPrettyPrintLineEnding node false json) =
      compact kPrettyPrintLineEnding := by
    funext node
    exact Write_compact _ node json
  have hE : (fun entry : std_string × Value =>
      JsonDoubleQuote entry.1 true [] ++ ascii ":" ++
        JSONWriter.Write kPrettyPrintLineEnding entry.2 false json) =
      compact_entry kPrettyPrintLineEnding := by
    funext entry
    rw [Write_compact]
    rfl
  refine ⟨?_, ?_, ?_, ?_, ?_, ?_, ?_, ?_, ?_, ?_⟩
  · intro node h
    rw [Write_compact]
    exact noWhitespace_compact _ node h
  · intro items
    rw [hW, Write_compact, compact_list_node]
  · intro entries
    rw [hE, Write_compact, compact_dictionary_node]
  · rfl
  · rfl
  · rfl
  · intro value; rfl
  · intro value; rfl
  · intro node; rfl
  · rw [Write_compact]
    exact compact_sampleTree _

/-- The text of the sample tree, byte by byte: the newline of the string
`x\n` is rendered as the bytes 92 (backslash) and 110 (`n`). -/
theorem C20_compact_rendering_witness :
    JSONWriter.Write (ascii "\n") sampleTree false (ascii "old") =
      [123, 34, 97, 34, 58, 49, 44, 34, 98, 34, 58, 91, 116, 114, 117, 101, 44, 110, 117, 108,
        108, 44, 34, 120, 92, 110, 34, 93, 125] ∧
    NoWhitespaceOutsideStrings (JSONWriter.Write (ascii "\n") sampleTree false (ascii "old")) :=
  ⟨by decide, (C20_compact_rendering (ascii "\n") (ascii "old")).1 sampleTree (by decide)⟩

/-! ## Pretty mode -/

/-- The text a node renders to in pretty mode, `depth` being the depth
`BuildJSONString` is called with. -/
def pretty (eol : std_string) (node : Value) (depth : Nat) : std_string :=
  JSONWriter.BuildJSONString true eol node depth true []

/-- The text the list loop appends in pretty mode from index `i` on. -/
def pretty_list (eol : std_string) (items : List Value) (i depth : Nat) : std_string :=
  JSONWriter.BuildJSONString_list true eol items i depth true []

/-- The text the dictionary loop appends in pretty mode. -/
def pretty_dict (eol : std_string) (entries : List (std_string × Value)) (first : Bool)
    (depth : Nat) : std_string :=
  JSONWriter.BuildJSONString_dict true eol entries first depth true []

mutual
theorem BuildJSONString_pretty (eol : std_string) :
    ∀ (node : Value) (depth : Nat) (escape : Bool) (json : std_string),
      JSONWriter.BuildJSONString true eol node depth escape json = json ++ pretty eol node depth
  | .null, _, _, json => by simp [pretty, JSONWriter.BuildJSONString]
  | .boolean _, _, _, json => by simp [pretty, JSONWriter.BuildJSONString]
  | .integer _, _, _, json => by simp [pretty, JSONWriter.BuildJSONString]
  | .double _, _, _, json => by simp [pretty, JSONWriter.BuildJSONString]
  | .binary _, _, _, json => by simp [pretty, JSONWriter.BuildJSONString]
  | .string value, _, _, json => by
    simp only [pretty, JSONWriter.BuildJSONString]
    exact JsonDoubleQuote_append value json
  | .list items, depth, escape, json => by
    simp only [pretty, JSONWriter.BuildJSONString, if_true]
    rw [BuildJSONString_list_pretty eol items 0 depth escape (json ++ ascii "[" ++ ascii " "),
      BuildJSONString_list_pretty eol items 0 depth true ([] ++ ascii "[" ++ ascii " ")]
    simp
  | .dictionary entries, depth, escape, json => by
    simp only [pretty, JSONWriter.BuildJSONString, if_true, JSONWriter.IndentLine]
    rw [BuildJSONString_dict_pretty eol entries false depth escape (json ++ ascii "\x7b" ++ eol),
      BuildJSONString_dict_pretty eol entries false depth true ([] ++ ascii "\x7b" ++ eol)]
    simp
theorem BuildJSONString_list_pretty (eol : std_string) :
    ∀ (items : List Value) (i depth : Nat) (escape : Bool) (json : std_string),
      JSONWriter.BuildJSONString_list true eol items i depth escape json =
        json ++ pretty_list eol items i depth
  | [], _, _, _, json => by simp [pretty_list, JSONWriter.BuildJSONString_list]
  | value :: rest, i, depth, escape, json => by
    simp only [pretty_list, JSONWriter.BuildJSONString_list, if_true]
    rw [BuildJSONString_pretty eol value depth escape,
      BuildJSONString_list_pretty eol rest (i + 1) depth escape,
      BuildJSONString_pretty eol value depth true,
      BuildJSONString_list_pretty eol rest (i + 1) depth true]
    split_ifs <;> simp [pretty_list]
theorem BuildJSONString_dict_pretty (eol : std_string) :
    ∀ (entries : List (std_string × Value)) (first : Bool) (depth : Nat) (escape : Bool)
      (json : std_string),
      JSONWriter.BuildJSONString_dict true eol entries first depth escape json =
        json ++ pretty_dict eol entries first depth
  | [], _, _, _, json => by simp [pretty_dict, JSONWriter.BuildJSONString_dict]
  | entry :: rest, first, depth, escape, json => by
    simp only [pretty_dict, JSONWriter.BuildJSONString_dict, if_true, JSONWriter.IndentLine]
    rw [BuildJSONString_pretty eol entry.2 (depth + 1) escape,
      BuildJSONString_dict_pretty eol rest true depth escape,
      BuildJSONString_pretty eol entry.2 (depth + 1) true,
      BuildJSONString_dict_pretty eol rest true depth true]
    rw [JsonDoubleQuote_append entry.1 (_ ++ List.replicate _ _),
      JsonDoubleQuote_append entry.1 ((if first = true then [] ++ [44] ++ eol else []) ++
        List.replicate _ _)]
    split_ifs <;> simp [pretty_dict]
end

/-- The text of one dictionary entry in pretty mode, in a dictionary built at
depth `depth`: the indentation of `IndentLine(depth + 1)`, the quoted key, a
colon and a space, the value built at depth `depth + 1`. -/
def pretty_entry (eol : std_string) (depth : Nat) (entry : std_string × Value) : std_string :=
  List.replicate (3 * (depth + 1)) 32 ++ JsonDoubleQuote entry.1 true [] ++ ascii ": " ++
    pretty eol entry.2 (depth + 1)

theorem pretty_list_cons (eol : std_string) (value : Value) (rest : List Value) (i depth : Nat) :
    pretty_list eol (value :: rest) i depth =
      (if i = 0 then [] else ascii ", ") ++ pretty eol value depth ++
        pretty_list eol rest (i + 1) depth := by
  simp only [pretty_list, JSONWriter.BuildJSONString_list, if_true]
  rw [BuildJSONString_pretty, BuildJSONString_list_pretty]
  split_ifs <;> simp_all [pretty_list]
  rfl

theorem pretty_dict_cons (eol : std_string) (entry : std_string × Value)
    (rest : List (std_string × Value)) (first : Bool) (depth : Nat) :
    pretty_dict eol (entry :: rest) first depth =
      (if first then ascii "," ++ eol else []) ++ pretty_entry eol depth entry ++
        pretty_dict eol rest true depth := by
  simp only [pretty_dict, JSONWriter.BuildJSONString_dict, if_true, JSONWriter.IndentLine]
  rw [BuildJSONString_pretty, BuildJSONString_dict_pretty, JsonDoubleQuote_append,
    Nat.mul_comm (depth + 1) 3]
  cases first
  · simp [pretty_dict, pretty_entry]
  · simp [pretty_dict, pretty_entry, ascii]
    rfl

theorem pretty_list_succ (eol : std_string) (depth : Nat) :
    ∀ (items : List Value) (i : Nat) (x : std_string),
      x ++ pretty_list eol items (i + 1) depth =
        List.intercalate (ascii ", ") (x :: items.map fun item => pretty eol item depth)
  | [], _, x => by simp [pretty_list, JSONWriter.BuildJSONString_list, List.intercalate]
  | value :: rest, i, x => by
    rw [List.map_cons, intercalate_cons_cons, ← pretty_list_succ eol depth rest (i + 1),
      pretty_list_cons]
    simp

theorem pretty_list_zero (eol : std_string) (depth : Nat) (items : List Value) :
    pretty_list eol items 0 depth =
      List.intercalate (ascii ", ") (items.map fun item => pretty eol item depth) := by
  cases items with
  | nil => simp [pretty_list, JSONWriter.BuildJSONString_list, List.intercalate]
  | cons value rest =>
    rw [List.map_cons, ← pretty_list_succ eol depth rest 0, pretty_list_cons]
    simp

theorem pretty_dict_true (eol : std_string) (depth : Nat) :
    ∀ (entries : List (std_string × Value)) (x : std_string),
      x ++ pretty_dict eol entries true depth =
        List.intercalate (ascii "," ++ eol) (x :: entries.map (pretty_entry eol depth))
  | [], x => by simp [pretty_dict, JSONWriter.BuildJSONString_dict, List.intercalate]
  | entry :: rest, x => by
    rw [List.map_cons, intercalate_cons_cons, ← pretty_dict_true eol depth rest,
      pretty_dict_cons]
    simp

theorem pretty_dict_false (eol : std_string) (depth : Nat)
    (entries : List (std_string × Value)) :
    pretty_dict eol entries false depth =
      List.intercalate (ascii "," ++ eol) (entries.map (pretty_entry eol depth)) := by
  cases entries with
  | nil => simp [pretty_dict, JSONWriter.BuildJSONString_dict, List.intercalate]
  | cons entry rest =>
    rw [List.map_cons, ← pretty_dict_true eol depth rest, pretty_dict_cons]
    simp

theorem pretty_list_node (eol : std_string) (items : List Value) (depth : Nat) :
    pretty eol (.list items) depth =
      ascii "[ " ++ List.intercalate (ascii ", ") (items.map fun item => pretty eol item depth) ++
        ascii " ]" := by
  rw [← pretty_list_zero]
  simp only [pretty, JSONWriter.BuildJSONString, if_true]
  rw [BuildJSONString_list_pretty]
  simp [ascii]

theorem pretty_dictionary_node (eol : std_string) (entries : List (std_string × Value))
    (depth : Nat) :
    pretty eol (.dictionary entries) depth =
      ascii "\x7b" ++ eol ++
        List.intercalate (ascii "," ++ eol) (entries.map (pretty_entry eol depth)) ++
        eol ++ List.replicate (3 * depth) 32 ++ ascii "\x7d" := by
  rw [← pretty_dict_false]
  simp only [pretty, JSONWriter.BuildJSONString, if_true, JSONWriter.IndentLine]
  rw [BuildJSONString_dict_pretty, Nat.mul_comm depth 3]
  simp

theorem Write_pretty (eol : std_string) (node : Value) (json : std_string) :
    JSONWriter.Write eol node true json = pretty eol node 0 ++ eol := by
  simp [JSONWriter.Write, JSONWriter.WriteWithOptionalEscape, pretty]

/-- The tree `{"o": {"i": [{"k": null}]}}`: a dictionary inside a list inside
a dictionary inside the root dictionary. -/
def nestedTree : Value :=
  .dictionary [(ascii "o", .dictionary [(ascii "i", .list [.dictionary [(ascii "k", .null)]])])]

/-! ## Claim C21 -/

/-- C21: JSON pretty rendering. `JSONWriter::Write` with `pretty_print = true`
replaces the content of `json` by the text built for the tree at depth 0
followed by one line ending. A dictionary built at depth `depth` (the number
of dictionaries that enclose it) renders as `{` and a line ending, its entries
separated by `,` and a line ending, then a line ending, `3 * depth` spaces and
`}`; each entry is `3 * (depth + 1)` spaces, the quoted key (which starts with
a double quote, so the indentation is exactly that), `: ` and the value built
at depth `depth + 1`. A list does not add to the depth: its items are built at
the depth of the list. -/
theorem C21_pretty_rendering (kPrettyPrintLineEnding : std_string) :
    (∀ (node : Value) (json : std_string),
      JSONWriter.Write kPrettyPrintLineEnding node true json =
        JSONWriter.BuildJSONString true kPrettyPrintLineEnding node 0 true [] ++
          kPrettyPrintLineEnding) ∧
    (∀ (entries : List (std_string × Value)) (depth : Nat),
      JSONWriter.BuildJSONString true kPrettyPrintLineEnding (.dictionary entries) depth true [] =
        ascii "\x7b" ++ kPrettyPrintLineEnding ++
          List.intercalate (ascii "," ++ kPrettyPrintLineEnding)
            (entries.map fun entry =>
              List.replicate (3 * (depth + 1)) 32 ++ JsonDoubleQuote entry.1 true [] ++
                ascii ": " ++
                JSONWriter.BuildJSONString true kPrettyPrintLineEnding entry.2 (depth + 1)
                  true []) ++
          kPrettyPrintLineEnding ++ List.replicate (3 * depth) 32 ++ ascii "\x7d") ∧
    (∀ key : std_string, (JsonDoubleQuote key true []).head? = some 34) ∧
    (∀ (items : List Value) (depth : Nat),
      JSONWriter.BuildJSONString true kPrettyPrintLineEnding (.list items) depth true [] =
        ascii "[ " ++
          List.intercalate (ascii ", ")
            (items.map fun item =>
              JSONWriter.BuildJSONString true kPrettyPrintLineEnding item depth true []) ++
          ascii " ]") := by
  refine ⟨?_, ?_, ?_, ?_⟩
  · intro node json
    exact Write_pretty _ node json
  · intro entries depth
    exact pretty_dictionary_node _ entries depth
  · intro key
    rw [JsonDoubleQuote_quoted]
    rfl
  · intro items depth
    exact pretty_list_node _ items depth

/-- C21 at concrete inputs, with the line ending `\n`: the sample tree
renders with its entries indented by 3 spaces and the closing brace by none;
in the nested tree the entries of the dictionaries at depth 0, 1 and 2 are
indented by 3, 6 and 9 spaces and their closing braces by 0, 3 and 6 (the list
in between does not count); both end with the appended line ending. -/
theorem C21_pretty_rendering_witness :
    JSONWriter.Write (ascii "\n") sampleTree true (ascii "old") =
      ascii "\x7b\n   \"a\": 1,\n   \"b\": [ true, null, \"x\\n\" ]\n\x7d\n" ∧
    JSONWriter.Write (ascii "\n") nestedTree true [] =
      ascii ("\x7b\n   \"o\": \x7b\n      \"i\": [ \x7b\n         \"k\": null\n      \x7d ]\n" ++
        "   \x7d\n\x7d\n") ∧
    JSONWriter.Write (ascii "\n") nestedTree true [] =
      JSONWriter.BuildJSONString true (ascii "\n") nestedTree 0 true [] ++ ascii "\n" :=
  ⟨by decide, by decide, (C21_pretty_rendering (ascii "\n")).1 nestedTree []⟩

/-! ## Claims C22 and C27: string quoting -/

/-- C22: JSON string escaping of the seven special characters. With
`put_in_quotes = true` the text `JsonDoubleQuote` emits is a double quote, then
for each byte of the string, in input order, what the loop emits for that
byte, then a double quote. For backspace, form feed, newline, carriage return,
tab, backslash and double quote the loop emits the two characters `\b`, `\f`,
`\n`, `\r`, `\t`, `\\` and `\"`; every other byte from 32 to 126 it emits
unchanged. -/
theorem C22_special_characters :
    (∀ str : std_string,
      JsonDoubleQuote str true [] =
        [34] ++ (str.flatMap fun c => JsonDoubleQuoteT_loop [c] []) ++ [34]) ∧
    JsonDoubleQuoteT_loop [8] [] = [92, 98] ∧
    JsonDoubleQuoteT_loop [12] [] = [92, 102] ∧
    JsonDoubleQuoteT_loop [10] [] = [92, 110] ∧
    JsonDoubleQuoteT_loop [13] [] = [92, 114] ∧
    JsonDoubleQuoteT_loop [9] [] = [92, 116] ∧
    JsonDoubleQuoteT_loop [92] [] = [92, 92] ∧
    JsonDoubleQuoteT_loop [34] [] = [92, 34] ∧
    (∀ c : Fin 256, 32 ≤ c.val → c.val ≤ 126 → c ≠ 92 → c ≠ 34 →
      JsonDoubleQuoteT_loop [c] [] = [c]) := by
  refine ⟨?_, by decide, by decide, by decide, by decide, by decide, by decide, by decide,
    by decide⟩
  intro str
  rw [JsonDoubleQuote_quoted]
  congr 2
  induction str with
  | nil => rfl
  | cons c rest ih => rw [JsonDoubleQuoteT_loop_cons, ih, List.flatMap_cons]

/-- C22 at a concrete input: the string `a"b\` followed by a tab and `~`. -/
theorem C22_special_characters_witness :
    JsonDoubleQuote (ascii "a\"b\\\t~") true [] = ascii "\"a\\\"b\\\\\\t~\"" ∧
    JsonDoubleQuote (ascii "a\"b\\\t~") true [] =
      [34] ++ ((ascii "a\"b\\\t~").flatMap fun c => JsonDoubleQuoteT_loop [c] []) ++ [34] :=
  ⟨by decide, C22_special_characters.1 (ascii "a\"b\\\t~")⟩

theorem JsonDoubleQuote_unquoted (str : std_string) :
    JsonDoubleQuote str false [] = JsonDoubleQuoteT_loop str [] := by
  simp [JsonDoubleQuote, JsonDoubleQuoteT]

theorem JsonDoubleQuote_append_any (str : std_string) (put_in_quotes : Bool) (dst : std_string) :
    JsonDoubleQuote str put_in_quotes dst = dst ++ JsonDoubleQuote str put_in_quotes [] := by
  cases put_in_quotes
  · simp only [JsonDoubleQuote, JsonDoubleQuoteT, Bool.false_eq_true, if_false]
    exact JsonDoubleQuoteT_loop_append str dst
  · exact JsonDoubleQuote_append str dst

/-- C27: `JsonDoubleQuote` appends and quotes. After
`JsonDoubleQuote(str, put_in_quotes, dst)` the content of `dst` is its prior
content `d` followed by the text the call emits into an empty `dst`, so `d`
is left unchanged at the front; with `put_in_quotes = true` that text is the
text for `put_in_quotes = false` with one double quote before it and one
after. -/
theorem C27_append_and_quote (str : std_string) (put_in_quotes : Bool) (d : std_string) :
    JsonDoubleQuote str put_in_quotes d = d ++ JsonDoubleQuote str put_in_quotes [] ∧
    (JsonDoubleQuote str put_in_quotes d).take d.length = d ∧
    JsonDoubleQuote str true [] = [34] ++ JsonDoubleQuote str false [] ++ [34] ∧
    JsonDoubleQuote str true d = d ++ [34] ++ JsonDoubleQuote str false [] ++ [34] := by
  have h := JsonDoubleQuote_append_any str put_in_quotes d
  refine ⟨h, ?_, ?_, ?_⟩
  · rw [h]; simp
  · rw [JsonDoubleQuote_quoted, JsonDoubleQuote_unquoted]
  · rw [JsonDoubleQuote_append, JsonDoubleQuote_quoted, JsonDoubleQuote_unquoted]
    simp

/-- C27 at a concrete input: the string `x` and a newline appended to the
prior content `k=`, with and without quotes. -/
theorem C27_append_and_quote_witness :
    JsonDoubleQuote (ascii "x\n") true (ascii "k=") = ascii "k=\"x\\n\"" ∧
    JsonDoubleQuote (ascii "x\n") false (ascii "k=") = ascii "k=x\\n" ∧
    JsonDoubleQuote (ascii "x\n") true (ascii "k=") =
      ascii "k=" ++ [34] ++ JsonDoubleQuote (ascii "x\n") false [] ++ [34] :=
  ⟨by decide, by decide, (C27_append_and_quote (ascii "x\n") true (ascii "k=")).2.2.2⟩

/-! ## Claims C23 and C24: bytes outside printable ASCII -/

/-- C23: the code at the failing inputs. For a byte below 32 or above 126
that is none of the seven single-escape characters, `JsonDoubleQuote` emits
the hexadecimal digits of the byte in lower case and nothing else: no
backslash, no `u`, no padding to four digits. The byte 1 is emitted as `1`,
the byte 127 as `7f`, the byte 233 as `e9`; the escape sequence the header
comment promises would be `\u0001`, `\u007F`, `\u00E9`. -/
theorem C23_unicode_escape_missing :
    JsonDoubleQuote [1] true [] = ascii "\"1\"" ∧
    JsonDoubleQuote [127] true [] = ascii "\"7f\"" ∧
    JsonDoubleQuote [233] true [] = ascii "\"e9\"" ∧
    (∀ c : Fin 256, (c.val < 32 ∨ c.val > 126) → (JsonSingleEscapeChar c []).1 = false →
      JsonDoubleQuoteT_loop [c] [] = HexToString c.val ∧
      (92 : Fin 256) ∉ JsonDoubleQuoteT_loop [c] [] ∧
      (117 : Fin 256) ∉ JsonDoubleQuoteT_loop [c] [] ∧
      (JsonDoubleQuoteT_loop [c] []).length ≤ 2) := by
  refine ⟨by decide, by decide, by decide, by decide⟩

/-- C24: the code at the failing inputs. The string that holds the single
byte 1 and the string `1` are different, and `JsonDoubleQuote` (with
`put_in_quotes = true`, appended to an empty `dst`) produces the same text
`"1"` for both; the strings `e9` (two bytes) and the single byte 233 also
share their text. -/
theorem C24_quoting_not_injective :
    JsonDoubleQuote [1] true [] = ascii "\"1\"" ∧
    ([1] : std_string) ≠ ascii "1" ∧
    JsonDoubleQuote (ascii "1") true [] = ascii "\"1\"" ∧
    JsonDoubleQuote [1] true [] = JsonDoubleQuote (ascii "1") true [] ∧
    ([233] : std_string).length = 1 ∧ (ascii "e9").length = 2 ∧
    JsonDoubleQuote [233] true [] = JsonDoubleQuote (ascii "e9") true [] := by
  refine ⟨by decide, by decide, by decide, by decide, by decide, by decide, by decide⟩

/-! ## Claim C26: the `escape` argument -/

theorem BuildJSONString_escape (pretty_print_ : Bool) (eol : std_string) (node : Value)
    (depth : Nat) (escape : Bool) (json : std_string) :
    JSONWriter.BuildJSONString pretty_print_ eol node depth escape json =
      JSONWriter.BuildJSONString pretty_print_ eol node depth true json := by
  cases pretty_print_
  · rw [BuildJSONString_compact, BuildJSONString_compact]
  · rw [BuildJSONString_pretty, BuildJSONString_pretty]

/-- C26: the code at the failing input. `BuildJSONString` passes `escape`
along and never looks at it, so `WriteWithOptionalEscape` produces the same
text with `escape = false` as with `escape = true`, for every tree: the string
node that holds the single byte 233 is written as `"e9"` with `escape = false`,
not as the byte 233 between quotes. -/
theorem C26_escape_flag_ignored (kPrettyPrintLineEnding : std_string) :
    (∀ (node : Value) (pretty_print : Bool) (json : std_string),
      JSONWriter.WriteWithOptionalEscape kPrettyPrintLineEnding node pretty_print false json =
        JSONWriter.WriteWithOptionalEscape kPrettyPrintLineEnding node pretty_print true json) ∧
    JSONWriter.WriteWithOptionalEscape kPrettyPrintLineEnding (.string [233]) false false [] =
      ascii "\"e9\"" ∧
    JSONWriter.WriteWithOptionalEscape kPrettyPrintLineEnding (.string [233]) false false [] ≠
      [34, 233, 34] := by
  have h : JSONWriter.WriteWithOptionalEscape kPrettyPrintLineEnding (.string [233]) false
      false [] = ascii "\"e9\"" := by
    simp only [JSONWriter.WriteWithOptionalEscape, JSONWriter.BuildJSONString,
      Bool.false_eq_true, if_false]
    decide
  refine ⟨?_, h, ?_⟩
  · intro node pretty_print json
    simp only [JSONWriter.WriteWithOptionalEscape]
    rw [BuildJSONString_escape]
  · rw [h]
    decide

/-! ## Claim C25: the text of a double -/

/-- The text has a decimal point or an exponent marker: one of the
characters `.`, `e`, `E`. -/
def hasPointOrExponent (text : std_string) : Bool :=
  text.contains 46 || text.contains 101 || text.contains 69

/-- The leading zero the claim describes: `out` is `r` with a `0` put before a
leading `.`, or after the `-` of a leading `-.`, and `r` itself when it begins
with neither. -/
def ZeroInserted (r out : std_string) : Prop :=
  (∀ rest, r = 46 :: rest → out = 48 :: 46 :: rest) ∧
  (∀ rest, r = 45 :: 46 :: rest → out = 45 :: 48 :: 46 :: rest) ∧
  ((∀ rest, r ≠ 46 :: rest) → (∀ rest, r ≠ 45 :: 46 :: rest) → out = r)

theorem zeroInserted_fix (r : std_string) :
    ZeroInserted r
      (if r.getD 0 0 = 46 then ascii "0" ++ r
      else if r.length > 1 && r.getD 0 0 = 45 && r.getD 1 0 = 46 then
        r.take 1 ++ ascii "0" ++ r.drop 1
      else r) := by
  refine ⟨?_, ?_, ?_⟩
  · intro rest h
    subst h
    simp [ascii]
    rfl
  · intro rest h
    subst h
    simp [ascii]
    rfl
  · intro h1 h2
    match r, h1, h2 with
    | [], _, _ => simp
    | [a], h1, _ =>
      have : a ≠ 46 := fun h => h1 [] (by rw [h])
      simp [this]
    | a :: b :: rest, h1, h2 =>
      have ha : a ≠ 46 := fun h => h1 (b :: rest) (by rw [h])
      have hb : ¬ (a = 45 ∧ b = 46) := fun h => h2 rest (by rw [h.1, h.2])
      simp only [List.getD_cons_zero, ha, if_false]
      split_ifs with h
      · simp at h
        exact absurd h hb
      · rfl

theorem fixDouble_eq (real : std_string) :
    JSONWriter.fixDouble real =
      (if (if hasPointOrExponent real then real else real ++ ascii ".0").getD 0 0 = 46 then
        ascii "0" ++ (if hasPointOrExponent real then real else real ++ ascii ".0")
      else if (if hasPointOrExponent real then real else real ++ ascii ".0").length > 1 &&
          (if hasPointOrExponent real then real else real ++ ascii ".0").getD 0 0 = 45 &&
          (if hasPointOrExponent real then real else real ++ ascii ".0").getD 1 0 = 46 then
        (if hasPointOrExponent real then real else real ++ ascii ".0").take 1 ++ ascii "0" ++
          (if hasPointOrExponent real then real else real ++ ascii ".0").drop 1
      else (if hasPointOrExponent real then real else real ++ ascii ".0")) := by
  have h : (if (!real.contains 46 && !real.contains 101 && !real.contains 69) = true then
      real ++ ascii ".0" else real) =
      (if hasPointOrExponent real then real else real ++ ascii ".0") := by
    unfold hasPointOrExponent
    cases real.contains 46 <;> cases real.contains 101 <;> cases real.contains 69 <;> rfl
  unfold JSONWriter.fixDouble
  simp only [h]

theorem hasPointOrExponent_iff (text : std_string) :
    hasPointOrExponent text = true ↔ (46 ∈ text ∨ 101 ∈ text ∨ 69 ∈ text) := by
  simp [hasPointOrExponent, or_assoc]

theorem hasPointOrExponent_fixDouble (real : std_string) :
    hasPointOrExponent (JSONWriter.fixDouble real) = true := by
  have hmono : ∀ r out : std_string, (∀ x ∈ r, x ∈ out) → hasPointOrExponent r = true →
      hasPointOrExponent out = true := by
    intro r out hsub h
    rw [hasPointOrExponent_iff] at h ⊢
    rcases h with h | h | h
    · exact Or.inl (hsub _ h)
    · exact Or.inr (Or.inl (hsub _ h))
    · exact Or.inr (Or.inr (hsub _ h))
  have hr1 : hasPointOrExponent
      (if hasPointOrExponent real then real else real ++ ascii ".0") = true := by
    by_cases h : hasPointOrExponent real = true
    · simp [h]
    · simp only [h, if_false]
      rw [hasPointOrExponent_iff]
      exact Or.inl (List.mem_append_right _ (by decide))
  rw [fixDouble_eq]
  generalize (if hasPointOrExponent real then real else real ++ ascii ".0") = r1 at hr1
  split_ifs
  · exact hmono r1 _ (fun x hx => List.mem_append_right _ hx) hr1
  · refine hmono r1 _ (fun x hx => ?_) hr1
    rw [← List.take_append_drop 1 r1] at hx
    rcases List.mem_append.mp hx with hx | hx
    · exact List.mem_append_left _ (List.mem_append_left _ hx)
    · exact List.mem_append_right _ hx
  · exact hr1

/-- C25, as amended: JSON double text fix-up. For every text `real` the
number formatter produces for a double node, `BuildJSONString` appends to
`json_string_` the fixed text, and that text always contains a decimal point
or an exponent marker (`e` or `E`): when `real` has none of them, `.0` is
appended to it; when it has one, nothing is appended. After that step a text
that begins with `.` gets a `0` before it, a text that begins with `-.` gets a
`0` after the minus sign, and any other text is left as it is. -/
theorem C25_double_fixup (pretty_print_ : Bool) (kPrettyPrintLineEnding real : std_string)
    (depth : Nat) (escape : Bool) (json_string_ : std_string) :
    JSONWriter.BuildJSONString pretty_print_ kPrettyPrintLineEnding (.double real) depth escape
      json_string_ = json_string_ ++ JSONWriter.fixDouble real ∧
    hasPointOrExponent (JSONWriter.fixDouble real) = true ∧
    (hasPointOrExponent real = false →
      ZeroInserted (real ++ ascii ".0") (JSONWriter.fixDouble real)) ∧
    (hasPointOrExponent real = true → ZeroInserted real (JSONWriter.fixDouble real)) := by
  refine ⟨by simp [JSONWriter.BuildJSONString], hasPointOrExponent_fixDouble real, ?_, ?_⟩
  · intro h
    have hz := zeroInserted_fix (real ++ ascii ".0")
    rw [fixDouble_eq]
    simpa only [h, Bool.false_eq_true, if_false] using hz
  · intro h
    have hz := zeroInserted_fix real
    rw [fixDouble_eq]
    simpa only [h, if_true] using hz

/-- C25 at concrete inputs: `5` is emitted as `5.0`, `.5` as `0.5`, `-.5` as
`-0.5`, `2.5` and `-1.5e-07` unchanged. -/
theorem C25_double_fixup_witness :
    JSONWriter.fixDouble (ascii "5") = ascii "5.0" ∧
    JSONWriter.fixDouble (ascii ".5") = ascii "0.5" ∧
    JSONWriter.fixDouble (ascii "-.5") = ascii "-0.5" ∧
    JSONWriter.fixDouble (ascii "2.5") = ascii "2.5" ∧
    JSONWriter.fixDouble (ascii "-1.5e-07") = ascii "-1.5e-07" ∧
    JSONWriter.BuildJSONString false (ascii "\n") (.double (ascii "5")) 0 true (ascii "x=") =
      ascii "x=" ++ JSONWriter.fixDouble (ascii "5") :=
  ⟨by decide, by decide, by decide, by decide, by decide,
    (C25_double_fixup false (ascii "\n") (ascii "5") 0 true (ascii "x=")).1⟩

/-- C25, as stated, fails: the text `1e+10`, which the number formatter
produces for the double 10000000000, has an exponent marker, so nothing is
appended to it, and the text emitted for the node contains no decimal
point. -/
theorem C25_double_fixup_counterexample :
    JSONWriter.BuildJSONString false (ascii "\n") (.double (ascii "1e+10")) 0 true [] =
      ascii "1e+10" ∧
    (46 : Fin 256) ∉
      JSONWriter.BuildJSONString false (ascii "\n") (.double (ascii "1e+10")) 0 true [] := by
  refine ⟨by decide, by decide⟩

end base

/-! # Log renderings of `ipc/ipc_message_utils.h` -/

namespace IPC

open base (std_string ascii)

/-- `LogParam(p, l)`: calls the `Log` of the binding of the type of `p`. A
`Log` appends to the text `*l`; it is rendered as a function from the value
and the text so far to the text after the call. -/
def LogParam {P : Type} (Log : P → std_string → std_string) (p : P) (l : std_string) :
    std_string :=
  Log p l

/-- The loop of `ParamTraits<std::vector<P>>::Log` from index `i` on:
`if (i != 0) l->append(" "); LogParam((p[i]), l);`. -/
def ParamTraits_vector.Log_loop {P : Type} (Log : P → std_string → std_string) :
    List P → Nat → std_string → std_string
  | [], _, l => l
  | x :: rest, i, l =>
    let l := if i != 0 then l ++ ascii " " else l
    let l := LogParam Log x l
    ParamTraits_vector.Log_loop Log rest (i + 1) l

/-- `ParamTraits<std::vector<P>>::Log`. -/
def ParamTraits_vector.Log {P : Type} (Log : P → std_string → std_string) (p : List P)
    (l : std_string) : std_string :=
  ParamTraits_vector.Log_loop Log p 0 l

/-- `ParamTraits<std::set<P>>::Log`: `l->append("<std::set>")`. -/
def ParamTraits_set.Log {P : Type} [LinearOrder P] (_p : std_set P) (l : std_string) :
    std_string :=
  l ++ ascii "<std::set>"

/-- `ParamTraits<std::map<K, V>>::Log`: `l->append("<std::map>")`. -/
def ParamTraits_map.Log {K V : Type} [LinearOrder K] (_p : std_map K V) (l : std_string) :
    std_string :=
  l ++ ascii "<std::map>"

/-- `ParamTraits<std::pair<A, B>>::Log`. -/
def ParamTraits_pair.Log {A B : Type} (LogA : A → std_string → std_string)
    (LogB : B → std_string → std_string) (p : A × B) (l : std_string) : std_string :=
  let l := l ++ ascii "("
  let l := LogParam LogA p.1 l
  let l := l ++ ascii ", "
  let l := LogParam LogB p.2 l
  l ++ ascii ")"

/-- `ParamTraits<Tuple0>::Log`: appends nothing. -/
def ParamTraits_Tuple0.Log (_p : Tuple0) (l : std_string) : std_string :=
  l

/-- `ParamTraits<Tuple1<A>>::Log`. -/
def ParamTraits_Tuple1.Log {A : Type} (LogA : A → std_string → std_string) (p : Tuple1 A)
    (l : std_string) : std_string :=
  LogParam LogA p.a l

/-- `ParamTraits<Tuple2<A, B>>::Log`. -/
def ParamTraits_Tuple2.Log {A B : Type} (LogA : A → std_string → std_string)
    (LogB : B → std_string → std_string) (p : Tuple2 A B) (l : std_string) : std_string :=
  let l := LogParam LogA p.a l
  let l := l ++ ascii ", "
  LogParam LogB p.b l

/-- `ParamTraits<Tuple3<A, B, C>>::Log`. -/
def ParamTraits_Tuple3.Log {A B C : Type} (LogA : A → std_string → std_string)
    (LogB : B → std_string → std_string) (LogC : C → std_string → std_string)
    (p : Tuple3 A B C) (l : std_string) : std_string :=
  let l := LogParam LogA p.a l
  let l := l ++ ascii ", "
  let l := LogParam LogB p.b l
  let l := l ++ ascii ", "
  LogParam LogC p.c l

/-- `ParamTraits<Tuple4<A, B, C, D>>::Log`. -/
def ParamTraits_Tuple4.Log {A B C D : Type} (LogA : A → std_string → std_string)
    (LogB : B → std_string → std_string) (LogC : C → std_string → std_string)
    (LogD : D → std_string → std_string) (p : Tuple4 A B C D) (l : std_string) : std_string :=
  let l := LogParam LogA p.a l
  let l := l ++ ascii ", "
  let l := LogParam LogB p.b l
  let l := l ++ ascii ", "
  let l := LogParam LogC p.c l
  let l := l ++ ascii ", "
  LogParam LogD p.d l

/-- `ParamTraits<Tuple5<A, B, C, D, E>>::Log`. -/
def ParamTraits_Tuple5.Log {A B C D E : Type} (LogA : A → std_string → std_string)
    (LogB : B → std_string → std_string) (LogC : C → std_string → std_string)
    (LogD : D → std_string → std_string) (LogE : E → std_string → std_string)
    (p : Tuple5 A B C D E) (l : std_string) : std_string :=
  let l := LogParam LogA p.a l
  let l := l ++ ascii ", "
  let l := LogParam LogB p.b l
  let l := l ++ ascii ", "
  let l := LogParam LogC p.c l
  let l := l ++ ascii ", "
  let l := LogParam LogD p.d l
  let l := l ++ ascii ", "
  LogParam LogE p.e l

/-- A `Log` appends: the text after the call is the text before it followed by
the rendering of the value, which does not depend on the text before. -/
def LogAppends {P : Type} (Log : P → std_string → std_string) : Prop :=
  ∀ (p : P) (l : std_string), Log p l = l ++ Log p []

/-- Two empty sets of `int`, as a vector and as the fields of a tuple. -/
def twoSets : List (std_set Int) := [std_set.empty, std_set.empty]

theorem logAppends_set {P : Type} [LinearOrder P] :
    LogAppends (ParamTraits_set.Log : std_set P → std_string → std_string) := by
  intro p l
  simp [ParamTraits_set.Log]

theorem logAppends_map {K V : Type} [LinearOrder K] :
    LogAppends (ParamTraits_map.Log : std_map K V → std_string → std_string) := by
  intro p l
  simp [ParamTraits_map.Log]

theorem logAppends_Tuple0 : LogAppends ParamTraits_Tuple0.Log := by
  intro p l
  simp [ParamTraits_Tuple0.Log]

theorem pair_Log_eq {A B : Type} (LogA : A → std_string → std_string)
    (LogB : B → std_string → std_string) (hA : LogAppends LogA) (hB : LogAppends LogB)
    (p : A × B) (l : std_string) :
    ParamTraits_pair.Log LogA LogB p l =
      l ++ ascii "(" ++ LogA p.1 [] ++ ascii ", " ++ LogB p.2 [] ++ ascii ")" := by
  simp only [ParamTraits_pair.Log, LogParam]
  rw [hB p.2, hA p.1]

theorem logAppends_pair {A B : Type} (LogA : A → std_string → std_string)
    (LogB : B → std_string → std_string) (hA : LogAppends LogA) (hB : LogAppends LogB) :
    LogAppends (ParamTraits_pair.Log LogA LogB) := by
  intro p l
  rw [pair_Log_eq LogA LogB hA hB p l, pair_Log_eq LogA LogB hA hB p []]
  simp

theorem vector_Log_loop_append {P : Type} (Log : P → std_string → std_string)
    (hL : LogAppends Log) :
    ∀ (v : List P) (i : Nat) (l : std_string),
      ParamTraits_vector.Log_loop Log v i l = l ++ ParamTraits_vector.Log_loop Log v i []
  | [], _, l => by simp [ParamTraits_vector.Log_loop]
  | x :: rest, i, l => by
    simp only [ParamTraits_vector.Log_loop, LogParam]
    rw [vector_Log_loop_append Log hL rest (i + 1) (Log x _),
      vector_Log_loop_append Log hL rest (i + 1) (Log x (if (i != 0) = true then _ else _)),
      hL x (if (i != 0) = true then l ++ ascii " " else l),
      hL x (if (i != 0) = true then [] ++ ascii " " else [])]
    split_ifs <;> simp

theorem vector_Log_loop_cons {P : Type} (Log : P → std_string → std_string)
    (hL : LogAppends Log) (x : P) (rest : List P) (i : Nat) :
    ParamTraits_vector.Log_loop Log (x :: rest) i [] =
      (if i = 0 then [] else ascii " ") ++ Log x [] ++
        ParamTraits_vector.Log_loop Log rest (i + 1) [] := by
  simp only [ParamTraits_vector.Log_loop, LogParam]
  rw [vector_Log_loop_append Log hL rest (i + 1) (Log x _),
    hL x (if (i != 0) = true then [] ++ ascii " " else [])]
  by_cases h : i = 0 <;> simp [h]

theorem vector_Log_loop_succ {P : Type} (Log : P → std_string → std_string)
    (hL : LogAppends Log) :
    ∀ (v : List P) (i : Nat) (x : std_string),
      x ++ ParamTraits_vector.Log_loop Log v (i + 1) [] =
        List.intercalate (ascii " ") (x :: v.map fun item => Log item [])
  | [], _, x => by simp [ParamTraits_vector.Log_loop, List.intercalate]
  | y :: rest, i, x => by
    rw [List.map_cons, base.intercalate_cons_cons, ← vector_Log_loop_succ Log hL rest (i + 1),
      vector_Log_loop_cons Log hL]
    simp

theorem vector_Log_eq {P : Type} (Log : P → std_string → std_string) (hL : LogAppends Log)
    (v : List P) (l : std_string) :
    ParamTraits_vector.Log Log v l =
      l ++ List.intercalate (ascii " ") (v.map fun item => Log item []) := by
  unfold ParamTraits_vector.Log
  rw [vector_Log_loop_append Log hL v 0 l]
  cases v with
  | nil => simp [ParamTraits_vector.Log_loop, List.intercalate]
  | cons x rest =>
    rw [List.map_cons, ← vector_Log_loop_succ Log hL rest 0, vector_Log_loop_cons Log hL]
    simp

theorem logAppends_vector {P : Type} (Log : P → std_string → std_string)
    (hL : LogAppends Log) : LogAppends (ParamTraits_vector.Log Log) := by
  intro v l
  rw [vector_Log_eq Log hL v l, vector_Log_eq Log hL v []]
  simp

/-! ## Claim C28 -/

/-- C28: Log rendering of a pair. For element bindings whose `Log` appends,
every `std::pair<A, B>` `p` and every prior text `l`,
`ParamTraits<std::pair<A, B>>::Log` leaves in `l` the prior text followed by
exactly `(`, the rendering of `p.first`, `, `, the rendering of `p.second` and
`)`. -/
theorem C28_pair_log {A B : Type} (LogA : A → std_string → std_string)
    (LogB : B → std_string → std_string) (hA : LogAppends LogA) (hB : LogAppends LogB)
    (p : A × B) (l : std_string) :
    ParamTraits_pair.Log LogA LogB p l =
      l ++ (ascii "(" ++ LogA p.1 [] ++ ascii ", " ++ LogB p.2 [] ++ ascii ")") ∧
    (ParamTraits_pair.Log LogA LogB p l).take l.length = l := by
  have h := pair_Log_eq LogA LogB hA hB p l
  refine ⟨by rw [h]; simp, ?_⟩
  rw [h]
  simp [List.append_assoc]

/-- C28 at a concrete input: the pair of an empty `std::set<int>` and an
empty `std::map<int, int>`, logged after the prior text `p=`. -/
theorem C28_pair_log_witness :
    ParamTraits_pair.Log ParamTraits_set.Log ParamTraits_map.Log
        ((std_set.empty : std_set Int), (std_map.empty : std_map Int Int)) (ascii "p=") =
      ascii "p=(<std::set>, <std::map>)" ∧
    ParamTraits_pair.Log ParamTraits_set.Log ParamTraits_map.Log
        ((std_set.empty : std_set Int), (std_map.empty : std_map Int Int)) (ascii "p=") =
      ascii "p=" ++ (ascii "(" ++ ParamTraits_set.Log (std_set.empty : std_set Int) [] ++
        ascii ", " ++ ParamTraits_map.Log (std_map.empty : std_map Int Int) [] ++ ascii ")") :=
  ⟨by decide,
    (C28_pair_log ParamTraits_set.Log ParamTraits_map.Log logAppends_set logAppends_map
      ((std_set.empty : std_set Int), (std_map.empty : std_map Int Int)) (ascii "p=")).1⟩

/-! ## Claim C29 -/

/-- C29, as amended: Log rendering of a sequence. For an element binding
whose `Log` appends, every `std::vector<P>` `v` and every prior text `l`,
`ParamTraits<std::vector<P>>::Log` leaves in `l` the prior text followed by
the renderings of the elements of `v` in order, joined by a single space, with
nothing before the first element and nothing after the last. -/
theorem C29_vector_log {P : Type} (Log : P → std_string → std_string) (hL : LogAppends Log)
    (v : List P) (l : std_string) :
    ParamTraits_vector.Log Log v l =
      l ++ List.intercalate (ascii " ") (v.map fun item => Log item []) :=
  vector_Log_eq Log hL v l

/-- C29 at a concrete input: a vector of two sets, logged after the prior
text `v=`. -/
theorem C29_vector_log_witness :
    ParamTraits_vector.Log ParamTraits_set.Log twoSets (ascii "v=") =
      ascii "v=<std::set> <std::set>" ∧
    ParamTraits_vector.Log ParamTraits_set.Log twoSets (ascii "v=") =
      ascii "v=" ++
        List.intercalate (ascii " ") (twoSets.map fun item => ParamTraits_set.Log item []) :=
  ⟨by decide, C29_vector_log ParamTraits_set.Log logAppends_set twoSets (ascii "v=")⟩

/-- C29, as stated, fails: for a vector of two sets the `Log` appends
`<std::set> <std::set>`, the two renderings joined by one space; the text the
claim describes, `[<std::set>, <std::set>]`, is a different one, and the text
appended does not begin with `[`. -/
theorem C29_vector_log_counterexample :
    ParamTraits_vector.Log ParamTraits_set.Log twoSets [] = ascii "<std::set> <std::set>" ∧
    ParamTraits_vector.Log ParamTraits_set.Log twoSets [] ≠ ascii "[<std::set>, <std::set>]" ∧
    (ParamTraits_vector.Log ParamTraits_set.Log twoSets []).head? ≠ some 91 := by
  refine ⟨by decide, by decide, by decide⟩

/-! ## Claim C30 -/

/-- C30, as amended: Log rendering of a tuple. For field bindings whose `Log`
appends, every `TupleN` (N = 2..5) `t` and every prior text `l`,
`ParamTraits<TupleN>::Log` leaves in `l` the prior text followed by the
renderings of the fields of `t` in declared order, joined by `, `, with
nothing before the first field and nothing after the last: no parentheses are
written. -/
theorem C30_tuple_log {A B C D E : Type} (LogA : A → std_string → std_string)
    (LogB : B → std_string → std_string) (LogC : C → std_string → std_string)
    (LogD : D → std_string → std_string) (LogE : E → std_string → std_string)
    (hA : LogAppends LogA) (hB : LogAppends LogB) (hC : LogAppends LogC)
    (hD : LogAppends LogD) (hE : LogAppends LogE) (a : A) (b : B) (c : C) (d : D) (e : E)
    (l : std_string) :
    ParamTraits_Tuple2.Log LogA LogB ⟨a, b⟩ l =
      l ++ List.intercalate (ascii ", ") [LogA a [], LogB b []] ∧
    ParamTraits_Tuple3.Log LogA LogB LogC ⟨a, b, c⟩ l =
      l ++ List.intercalate (ascii ", ") [LogA a [], LogB b [], LogC c []] ∧
    ParamTraits_Tuple4.Log LogA LogB LogC LogD ⟨a, b, c, d⟩ l =
      l ++ List.intercalate (ascii ", ") [LogA a [], LogB b [], LogC c [], LogD d []] ∧
    ParamTraits_Tuple5.Log LogA LogB LogC LogD LogE ⟨a, b, c, d, e⟩ l =
      l ++ List.intercalate (ascii ", ")
        [LogA a [], LogB b [], LogC c [], LogD d [], LogE e []] := by
  refine ⟨?_, ?_, ?_, ?_⟩
  · simp only [ParamTraits_Tuple2.Log, LogParam]
    rw [hB b, hA a]
    simp [List.intercalate]
  · simp only [ParamTraits_Tuple3.Log, LogParam]
    rw [hC c, hB b, hA a]
    simp [List.intercalate]
  · simp only [ParamTraits_Tuple4.Log, LogParam]
    rw [hD d, hC c, hB b, hA a]
    simp [List.intercalate]
  · simp only [ParamTraits_Tuple5.Log, LogParam]
    rw [hE e, hD d, hC c, hB b, hA a]
    simp [List.intercalate]

/-- C30 at a concrete input: the `Tuple3` of a set, a map and a set, logged
after the prior text `t=`. -/
theorem C30_tuple_log_witness :
    ParamTraits_Tuple3.Log ParamTraits_set.Log ParamTraits_map.Log ParamTraits_set.Log
        ⟨(std_set.empty : std_set Int), (std_map.empty : std_map Int Int),
          (std_set.empty : std_set Int)⟩ (ascii "t=") =
      ascii "t=<std::set>, <std::map>, <std::set>" ∧
    ParamTraits_Tuple3.Log ParamTraits_set.Log ParamTraits_map.Log ParamTraits_set.Log
        ⟨(std_set.empty : std_set Int), (std_map.empty : std_map Int Int),
          (std_set.empty : std_set Int)⟩ (ascii "t=") =
      ascii "t=" ++ List.intercalate (ascii ", ")
        [ParamTraits_set.Log (std_set.empty : std_set Int) [],
          ParamTraits_map.Log (std_map.empty : std_map Int Int) [],
          ParamTraits_set.Log (std_set.empty : std_set Int) []] :=
  ⟨by decide,
    (C30_tuple_log ParamTraits_set.Log ParamTraits_map.Log ParamTraits_set.Log
      ParamTraits_set.Log ParamTraits_set.Log logAppends_set logAppends_map logAppends_set
      logAppends_set logAppends_set (std_set.empty : std_set Int)
      (std_map.empty : std_map Int Int) (std_set.empty : std_set Int)
      (std_set.empty : std_set Int) (std_set.empty : std_set Int) (ascii "t=")).2.1⟩

/-- C30, as stated, fails: for the `Tuple2` of two sets the `Log` appends
`<std::set>, <std::set>`; the text the claim describes,
`(<std::set>, <std::set>)`, is a different one: the text appended neither
begins with `(` nor ends with `)`. -/
theorem C30_tuple_log_counterexample :
    ParamTraits_Tuple2.Log ParamTraits_set.Log ParamTraits_set.Log
        ⟨(std_set.empty : std_set Int), (std_set.empty : std_set Int)⟩ [] =
      ascii "<std::set>, <std::set>" ∧
    ParamTraits_Tuple2.Log ParamTraits_set.Log ParamTraits_set.Log
        ⟨(std_set.empty : std_set Int), (std_set.empty : std_set Int)⟩ [] ≠
      ascii "(<std::set>, <std::set>)" ∧
    (ParamTraits_Tuple2.Log ParamTraits_set.Log ParamTraits_set.Log
        ⟨(std_set.empty : std_set Int), (std_set.empty : std_set Int)⟩ []).head? ≠ some 40 ∧
    (ParamTraits_Tuple2.Log ParamTraits_set.Log ParamTraits_set.Log
        ⟨(std_set.empty : std_set Int), (std_set.empty : std_set Int)⟩ []).getLast? ≠
      some 41 := by
  refine ⟨by decide, by decide, by decide, by decide⟩

/-! # Further properties of the parameter codec -/

/-! ## Claim C33 -/

/-- C33: unsigned 32-bit round trip across the sign bit. For every
`unsigned int` `v` (`0 <= v < 2^32`), every message and every prior content of
the destination, `ParamTraits<unsigned int>::Write` passes to `WriteInt` the
signed 32-bit `int` with the bit pattern of `v` (negative exactly when
`v >= 2^31`), and `ParamTraits<unsigned int>::Read`, started where those bytes
begin, returns true, leaves the cursor four bytes further and yields exactly
`v`. -/
theorem C33_unsigned_round_trip (v : Nat) (hv : v < 4294967296) (m0 : Message) (d : Nat) :
    ParamTraits_unsigned_int.Write m0 v = m0.WriteInt (toInt32 v) ∧
    (toInt32 v < 0 ↔ 2147483648 ≤ v) ∧
    ParamTraits_unsigned_int.Read (ParamTraits_unsigned_int.Write m0 v) m0.payload.length d =
      ⟨true, m0.payload.length + 4, v⟩ := by
  refine ⟨rfl, ?_, ?_⟩
  · unfold toInt32
    split_ifs with hlt <;> omega
  · have h := roundTrip_at_end ParamTraits_unsigned_int enc_unsigned_int (fun _ => True) IsUInt32
      ⟨appends_unsigned_int, readsBack_unsigned_int⟩ m0 d v trivial hv
    simpa [enc_unsigned_int, length_le32] using h

/-- C33 at a concrete input: the largest `unsigned int`, 4294967295, is
written as the `int` -1 and read back as 4294967295 into a destination that
held 7. -/
theorem C33_unsigned_round_trip_witness :
    ParamTraits_unsigned_int.Write emptyMessage 4294967295 = emptyMessage.WriteInt (-1) ∧
    ParamTraits_unsigned_int.Read (ParamTraits_unsigned_int.Write emptyMessage 4294967295)
      emptyMessage.payload.length 7 = ⟨true, emptyMessage.payload.length + 4, 4294967295⟩ :=
  ⟨by decide, (C33_unsigned_round_trip 4294967295 (by decide) emptyMessage 7).2.2⟩

/-! ## Claim C32 -/

theorem mem_foldl_insert {P : Type} [LinearOrder P] (xs : List P) :
    ∀ (r : std_set P) (x : P),
      x ∈ (xs.foldl std_set.insert r).elems ↔ x ∈ r.elems ∨ x ∈ xs := by
  induction xs with
  | nil => intro r x; simp
  | cons y ys ih =>
    intro r x
    rw [List.foldl_cons, ih (r.insert y) x]
    simp only [std_set.elems, std_set.insert, mem_set_insert, List.mem_cons]
    tauto

/-- A set payload of `int` with a repetition: the count 4, then the elements
3, 1, 3, 2. -/
def repeatedInts : Message :=
  emptyMessage.WriteBytes (enc_int 4 ++ (enc_int 3 ++ enc_int 1 ++ enc_int 3 ++ enc_int 2))

/-- C32: set decoding inserts into the destination without clearing it. For
every destination set `r0` and every well-formed set payload (a count `n` that
fits an `int`, then the encodings of elements `e1..en` that the element
binding reads back into a fresh `item`, repetitions allowed),
`ParamTraits<std::set<P>>::Read` returns true, leaves the cursor after the
payload and leaves the destination equal to the union of `r0` and
`{e1, ..., en}`: its members are exactly the members of `r0` and the decoded
elements, each once, so every member of `r0` is still present. -/
theorem C32_set_read_inserts {P : Type} [LinearOrder P] [Inhabited P] (T : ParamTraits P)
    (enc : P → List Byte) (D V : P → Prop) (hT : ReadsBack T enc D V) (hdef : D default)
    (m : Message) (pre rest : List Byte) (es : List P) (r0 : std_set P)
    (hV : ∀ e ∈ es, V e) (hlen : es.length < 2147483648)
    (hpay : m.payload = pre ++ (enc_int (es.length : Int) ++ es.flatMap enc) ++ rest) :
    ((ParamTraits_set T).Read m pre.length r0).ok = true ∧
    ((ParamTraits_set T).Read m pre.length r0).iter =
      pre.length + (enc_int (es.length : Int) ++ es.flatMap enc).length ∧
    (∀ x : P, x ∈ ((ParamTraits_set T).Read m pre.length r0).value.elems ↔
      x ∈ r0.elems ∨ x ∈ es) ∧
    ((ParamTraits_set T).Read m pre.length r0).value.elems.Nodup ∧
    (∀ x ∈ r0.elems, x ∈ ((ParamTraits_set T).Read m pre.length r0).value.elems) := by
  rw [set_Read_run T enc D V hT hdef m pre rest es r0 hV hlen hpay]
  refine ⟨rfl, rfl, fun x => mem_foldl_insert es r0 x, ?_, ?_⟩
  · exact (es.foldl std_set.insert r0).property.nodup
  · intro x hx
    exact (mem_foldl_insert es r0 x).mpr (Or.inl hx)

/-- C32 at a concrete input: the payload listing 3, 1, 3, 2 read into the
set `{2, 9}` leaves `{1, 2, 3, 9}`. -/
theorem C32_set_read_inserts_witness :
    (ParamTraits_set ParamTraits_int).Read repeatedInts 0
        ((std_set.empty.insert 2).insert 9) =
      ⟨true, 20, (((std_set.empty.insert 1).insert 2).insert 3).insert 9⟩ ∧
    (∀ x : Int, x ∈ ((ParamTraits_set ParamTraits_int).Read repeatedInts
        ([] : List Byte).length ((std_set.empty.insert 2).insert 9)).value.elems ↔
      x ∈ ((std_set.empty.insert 2).insert 9 : std_set Int).elems ∨ x ∈ [3, 1, 3, 2]) :=
  ⟨by decide,
    (C32_set_read_inserts ParamTraits_int enc_int (fun _ => True) IsInt32 readsBack_int trivial
      repeatedInts [] [] [3, 1, 3, 2] ((std_set.empty.insert 2).insert 9) (by decide)
      (by decide) (by decide)).2.2.1⟩

/-! ## Claim C31 -/

/-- One call `ReadParam(m, iter, &(*r)[i])` made by the loop of
`ParamTraits<std::vector<P>>::Read`: the index `i`, the cursor the call
started at, and what the call returned. -/
structure ElementRead (P : Type) where
  i : Nat
  iter : PickleIterator
  result : ReadResult P
deriving DecidableEq, Repr

/-- The element reads the loop of `ParamTraits<std::vector<P>>::Read`
performs, in the order it performs them: the loop of
`ParamTraits_vector.Read_loop`, listing its calls of `ReadParam` instead of
returning its result. -/
def ParamTraits_vector.Read_loop_calls {P : Type} [Inhabited P] (T : ParamTraits P)
    (m : Message) : Nat → Nat → PickleIterator → List P → List (ElementRead P)
  | 0, _, _, _ => []
  | n + 1, i, iter, r =>
    let e := ReadParam T m iter (r.getD i default)
    if e.ok then
      ⟨i, iter, e⟩ :: ParamTraits_vector.Read_loop_calls T m n (i + 1) e.iter (r.set i e.value)
    else [⟨i, iter, e⟩]

/-- The element reads `ParamTraits<std::vector<P>>::Read` performs: none when
the count cannot be read or fails the bound check, otherwise those of the
loop. -/
def ParamTraits_vector.Read_calls {P : Type} [Inhabited P] (sizeof_P : Nat) (T : ParamTraits P)
    (m : Message) (iter : PickleIterator) (r : List P) : List (ElementRead P) :=
  let size := m.ReadLength iter 0
  if !size.ok then []
  else if INT_MAX / sizeof_P ≤ size.value.toNat then []
  else ParamTraits_vector.Read_loop_calls T m size.value.toNat 0 size.iter
    (vector_resize r size.value.toNat)

theorem Read_loop_calls_length {P : Type} [Inhabited P] (T : ParamTraits P) (m : Message) :
    ∀ (n i : Nat) (iter : PickleIterator) (r : List P),
      (ParamTraits_vector.Read_loop_calls T m n i iter r).length ≤ n
  | 0, _, _, _ => by simp [ParamTraits_vector.Read_loop_calls]
  | n + 1, i, iter, r => by
    simp only [ParamTraits_vector.Read_loop_calls]
    generalize ReadParam T m iter (r.getD i default) = e0
    have ih := Read_loop_calls_length T m n (i + 1) e0.iter (r.set i e0.value)
    split_ifs
    · simp only [List.length_cons]; omega
    · simp

theorem Read_loop_calls_index {P : Type} [Inhabited P] (T : ParamTraits P) (m : Message) :
    ∀ (n i : Nat) (iter : PickleIterator) (r : List P),
      (ParamTraits_vector.Read_loop_calls T m n i iter r).map (fun e => e.i) =
        List.range' i (ParamTraits_vector.Read_loop_calls T m n i iter r).length
  | 0, _, _, _ => by simp [ParamTraits_vector.Read_loop_calls]
  | n + 1, i, iter, r => by
    simp only [ParamTraits_vector.Read_loop_calls]
    generalize ReadParam T m iter (r.getD i default) = e0
    have ih := Read_loop_calls_index T m n (i + 1) e0.iter (r.set i e0.value)
    split_ifs
    · simp only [List.map_cons, List.length_cons, ih, List.range'_succ]
    · simp

theorem Read_loop_calls_cursor {P : Type} [Inhabited P] (T : ParamTraits P) (m : Message) :
    ∀ (n i : Nat) (iter : PickleIterator) (r : List P),
      (ParamTraits_vector.Read_loop_calls T m n i iter r).map (fun e => e.iter) =
        (iter :: (ParamTraits_vector.Read_loop_calls T m n i iter r).map
          (fun e => e.result.iter)).take
          (ParamTraits_vector.Read_loop_calls T m n i iter r).length
  | 0, _, _, _ => by simp [ParamTraits_vector.Read_loop_calls]
  | n + 1, i, iter, r => by
    simp only [ParamTraits_vector.Read_loop_calls]
    generalize ReadParam T m iter (r.getD i default) = e0
    have ih := Read_loop_calls_cursor T m n (i + 1) e0.iter (r.set i e0.value)
    split_ifs
    · simp only [List.map_cons, List.length_cons, List.take_succ_cons]
      rw [ih]
    · simp

theorem Read_loop_calls_ok {P : Type} [Inhabited P] (T : ParamTraits P) (m : Message) :
    ∀ (n i : Nat) (iter : PickleIterator) (r : List P),
      (ParamTraits_vector.Read_loop T m n i iter r).ok = true ↔
        (ParamTraits_vector.Read_loop_calls T m n i iter r).length = n ∧
        ∀ e ∈ ParamTraits_vector.Read_loop_calls T m n i iter r, e.result.ok = true
  | 0, _, _, _ => by simp [ParamTraits_vector.Read_loop_calls, ParamTraits_vector.Read_loop]
  | n + 1, i, iter, r => by
    simp only [ParamTraits_vector.Read_loop_calls, ParamTraits_vector.Read_loop]
    generalize ReadParam T m iter (r.getD i default) = e0
    have ih := Read_loop_calls_ok T m n (i + 1) e0.iter (r.set i e0.value)
    split_ifs with h
    · rw [ih]
      simp [h]
    · simp [h]

theorem Read_loop_calls_failure {P : Type} [Inhabited P] (T : ParamTraits P) (m : Message) :
    ∀ (n i : Nat) (iter : PickleIterator) (r : List P) (k : Nat) (e : ElementRead P),
      (ParamTraits_vector.Read_loop_calls T m n i iter r)[k]? = some e →
      e.result.ok = false →
      (ParamTraits_vector.Read_loop T m n i iter r).ok = false ∧
        (ParamTraits_vector.Read_loop_calls T m n i iter r).length = k + 1
  | 0, _, _, _, k, e => by simp [ParamTraits_vector.Read_loop_calls]
  | n + 1, i, iter, r, k, e => by
    simp only [ParamTraits_vector.Read_loop_calls, ParamTraits_vector.Read_loop]
    generalize ReadParam T m iter (r.getD i default) = e0
    have ih := Read_loop_calls_failure T m n (i + 1) e0.iter (r.set i e0.value)
    split_ifs with h
    · intro hk he
      cases k with
      | zero =>
        simp only [List.getElem?_cons_zero, Option.some.injEq] at hk
        rw [← hk] at he
        simp [h] at he
      | succ k =>
        simp only [List.getElem?_cons_succ] at hk
        have := ih k e hk he
        simp [this.1, this.2]
    · intro hk he
      cases k with
      | zero => simp
      | succ k => simp at hk

theorem Read_loop_calls_last {P : Type} [Inhabited P] (T : ParamTraits P) (m : Message) :
    ∀ (n i : Nat) (iter : PickleIterator) (r : List P),
      (ParamTraits_vector.Read_loop T m n i iter r).iter =
        (((ParamTraits_vector.Read_loop_calls T m n i iter r).map
          (fun e => e.result.iter)).getLast?).getD iter
  | 0, _, _, _ => by simp [ParamTraits_vector.Read_loop_calls, ParamTraits_vector.Read_loop]
  | n + 1, i, iter, r => by
    simp only [ParamTraits_vector.Read_loop_calls, ParamTraits_vector.Read_loop]
    generalize ReadParam T m iter (r.getD i default) = e0
    have ih := Read_loop_calls_last T m n (i + 1) e0.iter (r.set i e0.value)
    split_ifs with h
    · rw [ih, List.map_cons]
      cases hc : (ParamTraits_vector.Read_loop_calls T m n (i + 1) e0.iter
          (r.set i e0.value)).map (fun e => e.result.iter) with
      | nil => simp
      | cons a l =>
        rw [List.getLast?_eq_getLast _ (List.cons_ne_nil a l),
          List.getLast?_eq_getLast _ (List.cons_ne_nil _ (a :: l))]
        simp
    · simp

theorem getD_set_ne {P : Type} (r : List P) (i j : Nat) (v d : P) (h : i ≠ j) :
    (r.set i v).getD j d = r.getD j d := by
  rw [List.getD_eq_getElem?_getD, List.getD_eq_getElem?_getD, List.getElem?_set_ne h]

theorem Read_loop_calls_result {P : Type} [Inhabited P] (T : ParamTraits P) (m : Message) :
    ∀ (n i : Nat) (iter : PickleIterator) (r : List P),
      ∀ e ∈ ParamTraits_vector.Read_loop_calls T m n i iter r,
        i ≤ e.i ∧ e.result = ReadParam T m e.iter (r.getD e.i default)
  | 0, _, _, _ => by
    intro e he
    exact absurd he (List.not_mem_nil e)
  | n + 1, i, iter, r => by
    intro e he
    unfold ParamTraits_vector.Read_loop_calls at he
    have ih := Read_loop_calls_result T m n (i + 1)
      (ReadParam T m iter (r.getD i default)).iter
      (r.set i (ReadParam T m iter (r.getD i default)).value)
    by_cases h : (ReadParam T m iter (r.getD i default)).ok = true
    · rw [if_pos h] at he
      rcases List.mem_cons.mp he with he | he
      · rw [he]
        exact ⟨Nat.le_refl i, rfl⟩
      · have := ih e he
        refine ⟨by omega, ?_⟩
        rw [this.2, getD_set_ne r i e.i _ default (by omega)]
    · rw [if_neg h] at he
      rw [List.mem_singleton.mp he]
      exact ⟨Nat.le_refl i, rfl⟩

theorem Read_loop_calls_value {P : Type} [Inhabited P] (T : ParamTraits P) (m : Message) :
    ∀ (n i : Nat) (iter : PickleIterator) (r : List P),
      (ParamTraits_vector.Read_loop T m n i iter r).value =
        (ParamTraits_vector.Read_loop_calls T m n i iter r).foldl
          (fun acc e => acc.set e.i e.result.value) r
  | 0, _, _, _ => by simp [ParamTraits_vector.Read_loop_calls, ParamTraits_vector.Read_loop]
  | n + 1, i, iter, r => by
    simp only [ParamTraits_vector.Read_loop_calls, ParamTraits_vector.Read_loop]
    generalize ReadParam T m iter (r.getD i default) = e0
    have ih := Read_loop_calls_value T m n (i + 1) e0.iter (r.set i e0.value)
    split_ifs with h
    · rw [ih, List.foldl_cons]
    · simp

/-- Slots that no element read names are left as they were. -/
theorem foldl_set_untouched {P : Type} (calls : List (ElementRead P)) :
    ∀ (r : List P) (j : Nat) (d : P), (∀ e ∈ calls, e.i ≠ j) →
      (calls.foldl (fun acc e => acc.set e.i e.result.value) r).getD j d = r.getD j d := by
  induction calls with
  | nil => intro r j d _; rfl
  | cons e rest ih =>
    intro r j d h
    rw [List.foldl_cons, ih (r.set e.i e.result.value) j d
      (fun x hx => h x (List.mem_cons_of_mem _ hx)),
      getD_set_ne r e.i j _ d (h e (List.mem_cons_self _ _))]

theorem foldl_set_length {P : Type} (calls : List (ElementRead P)) :
    ∀ r : List P, (calls.foldl (fun acc e => acc.set e.i e.result.value) r).length = r.length := by
  induction calls with
  | nil => intro r; rfl
  | cons e rest ih => intro r; rw [List.foldl_cons, ih, List.length_set]

/-- The slot an element read names holds what that read stored, when the
reads name different slots of the vector. -/
theorem foldl_set_written {P : Type} (calls : List (ElementRead P)) :
    ∀ (r : List P) (d : P), (calls.map fun e => e.i).Nodup → (∀ e ∈ calls, e.i < r.length) →
      ∀ e ∈ calls,
        (calls.foldl (fun acc e => acc.set e.i e.result.value) r).getD e.i d =
          e.result.value := by
  induction calls with
  | nil => intro r d _ _ e he; exact absurd he (List.not_mem_nil e)
  | cons x rest ih =>
    intro r d hnd hlt e he
    rw [List.map_cons, List.nodup_cons] at hnd
    rw [List.foldl_cons]
    rcases List.mem_cons.mp he with he | he
    · subst he
      rw [foldl_set_untouched rest _ e.i d (fun y hy hyi =>
        hnd.1 (List.mem_map.mpr ⟨y, hy, hyi⟩))]
      rw [List.getD_eq_getElem?_getD, List.getElem?_set_self (hlt e (List.mem_cons_self _ _))]
      rfl
    · exact ih (r.set x.i x.result.value) d hnd.2
        (fun y hy => by rw [List.length_set]; exact hlt y (List.mem_cons_of_mem _ hy)) e he

/-- C31: a failing element fails the whole sequence read. For every buffer
whose count `c` is read and passes the bound check, the element reads
`ParamTraits<std::vector<P>>::Read` performs are at most `c`, for the indices
0, 1, 2, ... in order; the first starts at the cursor after the count and each
next one at the cursor the one before it returned; each is the `ReadParam` of
the element slot of its index. `Read` returns true exactly when it performed
`c` element reads and all of them succeeded. If the read of element `k` fails,
`Read` returns false at once: that read is the last one performed, the cursor
`Read` leaves is the one that read returned, and every slot after `k` of the
destination is as `resize(c)` left it, so no element after `k` was decoded
into it. In every case the destination `Read` leaves is the vector resized to
`c` in which exactly the slots of the element reads performed were stored
into, each holding what its read left there, and the cursor is the one the
last element read returned. -/
theorem C31_vector_read_fail_fast {P : Type} [Inhabited P] (sizeof_P : Nat) (T : ParamTraits P)
    (m : Message) (iter : PickleIterator) (r : List P) (c : Nat) (start : PickleIterator)
    (hcount : m.ReadLength iter 0 = ⟨true, start, (c : Int)⟩)
    (hbound : c < INT_MAX / sizeof_P) :
    (ParamTraits_vector.Read_calls sizeof_P T m iter r).length ≤ c ∧
    (ParamTraits_vector.Read_calls sizeof_P T m iter r).map (fun e => e.i) =
      List.range (ParamTraits_vector.Read_calls sizeof_P T m iter r).length ∧
    (ParamTraits_vector.Read_calls sizeof_P T m iter r).map (fun e => e.iter) =
      (start :: (ParamTraits_vector.Read_calls sizeof_P T m iter r).map
        (fun e => e.result.iter)).take
        (ParamTraits_vector.Read_calls sizeof_P T m iter r).length ∧
    (∀ e ∈ ParamTraits_vector.Read_calls sizeof_P T m iter r,
      e.result = ReadParam T m e.iter ((vector_resize r c).getD e.i default)) ∧
    ((ParamTraits_vector.Read sizeof_P T m iter r).ok = true ↔
      (ParamTraits_vector.Read_calls sizeof_P T m iter r).length = c ∧
      ∀ e ∈ ParamTraits_vector.Read_calls sizeof_P T m iter r, e.result.ok = true) ∧
    (∀ (k : Nat) (e : ElementRead P),
      (ParamTraits_vector.Read_calls sizeof_P T m iter r)[k]? = some e →
      e.result.ok = false →
      (ParamTraits_vector.Read sizeof_P T m iter r).ok = false ∧
        (ParamTraits_vector.Read_calls sizeof_P T m iter r).length = k + 1 ∧
        (ParamTraits_vector.Read sizeof_P T m iter r).iter = e.result.iter ∧
        ∀ j : Nat, k < j →
          (ParamTraits_vector.Read sizeof_P T m iter r).value.getD j default =
            (vector_resize r c).getD j default) ∧
    (ParamTraits_vector.Read sizeof_P T m iter r).iter =
      (((ParamTraits_vector.Read_calls sizeof_P T m iter r).map
        (fun e => e.result.iter)).getLast?).getD start ∧
    (ParamTraits_vector.Read sizeof_P T m iter r).value =
      (ParamTraits_vector.Read_calls sizeof_P T m iter r).foldl
        (fun acc e => acc.set e.i e.result.value) (vector_resize r c) ∧
    (ParamTraits_vector.Read sizeof_P T m iter r).value.length = c ∧
    (∀ e ∈ ParamTraits_vector.Read_calls sizeof_P T m iter r,
      (ParamTraits_vector.Read sizeof_P T m iter r).value.getD e.i default = e.result.value) ∧
    (∀ j : Nat, (ParamTraits_vector.Read_calls sizeof_P T m iter r).length ≤ j →
      (ParamTraits_vector.Read sizeof_P T m iter r).value.getD j default =
        (vector_resize r c).getD j default) := by
  have hR : ParamTraits_vector.Read sizeof_P T m iter r =
      ParamTraits_vector.Read_loop T m c 0 start (vector_resize r c) := by
    simp [ParamTraits_vector.Read, hcount, not_le.mpr hbound]
  have hC : ParamTraits_vector.Read_calls sizeof_P T m iter r =
      ParamTraits_vector.Read_loop_calls T m c 0 start (vector_resize r c) := by
    simp [ParamTraits_vector.Read_calls, hcount, not_le.mpr hbound]
  rw [hR, hC]
  have hlen := Read_loop_calls_length T m c 0 start (vector_resize r c)
  have hidx : (ParamTraits_vector.Read_loop_calls T m c 0 start (vector_resize r c)).map
      (fun e => e.i) =
      List.range (ParamTraits_vector.Read_loop_calls T m c 0 start (vector_resize r c)).length := by
    rw [Read_loop_calls_index T m c 0 start _, List.range_eq_range']
  have hlast := Read_loop_calls_last T m c 0 start (vector_resize r c)
  have hval := Read_loop_calls_value T m c 0 start (vector_resize r c)
  have hfail := Read_loop_calls_failure T m c 0 start (vector_resize r c)
  have hlt : ∀ e ∈ ParamTraits_vector.Read_loop_calls T m c 0 start (vector_resize r c),
      e.i < (ParamTraits_vector.Read_loop_calls T m c 0 start (vector_resize r c)).length := by
    intro e he
    have : e.i ∈ (ParamTraits_vector.Read_loop_calls T m c 0 start (vector_resize r c)).map
        (fun e => e.i) := List.mem_map.mpr ⟨e, he, rfl⟩
    rw [hidx] at this
    exact List.mem_range.mp this
  have hrest : ∀ j : Nat,
      (ParamTraits_vector.Read_loop_calls T m c 0 start (vector_resize r c)).length ≤ j →
      (ParamTraits_vector.Read_loop T m c 0 start (vector_resize r c)).value.getD j default =
        (vector_resize r c).getD j default := by
    intro j hj
    rw [hval]
    exact foldl_set_untouched _ _ j default (fun e he => by have := hlt e he; omega)
  refine ⟨hlen, hidx, Read_loop_calls_cursor T m c 0 start _,
    fun e he => (Read_loop_calls_result T m c 0 start _ e he).2,
    Read_loop_calls_ok T m c 0 start _, ?_, hlast, hval, ?_, ?_, hrest⟩
  · intro k e hk he
    have h := hfail k e hk he
    refine ⟨h.1, h.2, ?_, fun j hj => hrest j (by omega)⟩
    rw [hlast, List.getLast?_eq_getElem?, List.length_map, h.2, Nat.add_sub_cancel,
      List.getElem?_map, hk]
    rfl
  · rw [hval, foldl_set_length, vector_resize_length]
  · intro e he
    rw [hval]
    refine foldl_set_written _ _ default ?_ (fun x hx => ?_) e he
    · rw [hidx]
      exact List.nodup_range _
    · rw [vector_resize_length]
      have := hlt x hx
      omega

/-- A payload for a `std::vector<std::vector<int>>`: the count 3, then an
empty vector (count 0), then a vector whose count field holds -1, then the
vector `[5]` (count 1 and the element 5). -/
def brokenSecond : Message :=
  emptyMessage.WriteBytes (enc_int 3 ++ enc_int 0 ++ enc_int (-1) ++ (enc_int 1 ++ enc_int 5))

/-- C31 at a concrete input: in the payload of three vectors whose second
has the count -1, read into the destination `[[7], [8], [9]]`, the outer
`Read` performs the element reads 0 (at cursor 4, succeeding, cursor 8) and 1
(at cursor 8, failing) and no third one; it returns false with the cursor 12
of the failing read, and slot 2 of the destination still holds `[9]`, not the
vector `[5]` that stands third in the payload. -/
theorem C31_vector_read_fail_fast_witness :
    ParamTraits_vector.Read_calls 24 (ParamTraits_vector 4 ParamTraits_int) brokenSecond 0
        [[7], [8], [9]] =
      [⟨0, 4, ⟨true, 8, []⟩⟩, ⟨1, 8, ⟨false, 12, [8]⟩⟩] ∧
    ParamTraits_vector.Read 24 (ParamTraits_vector 4 ParamTraits_int) brokenSecond 0
        [[7], [8], [9]] =
      ⟨false, 12, [[], [8], [9]]⟩ ∧
    ((ParamTraits_vector.Read 24 (ParamTraits_vector 4 ParamTraits_int) brokenSecond 0
        [[7], [8], [9]]).ok = false ∧
      (ParamTraits_vector.Read_calls 24 (ParamTraits_vector 4 ParamTraits_int) brokenSecond 0
        [[7], [8], [9]]).length = 1 + 1 ∧
      (ParamTraits_vector.Read 24 (ParamTraits_vector 4 ParamTraits_int) brokenSecond 0
        [[7], [8], [9]]).iter = 12 ∧
      ∀ j : Nat, 1 < j →
        (ParamTraits_vector.Read 24 (ParamTraits_vector 4 ParamTraits_int) brokenSecond 0
          [[7], [8], [9]]).value.getD j default =
          (vector_resize [[7], [8], [9]] 3).getD j default) :=
  ⟨by decide, by decide,
    (C31_vector_read_fail_fast 24 (ParamTraits_vector 4 ParamTraits_int) brokenSecond 0
      [[7], [8], [9]] 3 4 (by decide) (by decide)).2.2.2.2.2.1 1 ⟨1, 8, ⟨false, 12, [8]⟩⟩
      (by decide) rfl⟩

end IPC

/-! # JSON string quoting: concatenation -/

namespace base

theorem JsonDoubleQuoteT_loop_concat (s t : std_string) :
    JsonDoubleQuoteT_loop (s ++ t) [] = JsonDoubleQuoteT_loop s [] ++ JsonDoubleQuoteT_loop t [] := by
  induction s with
  | nil => simp [JsonDoubleQuoteT_loop]
  | cons c rest ih =>
    rw [List.cons_append, JsonDoubleQuoteT_loop_cons c (rest ++ t), ih,
      JsonDoubleQuoteT_loop_cons c rest, List.append_assoc]

theorem JsonDoubleQuoteT_loop_flatMap (s : std_string) :
    JsonDoubleQuoteT_loop s [] = s.flatMap fun c => JsonDoubleQuoteT_loop [c] [] := by
  induction s with
  | nil => rfl
  | cons c rest ih => rw [JsonDoubleQuoteT_loop_cons c rest, ih, List.flatMap_cons]

/-- C34: escaping distributes over concatenation. For every two strings `s`
and `t` and every prior content of `dst`, the text `JsonDoubleQuote` appends
for `s ++ t` with `put_in_quotes = false` is the text it appends for `s`
followed by the text it appends for `t`; the text for a string is the texts
for its bytes, one after the other in input order, so each byte is escaped
independently of its neighbours. -/
theorem C34_escaping_concat (s t dst : std_string) :
    JsonDoubleQuote (s ++ t) false [] = JsonDoubleQuote s false [] ++ JsonDoubleQuote t false [] ∧
    JsonDoubleQuote (s ++ t) false dst =
      dst ++ (JsonDoubleQuote s false [] ++ JsonDoubleQuote t false []) ∧
    JsonDoubleQuote (s ++ t) false dst = JsonDoubleQuote t false (JsonDoubleQuote s false dst) ∧
    JsonDoubleQuote s false [] = s.flatMap fun c => JsonDoubleQuote [c] false [] := by
  have h1 : JsonDoubleQuote (s ++ t) false [] =
      JsonDoubleQuote s false [] ++ JsonDoubleQuote t false [] := by
    rw [JsonDoubleQuote_unquoted, JsonDoubleQuote_unquoted, JsonDoubleQuote_unquoted]
    exact JsonDoubleQuoteT_loop_concat s t
  refine ⟨h1, ?_, ?_, ?_⟩
  · rw [JsonDoubleQuote_append_any, h1]
  · rw [JsonDoubleQuote_append_any (s ++ t), JsonDoubleQuote_append_any t,
      JsonDoubleQuote_append_any s, h1, List.append_assoc]
  · simp only [JsonDoubleQuote_unquoted]
    exact JsonDoubleQuoteT_loop_flatMap s

/-- C34 at a concrete input: the strings `a"` and a newline followed by
`b`. -/
theorem C34_escaping_concat_witness :
    JsonDoubleQuote (ascii "a\"" ++ ascii "\nb") false [] = ascii "a\\\"\\nb" ∧
    JsonDoubleQuote (ascii "a\"") false [] = ascii "a\\\"" ∧
    JsonDoubleQuote (ascii "\nb") false [] = ascii "\\nb" ∧
    JsonDoubleQuote (ascii "a\"" ++ ascii "\nb") false [] =
      JsonDoubleQuote (ascii "a\"") false [] ++ JsonDoubleQuote (ascii "\nb") false [] :=
  ⟨by decide, by decide, by decide, (C34_escaping_concat (ascii "a\"") (ascii "\nb") []).1⟩

end base
